import Mathlib

/-!
Kubernetes environment adapter: attribute generation

A shallow embedding of `mixer/adapter/kubernetesenv/kubernetesenv.go`:
the key deriver `keyFromUID`, the container resolver `findContainer`, the
pod lookup `findPod` and the request handler `GenerateKubernetesAttributes`.

Go strings are sequences of characters (`Str`).  Every string operation the
adapter performs compares against ASCII patterns (`"kubernetes://"`, `"."`),
so the character view and the byte view of a string agree.
-/

set_option autoImplicit false
set_option linter.dupNamespace false

namespace Kubernetesenv

/-- A Go string. -/
abbrev Str := List Char

/-! ## The parts of Go's `strings` package the adapter calls -/

/-- Go `strings.HasPrefix`: `len(s) >= len(prefix) && s[0:len(prefix)] == prefix`. -/
def HasPrefix (s pre : Str) : Bool :=
  decide (pre.length ≤ s.length) && decide (s.take pre.length = pre)

/-- Go `strings.TrimPrefix`: `s` without the leading `prefix`, or `s` itself
when it does not start with `prefix`. -/
def TrimPrefix (s pre : Str) : Str :=
  if HasPrefix s pre then s.drop pre.length else s

/-- Go `strings.Contains`: `substr` occurs somewhere within `s`. -/
def Contains : Str → Str → Bool
  | [], substr => HasPrefix [] substr
  | c :: cs, substr => HasPrefix (c :: cs) substr || Contains cs substr

/-- Go `strings.Split(s, sep)` for a one-byte separator: the pieces of `s`
between consecutive occurrences of `sep`; an input with `n` separators
yields `n + 1` pieces. -/
def Split : Str → Char → List Str
  | [], _ => [[]]
  | c :: cs, sep =>
    if c = sep then [] :: Split cs sep
    else
      match Split cs sep with
      | [] => [[c]]
      | p :: ps => (c :: p) :: ps

/-! ## The parts of Go's `net` package the adapter calls

`net.IP` is a byte slice; `none` is the nil slice.  The adapter only asks a
`net.IP` whether it is nil, whether it is unspecified, and for its string
form, and it calls `net.ParseIP`.  The handler code is parametrised by these
three library functions. -/

/-- Go `net.IP`: a byte slice, `none` being nil. -/
abbrev IP := Option (List Nat)

/-- The functions of Go's `net` package used by the adapter. -/
structure Net where
  /-- Go `net.ParseIP`: nil when the string is not an IP literal. -/
  ParseIP : Str → IP
  /-- Go `net.IP.IsUnspecified`. -/
  IsUnspecified : IP → Bool
  /-- Go `net.IP.String`. -/
  IPString : IP → Str

/-! ## A model of Go's `net` package (`net/ip.go`, `net/parse.go`)

The library functions are modelled after the Go standard library so that
the handler can be run on concrete requests. -/

/-- Go `IPv4len`. -/
def IPv4len : Nat := 4

/-- Go `IPv6len`. -/
def IPv6len : Nat := 16

/-- Go `big` of `net/parse.go`: bigger than any number the parsers accept. -/
def big : Nat := 0xFFFFFF

/-- Loop of Go `dtoi`: `n` is the number read so far, `i` the bytes consumed. -/
def dtoiLoop : Str → Nat → Nat → Nat × Nat × Bool
  | [], n, i => if i = 0 then (0, 0, false) else (n, i, true)
  | c :: cs, n, i =>
    if 48 ≤ c.toNat ∧ c.toNat ≤ 57 then
      if n * 10 + (c.toNat - 48) ≥ big then (big, i, false)
      else dtoiLoop cs (n * 10 + (c.toNat - 48)) (i + 1)
    else if i = 0 then (0, 0, false) else (n, i, true)

/-- Go `dtoi`: decimal to integer; returns number, bytes consumed, success. -/
def dtoi (s : Str) : Nat × Nat × Bool := dtoiLoop s 0 0

/-- The value of a hexadecimal digit, as the three branches of Go `xtoi` read it. -/
def hexVal (c : Char) : Option Nat :=
  if 48 ≤ c.toNat ∧ c.toNat ≤ 57 then some (c.toNat - 48)
  else if 97 ≤ c.toNat ∧ c.toNat ≤ 102 then some (c.toNat - 97 + 10)
  else if 65 ≤ c.toNat ∧ c.toNat ≤ 70 then some (c.toNat - 65 + 10)
  else none

/-- Loop of Go `xtoi`. -/
def xtoiLoop : Str → Nat → Nat → Nat × Nat × Bool
  | [], n, i => if i = 0 then (0, i, false) else (n, i, true)
  | c :: cs, n, i =>
    match hexVal c with
    | some d =>
      if n * 16 + d ≥ big then (0, i, false)
      else xtoiLoop cs (n * 16 + d) (i + 1)
    | none => if i = 0 then (0, i, false) else (n, i, true)

/-- Go `xtoi`: hexadecimal to integer; returns number, bytes consumed, success. -/
def xtoi (s : Str) : Nat × Nat × Bool := xtoiLoop s 0 0

/-- Go `v4InV6Prefix`. -/
def v4InV6Prefix : List Nat := [0, 0, 0, 0, 0, 0, 0, 0, 0, 0, 0xff, 0xff]

/-- Go `net.IPv4`: the 16-byte form of the address `a.b.c.d`. -/
def IPv4 (a b c d : Nat) : List Nat := v4InV6Prefix ++ [a, b, c, d]

/-- Loop of Go `parseIPv4`; the first argument counts the octets still to
read (`IPv4len - i`), `p` holds the octets read so far. -/
def parseIPv4Loop : Nat → Nat → Str → List Nat → Option (List Nat × Str)
  | 0, _, s, p => some (p, s)
  | k + 1, i, s, p =>
    if s.length = 0 then none
    else
      match (if i > 0 then (match s with
                            | [] => none
                            | c :: t => if c = '.' then some t else none)
             else some s) with
      | none => none
      | some s1 =>
        if (dtoi s1).2.2 = false ∨ (dtoi s1).1 > 0xFF then none
        else parseIPv4Loop k (i + 1) (s1.drop (dtoi s1).2.1) (p ++ [(dtoi s1).1])

/-- Go `parseIPv4`: parse an IPv4 address `d.d.d.d`. -/
def parseIPv4 (s : Str) : IP :=
  match parseIPv4Loop IPv4len 0 s [] with
  | some ([a, b, c, d], []) => some (IPv4 a b c d)
  | _ => none

/-- The local variables of Go `parseIPv6`. -/
structure V6State where
  ip : List Nat
  ellipsis : Int
  i : Nat
  s : Str

/-- Main loop of Go `parseIPv6` (`for i < IPv6len`).  Every iteration that
continues advances `i` by two, so `IPv6len` iterations of fuel are never
used up.  `none` is `return nil`; `some st` is the state on leaving the loop. -/
def parseIPv6Loop : Nat → V6State → Option V6State
  | 0, st => some st
  | fuel + 1, st =>
    if ¬ st.i < IPv6len then some st
    else if (xtoi st.s).2.2 = false ∨ (xtoi st.s).1 > 0xFFFF then none
    else if st.s.get? (xtoi st.s).2.1 = some '.' then
      -- trailing IPv4
      if st.ellipsis < 0 ∧ st.i ≠ IPv6len - IPv4len then none
      else if st.i + IPv4len > IPv6len then none
      else
        match parseIPv4 st.s with
        | none => none
        | some ip4 =>
          some { ip := (((st.ip.set st.i (ip4.getD 12 0)).set (st.i + 1) (ip4.getD 13 0)).set
                          (st.i + 2) (ip4.getD 14 0)).set (st.i + 3) (ip4.getD 15 0),
                 ellipsis := st.ellipsis, i := st.i + IPv4len, s := [] }
    else
      match st.s.drop (xtoi st.s).2.1 with
      | [] =>
        some { ip := (st.ip.set st.i ((xtoi st.s).1 / 256 % 256)).set (st.i + 1) ((xtoi st.s).1 % 256),
               ellipsis := st.ellipsis, i := st.i + 2, s := [] }
      | [_] => none
      | c0 :: c1 :: rest =>
        if c0 ≠ ':' then none
        else if c1 = ':' then
          if st.ellipsis ≥ 0 then none
          else
            match rest with
            | [] =>
              some { ip := (st.ip.set st.i ((xtoi st.s).1 / 256 % 256)).set (st.i + 1)
                             ((xtoi st.s).1 % 256),
                     ellipsis := ((st.i + 2 : Nat) : Int), i := st.i + 2, s := [] }
            | _ :: _ =>
              parseIPv6Loop fuel
                { ip := (st.ip.set st.i ((xtoi st.s).1 / 256 % 256)).set (st.i + 1)
                          ((xtoi st.s).1 % 256),
                  ellipsis := ((st.i + 2 : Nat) : Int), i := st.i + 2, s := rest }
        else
          parseIPv6Loop fuel
            { ip := (st.ip.set st.i ((xtoi st.s).1 / 256 % 256)).set (st.i + 1)
                      ((xtoi st.s).1 % 256),
              ellipsis := st.ellipsis, i := st.i + 2, s := c1 :: rest }

/-- The tail of Go `parseIPv6`, after the main loop: the whole string must
have been used, and a short parse is completed by expanding the ellipsis
into zero bytes. -/
def parseIPv6Finish (st : V6State) : IP :=
  if st.s.length ≠ 0 then none
  else if st.i < IPv6len then
    if st.ellipsis < 0 then none
    else
      some (st.ip.take st.ellipsis.toNat ++ List.replicate (IPv6len - st.i) 0 ++
              (st.ip.drop st.ellipsis.toNat).take (st.i - st.ellipsis.toNat))
  else if st.ellipsis ≥ 0 then none
  else some st.ip

/-- Go `parseIPv6` without zone: parse an IPv6 address as of RFC 4291. -/
def parseIPv6 (s : Str) : IP :=
  match s with
  | ':' :: ':' :: [] => some (List.replicate IPv6len 0)
  | ':' :: ':' :: c :: t =>
    match parseIPv6Loop (IPv6len + 1) { ip := List.replicate IPv6len 0, ellipsis := 0, i := 0, s := c :: t } with
    | none => none
    | some st => parseIPv6Finish st
  | _ =>
    match parseIPv6Loop (IPv6len + 1) { ip := List.replicate IPv6len 0, ellipsis := -1, i := 0, s := s } with
    | none => none
    | some st => parseIPv6Finish st

/-- Loop of Go `net.ParseIP`: the first `'.'` or `':'` of the string decides
between the IPv4 and the IPv6 parser, which is given the whole string `s`. -/
def ParseIPLoop (s : Str) : Str → IP
  | [] => none
  | c :: cs =>
    if c = '.' then parseIPv4 s
    else if c = ':' then parseIPv6 s
    else ParseIPLoop s cs

/-- Go `net.ParseIP`. -/
def ParseIP (s : Str) : IP := ParseIPLoop s s

/-- Go `bytesEqual` applied to `IP.Equal`: equality of addresses, an IPv4
address and its 16-byte form being equal. -/
def IPEqual (ip x : List Nat) : Bool :=
  if ip.length = x.length then decide (ip = x)
  else if ip.length = IPv4len ∧ x.length = IPv6len then
    decide (x.take 12 = v4InV6Prefix) && decide (ip = x.drop 12)
  else if ip.length = IPv6len ∧ x.length = IPv4len then
    decide (ip.take 12 = v4InV6Prefix) && decide (ip.drop 12 = x)
  else false

/-- Go `net.IP.IsUnspecified`: equal to `0.0.0.0` or to `::`. -/
def IsUnspecified (ip : IP) : Bool :=
  IPEqual (ip.getD []) (IPv4 0 0 0 0) || IPEqual (ip.getD []) (List.replicate IPv6len 0)

/-- Loop of Go `uitoa`: prepend decimal digits while `val >= 10`. -/
def uitoaLoop : Nat → Nat → Str → Str
  | 0, _, acc => acc
  | fuel + 1, val, acc =>
    if val ≥ 10 then uitoaLoop fuel (val / 10) (Char.ofNat (48 + val % 10) :: acc)
    else Char.ofNat (48 + val) :: acc

/-- Go `uitoa`: decimal form of an unsigned integer (a 20 byte buffer). -/
def uitoa (val : Nat) : Str :=
  if val = 0 then ['0'] else uitoaLoop 20 val []

/-- Go `hexDigit`. -/
def hexDigit (v : Nat) : Char :=
  ("0123456789abcdef".toList).getD v '0'

/-- Go `appendHex`: hexadecimal form without leading zeros. -/
def appendHex (dst : Str) (i : Nat) : Str :=
  if i = 0 then dst ++ ['0']
  else
    dst ++ ([7, 6, 5, 4, 3, 2, 1, 0].filter (fun j => i / 16 ^ j > 0)).map
      (fun j => hexDigit (i / 16 ^ j % 16))

/-- Go `hexString`: two hexadecimal digits per byte. -/
def hexString (b : List Nat) : Str :=
  b.flatMap (fun tn => [hexDigit (tn / 16 % 16), hexDigit (tn % 16)])

/-- Go `net.IP.To4`: the 4-byte form of an IPv4 address, or nil. -/
def To4 (ip : List Nat) : IP :=
  if ip.length = IPv4len then some ip
  else if ip.length = IPv6len ∧ ip.take 10 = List.replicate 10 0 ∧ ip.getD 10 0 = 0xff ∧
      ip.getD 11 0 = 0xff then some (ip.drop 12)
  else none

/-- Inner loop of the zero-run search of `IP.String`: the end `j` of the run
of zero 16-bit groups starting at `j`. -/
def zeroRunEnd (p : List Nat) : Nat → Nat → Nat
  | 0, j => j
  | fuel + 1, j =>
    if j < IPv6len ∧ p.getD j 0 = 0 ∧ p.getD (j + 1) 0 = 0 then zeroRunEnd p fuel (j + 2) else j

/-- Outer loop of the zero-run search of `IP.String`: the longest run
`[e0, e1)` of zero groups, the leftmost one winning ties. -/
def longestZeroRun (p : List Nat) : Nat → Nat → Int → Int → Int × Int
  | 0, _, e0, e1 => (e0, e1)
  | fuel + 1, i, e0, e1 =>
    if ¬ i < IPv6len then (e0, e1)
    else if zeroRunEnd p 8 i > i ∧ ((zeroRunEnd p 8 i : Nat) : Int) - (i : Int) > e1 - e0 then
      longestZeroRun p fuel (zeroRunEnd p 8 i + 2) (i : Int) ((zeroRunEnd p 8 i : Nat) : Int)
    else longestZeroRun p fuel (i + 2) e0 e1

/-- Printing loop of `IP.String` for a 16-byte address. -/
def printV6 (p : List Nat) (e0 e1 : Int) : Nat → Nat → Str → Str
  | 0, _, b => b
  | fuel + 1, i, b =>
    if ¬ i < IPv6len then b
    else if (i : Int) = e0 then
      if e1.toNat ≥ IPv6len then b ++ [':', ':']
      else printV6 p e0 e1 fuel (e1.toNat + 2)
             (appendHex (b ++ [':', ':']) (p.getD e1.toNat 0 * 256 + p.getD (e1.toNat + 1) 0))
    else if i > 0 then
      printV6 p e0 e1 fuel (i + 2) (appendHex (b ++ [':']) (p.getD i 0 * 256 + p.getD (i + 1) 0))
    else
      printV6 p e0 e1 fuel (i + 2) (appendHex b (p.getD i 0 * 256 + p.getD (i + 1) 0))

/-- Go `net.IP.String`. -/
def IPString (ip : IP) : Str :=
  match ip with
  | none => "<nil>".toList
  | some p =>
    if p.length = 0 then "<nil>".toList
    else
      match To4 p with
      | some [a, b, c, d] => uitoa a ++ ['.'] ++ uitoa b ++ ['.'] ++ uitoa c ++ ['.'] ++ uitoa d
      | _ =>
        if p.length ≠ IPv6len then '?' :: hexString p
        else
          if (longestZeroRun p 9 0 (-1) (-1)).2 - (longestZeroRun p 9 0 (-1) (-1)).1 ≤ 2 then
            printV6 p (-1) (-1) 9 0 []
          else
            printV6 p (longestZeroRun p 9 0 (-1) (-1)).1 (longestZeroRun p 9 0 (-1) (-1)).2 9 0 []

/-- The `net` package of the Go standard library. -/
def goNet : Net := { ParseIP := ParseIP, IsUnspecified := IsUnspecified, IPString := IPString }

/-! ## Key derivation -/

/-- The constant `kubePrefix`. -/
def kubePrefix : Str := "kubernetes://".toList

/-- The function `keyFromUID`.  `key` is the store's key constructor
(`key(namespace, name)`), declared next to the cache controller. -/
def keyFromUID (N : Net) (key : Str → Str → Str) (uid : Str) : Str :=
  if (N.ParseIP uid).isSome then uid
  else
    let fullname := TrimPrefix uid kubePrefix
    if Contains fullname ['.'] then
      match Split fullname '.' with
      | [p0, p1] => key p1 p0
      | _ => fullname
    else fullname

/-! ## Kubernetes objects (`k8s.io/api/core/v1`)

Only the fields the adapter reads are kept. -/

/-- Go `v1.ContainerPort`; `ContainerPort` is an `int32`. -/
structure v1.ContainerPort where
  ContainerPort : Int
  deriving DecidableEq, Repr

/-- Go `v1.Container`. -/
structure v1.Container where
  Name : Str
  Ports : List v1.ContainerPort
  deriving DecidableEq, Repr

/-- Go `v1.PodSpec`. -/
structure v1.PodSpec where
  ServiceAccountName : Str
  Containers : List v1.Container
  deriving DecidableEq, Repr

/-- Go `v1.PodStatus`. -/
structure v1.PodStatus where
  PodIP : Str
  HostIP : Str
  deriving DecidableEq, Repr

/-- Go `v1.Pod`; `Labels` is a `map[string]string`, kept as the list of its entries. -/
structure v1.Pod where
  Name : Str
  Namespace : Str
  Labels : List (Str × Str)
  Spec : v1.PodSpec
  Status : v1.PodStatus
  deriving DecidableEq, Repr

/-! ## Container resolution -/

/-- Inner loop of `findContainer`: some port of the container equals `port`
(`int64(cp.ContainerPort) == port`; widening an `int32` keeps its value). -/
def findContainerPorts (port : Int) : List v1.ContainerPort → Bool
  | [] => false
  | cp :: cps => if cp.ContainerPort = port then true else findContainerPorts port cps

/-- Outer loop of `findContainer`, over `p.Spec.Containers`. -/
def findContainerLoop (port : Int) : List v1.Container → Str
  | [] => []
  | c :: cs => if findContainerPorts port c.Ports then c.Name else findContainerLoop port cs

/-- The function `findContainer`. -/
def findContainer (p : v1.Pod) (port : Int) : Str :=
  if port ≤ 0 then []
  else findContainerLoop port p.Spec.Containers

/-! ## Cache controllers, requests and outputs -/

/-- The struct `workload` a cache controller resolves a pod to. -/
structure workload where
  uid : Str
  name : Str
  namespace_ : Str
  selfLinkURL : Str
  deriving DecidableEq, Repr

/-- Modelled from the spec: the interface `cacheController` is declared next to
the watch cache, outside the sources at hand.  The handler calls two of its
methods, `Pod(key) (*v1.Pod, bool)` (the spec's `Lookup(key) -> (PodSnapshot,
found)`) and `Workload(pod) (workload, bool)` (the spec's
`ResolveWorkload(pod) -> (Workload, found)`); the pair of value and found
flag is an `Option`. -/
structure cacheController where
  Pod : Str → Option v1.Pod
  Workload : v1.Pod → Option workload

/-- Modelled from the spec: the generated request type `ktmpl.Instance`, with
the request fields of spec section 6. -/
structure ktmpl.Instance where
  Name : Str
  SourceUid : Str
  SourceIp : IP
  DestinationUid : Str
  DestinationIp : IP
  DestinationPort : Int
  deriving DecidableEq, Repr

/-- Modelled from the spec: the generated result type `ktmpl.Output`, with the
attributes of spec section 6.  A field is `none` until its setter is called;
`SetX v` stores `v` and marks `X` as set. -/
structure ktmpl.Output where
  SourceLabels : Option (List (Str × Str)) := none
  SourcePodName : Option Str := none
  SourceNamespace : Option Str := none
  SourceServiceAccountName : Option Str := none
  SourcePodIp : Option IP := none
  SourceHostIp : Option IP := none
  SourceWorkloadUid : Option Str := none
  SourceWorkloadName : Option Str := none
  SourceWorkloadNamespace : Option Str := none
  SourceOwner : Option Str := none
  DestinationLabels : Option (List (Str × Str)) := none
  DestinationPodName : Option Str := none
  DestinationNamespace : Option Str := none
  DestinationServiceAccountName : Option Str := none
  DestinationPodIp : Option IP := none
  DestinationHostIp : Option IP := none
  DestinationWorkloadUid : Option Str := none
  DestinationWorkloadName : Option Str := none
  DestinationWorkloadNamespace : Option Str := none
  DestinationOwner : Option Str := none
  DestinationContainerName : Option Str := none
  deriving DecidableEq, Repr

/-- The constructor `ktmpl.NewOutput`: no field is set. -/
def ktmpl.NewOutput : ktmpl.Output := {}

/-- The adapter configuration `config.Params`. -/
structure config.Params where
  KubeconfigPath : Str
  CacheRefreshDuration : Nat
  deriving DecidableEq, Repr

/-- The struct `handler`.  An entry of `k8sCache` is an interface value and
may be nil (`none`).  The `env` field only provides the logger. -/
structure handler where
  k8sCache : List (Option cacheController)
  params : config.Params

/-! ## Execution of handler code

Handler code calls methods of cache controllers and may panic (a method
call on a nil interface value).  A run is the list of controller calls made,
in order, and how the run ended. -/

/-- A method call on the controller at a given index of `k8sCache`. -/
inductive Call where
  | Pod (controller : Nat) (podKey : Str)
  | Workload (controller : Nat) (p : v1.Pod)
  deriving DecidableEq, Repr

/-- How a run ends: with a result, or in a runtime panic. -/
inductive Outcome (α : Type) where
  | ret (a : α)
  | panic
  deriving DecidableEq, Repr

/-- A run: the controller calls made and the outcome. -/
structure Exec (α : Type) where
  calls : List Call
  outcome : Outcome α
  deriving DecidableEq, Repr

/-- A run that makes no call and returns `a`. -/
def Exec.pure {α : Type} (a : α) : Exec α := ⟨[], Outcome.ret a⟩

/-- Sequencing: the second part runs only when the first one returned. -/
def Exec.bind {α β : Type} (x : Exec α) (f : α → Exec β) : Exec β :=
  match x.outcome with
  | Outcome.ret a => ⟨x.calls ++ (f a).calls, (f a).outcome⟩
  | Outcome.panic => ⟨x.calls, Outcome.panic⟩

instance : Monad Exec where
  pure := Exec.pure
  bind := Exec.bind

/-- The call `controller.Pod(podKey)` on entry `i` of the cache list. -/
def callPod (i : Nat) (controller : Option cacheController) (podKey : Str) :
    Exec (Option v1.Pod) :=
  match controller with
  | none => ⟨[], Outcome.panic⟩
  | some c => ⟨[Call.Pod i podKey], Outcome.ret (c.Pod podKey)⟩

/-- The call `controller.Workload(p)` on entry `i` of the cache list. -/
def callWorkload (i : Nat) (controller : Option cacheController) (p : v1.Pod) :
    Exec (Option workload) :=
  match controller with
  | none => ⟨[], Outcome.panic⟩
  | some c => ⟨[Call.Workload i p], Outcome.ret (c.Workload p)⟩

/-! ## Pod lookup -/

/-- The loop of `findPod` over `h.k8sCache`, from index `i` on: it breaks at
the first controller that reports found. -/
def findPodLoop (podKey : Str) : Nat → List (Option cacheController) → Exec (Option v1.Pod)
  | _, [] => pure none
  | i, controller :: rest => do
    match (← callPod i controller podKey) with
    | some pod => pure (some pod)
    | none => findPodLoop podKey (i + 1) rest

/-- The method `handler.findPod`; the result is `some pod` when found. -/
def handler.findPod (N : Net) (key : Str → Str → Str) (h : handler) (uid : Str) :
    Exec (Option v1.Pod) :=
  findPodLoop (keyFromUID N key uid) 0 h.k8sCache

/-! ## Filling the output -/

/-- The workload loop of `fillDestinationAttrs`: the first controller that
resolves a workload sets the workload attributes, then the loop breaks. -/
def fillDestinationWorkload (p : v1.Pod) (o : ktmpl.Output) :
    Nat → List (Option cacheController) → Exec ktmpl.Output
  | _, [] => pure o
  | i, controller :: rest => do
    match (← callWorkload i controller p) with
    | some wl =>
      let o := { o with DestinationWorkloadUid := some wl.uid }
      let o := { o with DestinationWorkloadName := some wl.name }
      let o := { o with DestinationWorkloadNamespace := some wl.namespace_ }
      let o := if wl.selfLinkURL.length > 0 then { o with DestinationOwner := some wl.selfLinkURL }
               else o
      pure o
    | none => fillDestinationWorkload p o (i + 1) rest

/-- The method `handler.fillDestinationAttrs`; the updated output is returned. -/
def handler.fillDestinationAttrs (N : Net) (h : handler) (p : v1.Pod) (port : Int)
    (o : ktmpl.Output) (_params : config.Params) : Exec ktmpl.Output := do
  let o := if p.Labels.length > 0 then { o with DestinationLabels := some p.Labels } else o
  let o := if p.Name.length > 0 then { o with DestinationPodName := some p.Name } else o
  let o := if p.Namespace.length > 0 then { o with DestinationNamespace := some p.Namespace }
           else o
  let o := if p.Spec.ServiceAccountName.length > 0 then
             { o with DestinationServiceAccountName := some p.Spec.ServiceAccountName }
           else o
  let o := if p.Status.PodIP.length > 0 then
             { o with DestinationPodIp := some (N.ParseIP p.Status.PodIP) }
           else o
  let o := if p.Status.HostIP.length > 0 then
             { o with DestinationHostIp := some (N.ParseIP p.Status.HostIP) }
           else o
  let o ← fillDestinationWorkload p o 0 h.k8sCache
  let o := if findContainer p port ≠ [] then
             { o with DestinationContainerName := some (findContainer p port) }
           else o
  pure o

/-- The workload loop of `fillSourceAttrs`. -/
def fillSourceWorkload (p : v1.Pod) (o : ktmpl.Output) :
    Nat → List (Option cacheController) → Exec ktmpl.Output
  | _, [] => pure o
  | i, controller :: rest => do
    match (← callWorkload i controller p) with
    | some wl =>
      let o := { o with SourceWorkloadUid := some wl.uid }
      let o := { o with SourceWorkloadName := some wl.name }
      let o := { o with SourceWorkloadNamespace := some wl.namespace_ }
      let o := if wl.selfLinkURL.length > 0 then { o with SourceOwner := some wl.selfLinkURL }
               else o
      pure o
    | none => fillSourceWorkload p o (i + 1) rest

/-- The method `handler.fillSourceAttrs`; the updated output is returned. -/
def handler.fillSourceAttrs (N : Net) (h : handler) (p : v1.Pod) (o : ktmpl.Output)
    (_params : config.Params) : Exec ktmpl.Output := do
  let o := if p.Labels.length > 0 then { o with SourceLabels := some p.Labels } else o
  let o := if p.Name.length > 0 then { o with SourcePodName := some p.Name } else o
  let o := if p.Namespace.length > 0 then { o with SourceNamespace := some p.Namespace } else o
  let o := if p.Spec.ServiceAccountName.length > 0 then
             { o with SourceServiceAccountName := some p.Spec.ServiceAccountName }
           else o
  let o := if p.Status.PodIP.length > 0 then
             { o with SourcePodIp := some (N.ParseIP p.Status.PodIP) }
           else o
  let o := if p.Status.HostIP.length > 0 then
             { o with SourceHostIp := some (N.ParseIP p.Status.HostIP) }
           else o
  fillSourceWorkload p o 0 h.k8sCache

/-! ## Attribute generation -/

/-- The destination half of `GenerateKubernetesAttributes`. -/
def handler.generateDestination (N : Net) (key : Str → Str → Str) (h : handler)
    (inst : ktmpl.Instance) (out : ktmpl.Output) : Exec ktmpl.Output :=
  if inst.DestinationUid ≠ [] then do
    match (← h.findPod N key inst.DestinationUid) with
    | some p => h.fillDestinationAttrs N p inst.DestinationPort out h.params
    | none => pure out
  else if inst.DestinationIp.isSome ∧ N.IsUnspecified inst.DestinationIp = false then do
    match (← h.findPod N key (N.IPString inst.DestinationIp)) with
    | some p => h.fillDestinationAttrs N p inst.DestinationPort out h.params
    | none => pure out
  else pure out

/-- The source half of `GenerateKubernetesAttributes`. -/
def handler.generateSource (N : Net) (key : Str → Str → Str) (h : handler)
    (inst : ktmpl.Instance) (out : ktmpl.Output) : Exec ktmpl.Output :=
  if inst.SourceUid ≠ [] then do
    match (← h.findPod N key inst.SourceUid) with
    | some p => h.fillSourceAttrs N p out h.params
    | none => pure out
  else if inst.SourceIp.isSome ∧ N.IsUnspecified inst.SourceIp = false then do
    match (← h.findPod N key (N.IPString inst.SourceIp)) with
    | some p => h.fillSourceAttrs N p out h.params
    | none => pure out
  else pure out

/-- The method `handler.GenerateKubernetesAttributes`: the output and the
error (`none` is the nil error). -/
def handler.GenerateKubernetesAttributes (N : Net) (key : Str → Str → Str) (h : handler)
    (inst : ktmpl.Instance) : Exec (ktmpl.Output × Option Str) := do
  let out := ktmpl.NewOutput
  let out ← h.generateDestination N key inst out
  let out ← h.generateSource N key inst out
  pure (out, none)

/-- Modelled from the spec: the key constructor `key(namespace, name)` of the
pod store is declared next to the watch cache, outside the sources at hand.
The store indexes a pod by namespace, then name; the two are joined by `/`
as in Kubernetes cache keys.  The theorems below hold for any key
constructor; this one is used to run the code on concrete identifiers. -/
def key (namespace_ name : Str) : Str := namespace_ ++ ['/'] ++ name

/-! ## Clusters, secrets and the registry -/

/-- Go `[]byte`. -/
abbrev Bytes := List Nat

/-- Go `v1.Secret`.  `Data` is a `map[string][]byte`; it is kept as the list
of its entries in the order in which the `range` statement of
`createRemoteCacheControllers` visits them. -/
structure v1.Secret where
  Data : List (Str × Bytes)

/-- Modelled from the spec: a client `k8s.Interface` for one cluster, with what
the watch cache engine (`newCacheController`, `Run`, `HasSynced`, declared
outside the sources at hand) does on it.  `ListSecrets ns sel` is the answer
of `CoreV1().Secrets(ns).List(opts)` for the label selector `sel` (spec 6:
"list Secrets filtered by label selector in a fixed namespace"),
`NewCacheController` is the watch cache `newCacheController` builds on the
client, and `WaitForCacheSync` tells whether `cache.WaitForCacheSync` reports
success for it (spec 4.3: construction "blocks until `Synced()` or
failure").  The value `false` stands for a wait that reports failure, for which
lines 229-232 provide; the wait reports failure only when its stop channel is
closed, and that channel is a local of `getNewCacheController` (line 220) on
which nothing is sent and which nothing closes before the wait returns, so
that in a run of the program the wait reports success or does not return. -/
structure k8s.Interface where
  ListSecrets : Str → Str → Except Str (List v1.Secret)
  NewCacheController : cacheController
  WaitForCacheSync : Bool

/-- What one call of `Build` finds around it: the `adapter.Env` it is given
together with the process state it reads, namely the result of
`os.LookupEnv("KUBECONFIG")` (`none` when the variable is not set) and the
package variable `getK8sInterface`.  Go leaves the iteration order of a map
open; `rangeSeed` selects the order in which `range b.controllers` visits the
registry during this call. -/
structure World where
  KUBECONFIG : Option Str
  getK8sInterface : Bytes → Except Str k8s.Interface
  rangeSeed : Nat

/-- The registry `map[string]cacheController` of a builder, as the list of its
entries; a value may be the nil interface value (`none`). -/
abbrev Registry := List (Str × Option cacheController)

/-- Go map read `m[k]` with the comma-ok form: `some v` when `k` is present. -/
def Registry.lookup : Registry → Str → Option (Option cacheController)
  | [], _ => none
  | (k', v) :: m, k => if k' = k then some v else Registry.lookup m k

/-- Go map write `m[k] = v`: the value of a present key is replaced, a new key
is added. -/
def Registry.store : Registry → Str → Option cacheController → Registry
  | [], k, v => [(k, v)]
  | (k', v') :: m, k, v => if k' = k then (k, v) :: m else (k', v') :: Registry.store m k v

/-- Go `range m` over a map: every entry once, in an order the language does
not fix; `seed` picks it among the permutations of the entries. -/
def Registry.range (seed : Nat) (m : Registry) : Registry :=
  (List.permutations' m).getD seed m

/-- The struct `builder`; the mutex is not part of the sequential model. -/
structure builder where
  adapterConfig : config.Params
  newClientFn : Str → World → Except Str k8s.Interface
  controllers : Registry

/-- The function `newBuilder`. -/
def newBuilder (clientFactory : Str → World → Except Str k8s.Interface) : builder :=
  { newClientFn := clientFactory, controllers := [],
    adapterConfig := { KubeconfigPath := [], CacheRefreshDuration := 300 } }

/-- The method `builder.SetAdapterConfig`. -/
def builder.SetAdapterConfig (b : builder) (c : config.Params) : builder :=
  { b with adapterConfig := c }

/-- What `Build` does to the world around it, in order. -/
inductive Event where
  /-- The call `b.newClientFn(path, env)`. -/
  | NewClient (kubeconfigPath : Str)
  /-- The call `clientset.CoreV1().Secrets(ns).List(opts)`. -/
  | ListSecrets (namespace_ : Str) (labelSelector : Str)
  /-- The call `getK8sInterface(kubeconfig)`. -/
  | GetK8sInterface (kubeconfig : Bytes)
  /-- The call `newCacheController(clientset, refresh, env)`. -/
  | NewCacheController (refresh : Nat)
  /-- The call `env.ScheduleDaemon(func() { controller.Run(stopChan) })`. -/
  | ScheduleDaemon
  /-- The call `cache.WaitForCacheSync(stopChan, controller.HasSynced)` and its result. -/
  | WaitForCacheSync (success : Bool)
  /-- The send `stopChan <- struct{}{}`. -/
  | Stop
  deriving DecidableEq, Repr

/-- A run of `getNewCacheController`: the events and the returned pair. -/
structure ControllerRun where
  events : List Event
  controller : Option cacheController
  err : Option Str

/-- The function `getNewCacheController`.  The first branch is the one of lines
229-232, taken when the wait reports failure; see `k8s.Interface` for when the
wait does so. -/
def getNewCacheController (b : builder) (clientset : k8s.Interface) : ControllerRun :=
  let paramsProto := b.adapterConfig
  let refresh := paramsProto.CacheRefreshDuration
  let controller := clientset.NewCacheController
  if clientset.WaitForCacheSync = false then
    { events := [Event.NewCacheController refresh, Event.ScheduleDaemon,
                 Event.WaitForCacheSync false, Event.Stop],
      controller := none, err := some "cache sync failure".toList }
  else
    { events := [Event.NewCacheController refresh, Event.ScheduleDaemon,
                 Event.WaitForCacheSync true],
      controller := some controller, err := none }

/-- A run of `createRemoteCacheControllers`: the events, the builder with the
registry as the call left it, and the returned pair. -/
structure RemoteRun where
  events : List Event
  b : builder
  remote_controllers : List (Option cacheController)
  err : Option Str

/-- The inner loop of `createRemoteCacheControllers`, over the data entries
of one secret; `st` is the run so far.  A failing `getK8sInterface` ends the
run with `return nil, err`; the error of `getNewCacheController` is assigned
and not read. -/
def remoteDataLoop (w : World) : List (Str × Bytes) → RemoteRun → RemoteRun
  | [], st => st
  | (dataKey, kubeconfig) :: rest, st =>
    match w.getK8sInterface kubeconfig with
    | Except.error err =>
      { events := st.events ++ [Event.GetK8sInterface kubeconfig], b := st.b,
        remote_controllers := [],
        err := some ("error on K8s interface access: ".toList ++ err) }
    | Except.ok k8sInterface =>
      remoteDataLoop w rest
        { events := st.events ++ [Event.GetK8sInterface kubeconfig] ++
            (getNewCacheController st.b k8sInterface).events,
          b := { st.b with
                 controllers := Registry.store st.b.controllers dataKey
                   (getNewCacheController st.b k8sInterface).controller },
          remote_controllers := st.remote_controllers ++
            [(getNewCacheController st.b k8sInterface).controller],
          err := none }

/-- The outer loop of `createRemoteCacheControllers`, over `kube_secrets.Items`.
A `return` inside the inner loop leaves the function; after the last secret
the function returns `remote_controllers, nil`. -/
def remoteSecretLoop (w : World) : List v1.Secret → RemoteRun → RemoteRun
  | [], st => st
  | secret :: rest, st =>
    match (remoteDataLoop w secret.Data st).err with
    | some _ => remoteDataLoop w secret.Data st
    | none => remoteSecretLoop w rest (remoteDataLoop w secret.Data st)

/-- The function `createRemoteCacheControllers`. -/
def createRemoteCacheControllers (b : builder) (clientset : k8s.Interface) (w : World) :
    RemoteRun :=
  let secretNamespace := "istio-system".toList
  let mcLabel := "istio/multiCluster".toList
  let labelSelector := mcLabel ++ "=true".toList
  match clientset.ListSecrets secretNamespace labelSelector with
  | Except.error err =>
    { events := [Event.ListSecrets secretNamespace labelSelector], b := b,
      remote_controllers := [],
      err := some ("could not access secrets for namespace: ".toList ++ secretNamespace ++
                   " error: ".toList ++ err) }
  | Except.ok kube_secrets =>
    remoteSecretLoop w kube_secrets
      { events := [Event.ListSecrets secretNamespace labelSelector], b := b,
        remote_controllers := [], err := none }

/-- A run of `Build`: the events, the builder as the call left it, and the
returned pair of handler and error. -/
structure BuildRun where
  events : List Event
  b : builder
  handler : Option handler
  err : Option Str

/-- The credential path of `Build`: the value of `KUBECONFIG` when the
variable exists, else the configured `KubeconfigPath`. -/
def builder.kubeconfigPath (b : builder) (w : World) : Str :=
  match w.KUBECONFIG with
  | some path => path
  | none => b.adapterConfig.KubeconfigPath

/-- The method `builder.Build`. -/
def builder.Build (b : builder) (w : World) : BuildRun :=
  let paramsProto := b.adapterConfig
  let path := b.kubeconfigPath w
  match Registry.lookup b.controllers path with
  | none =>
    match b.newClientFn path w with
    | Except.error err =>
      { events := [Event.NewClient path], b := b, handler := none,
        err := some ("could not build kubernetes client: ".toList ++ err) }
    | Except.ok clientset =>
      match (getNewCacheController b clientset).err with
      | some err =>
        { events := Event.NewClient path :: (getNewCacheController b clientset).events,
          b := b, handler := none,
          err := some ("could not create new cache controller: ".toList ++ err) }
      | none =>
        let controller := (getNewCacheController b clientset).controller
        let b1 : builder := { b with controllers := Registry.store b.controllers path controller }
        let remote := createRemoteCacheControllers b1 clientset w
        match remote.err with
        | none =>
          { events := Event.NewClient path :: (getNewCacheController b clientset).events ++
              remote.events,
            b := remote.b,
            handler := some { k8sCache := [controller] ++ remote.remote_controllers,
                              params := paramsProto },
            err := none }
        | some err =>
          { events := Event.NewClient path :: (getNewCacheController b clientset).events ++
              remote.events,
            b := remote.b, handler := none,
            err := some ("failure on creating remote controllers: ".toList ++ err) }
  | some _ =>
    { events := [], b := b,
      handler := some { k8sCache := (Registry.range w.rangeSeed b.controllers).map Prod.snd,
                        params := paramsProto },
      err := none }

/-- Sequential calls of `Build` on one builder, one for each world of the
list, each call starting from the builder the call before it left. -/
def builder.BuildAll : builder → List World → List BuildRun
  | _, [] => []
  | b, w :: ws => b.Build w :: builder.BuildAll (b.Build w).b ws

/-! ## Sample objects

A pod, two controllers and requests on which the code is run below. -/

/-- A pod `default/web-1` with IP `10.1.2.3` and one container listening on 8080. -/
def samplePod : v1.Pod :=
  { Name := "web-1".toList, Namespace := "default".toList,
    Labels := [("app".toList, "web".toList)],
    Spec := { ServiceAccountName := [],
              Containers := [{ Name := "web".toList, Ports := [{ ContainerPort := 8080 }] }] },
    Status := { PodIP := "10.1.2.3".toList, HostIP := "192.168.0.7".toList } }

/-- A controller that holds no pod and resolves no workload. -/
def emptyController : cacheController :=
  { Pod := fun _ => none, Workload := fun _ => none }

/-- A controller whose store indexes `samplePod` by its IP and by its
namespace and name, and which resolves no workload. -/
def sampleController : cacheController :=
  { Pod := fun k =>
      if k = "10.1.2.3".toList ∨ k = key "default".toList "web-1".toList then some samplePod
      else none,
    Workload := fun _ => none }

/-- The configuration of the sample handlers. -/
def sampleParams : config.Params := { KubeconfigPath := [], CacheRefreshDuration := 300 }

/-- A handler over an empty and a populated cache. -/
def sampleHandler : handler :=
  { k8sCache := [some emptyController, some sampleController], params := sampleParams }

/-- A request that names its destination by the UID `10.1.2.3`, port 8080,
and its source by the UID `kubernetes://web-1.default`. -/
def sampleInstance : ktmpl.Instance :=
  { Name := "attrs".toList, SourceUid := "kubernetes://web-1.default".toList, SourceIp := none,
    DestinationUid := "10.1.2.3".toList, DestinationIp := none, DestinationPort := 8080 }

/-- The workload that owns `samplePod`. -/
def sampleWorkload : workload :=
  { uid := "kubernetes://apis/apps/v1/namespaces/default/deployments/web".toList,
    name := "web".toList, namespace_ := "default".toList,
    selfLinkURL := "kubernetes://apis/apps/v1/namespaces/default/deployments/web".toList }

/-- A controller that holds no pod and resolves `samplePod` to `sampleWorkload`. -/
def owningController : cacheController :=
  { Pod := fun _ => none,
    Workload := fun p => if p = samplePod then some sampleWorkload else none }

/-- A handler whose first controller holds the pod, whose second controller
resolves its workload, and whose last cache entry is nil. -/
def owningHandler : handler :=
  { k8sCache := [some sampleController, some owningController, none], params := sampleParams }

/-- A cluster whose watch cache is `sampleController` and which lists no
multi-cluster secret. -/
def localCluster : k8s.Interface :=
  { ListSecrets := fun _ _ => Except.ok [], NewCacheController := sampleController,
    WaitForCacheSync := true }

/-- A remote cluster whose watch cache is `owningController`. -/
def remoteCluster : k8s.Interface :=
  { ListSecrets := fun _ _ => Except.ok [], NewCacheController := owningController,
    WaitForCacheSync := true }

/-- A remote cluster whose watch cache does not sync. -/
def unsyncedCluster : k8s.Interface :=
  { ListSecrets := fun _ _ => Except.ok [], NewCacheController := emptyController,
    WaitForCacheSync := false }

/-- A cluster whose watch cache is `emptyController` and which lists, under the
multi-cluster label in `istio-system`, one secret with the entry `remote`,
which holds the kubeconfig of `remoteCluster`. -/
def hubCluster : k8s.Interface :=
  { ListSecrets := fun ns sel =>
      if ns = "istio-system".toList ∧ sel = "istio/multiCluster=true".toList then
        Except.ok [{ Data := [("remote".toList, [1])] }]
      else Except.ok [],
    NewCacheController := emptyController, WaitForCacheSync := true }

/-- A cluster that lists one multi-cluster secret with the entry `broken`,
which holds the kubeconfig of `unsyncedCluster`. -/
def brokenHubCluster : k8s.Interface :=
  { ListSecrets := fun _ _ => Except.ok [{ Data := [("broken".toList, [2])] }],
    NewCacheController := sampleController, WaitForCacheSync := true }

/-- A cluster that lists two multi-cluster secrets, each with an entry `remote`:
the first holds the kubeconfig of `remoteCluster`, the second the one of the
cluster of `emptyController`. -/
def twiceHubCluster : k8s.Interface :=
  { ListSecrets := fun _ _ =>
      Except.ok [{ Data := [("remote".toList, [1])] }, { Data := [("remote".toList, [3])] }],
    NewCacheController := sampleController, WaitForCacheSync := true }

/-- A cluster whose secrets cannot be listed. -/
def closedCluster : k8s.Interface :=
  { ListSecrets := fun _ _ => Except.error "forbidden".toList,
    NewCacheController := sampleController, WaitForCacheSync := true }

/-- The kubeconfig loader of the sample world: blob `[1]` is `remoteCluster`,
blob `[2]` is `unsyncedCluster`, blob `[3]` a cluster of `emptyController`,
any other blob is not a kubeconfig. -/
def sampleGetK8sInterface (kubeconfig : Bytes) : Except Str k8s.Interface :=
  if kubeconfig = [1] then Except.ok remoteCluster
  else if kubeconfig = [2] then Except.ok unsyncedCluster
  else if kubeconfig = [3] then
    Except.ok { ListSecrets := fun _ _ => Except.ok [], NewCacheController := emptyController,
                WaitForCacheSync := true }
  else Except.error "could not load kubeconfig".toList

/-- A world without `KUBECONFIG`. -/
def sampleWorld : World :=
  { KUBECONFIG := none, getK8sInterface := sampleGetK8sInterface, rangeSeed := 0 }

/-- A world in which `KUBECONFIG` is `/hub`. -/
def hubWorld : World :=
  { KUBECONFIG := some "/hub".toList, getK8sInterface := sampleGetK8sInterface, rangeSeed := 0 }

/-- The client factory of the sample builders, by credential path. -/
def sampleFactory (kubeconfigPath : Str) (_w : World) : Except Str k8s.Interface :=
  if kubeconfigPath = "/local".toList then Except.ok localCluster
  else if kubeconfigPath = "/hub".toList then Except.ok hubCluster
  else if kubeconfigPath = "/brokenhub".toList then Except.ok brokenHubCluster
  else if kubeconfigPath = "/twicehub".toList then Except.ok twiceHubCluster
  else if kubeconfigPath = "/closed".toList then Except.ok closedCluster
  else if kubeconfigPath = "/unsynced".toList then Except.ok unsyncedCluster
  else Except.error "no such file".toList

/-- A fresh builder configured with the credential path `path`. -/
def sampleBuilder (path : Str) : builder :=
  { newBuilder sampleFactory with
    adapterConfig := { KubeconfigPath := path, CacheRefreshDuration := 300 } }

/-! ## Closing a handler, stop signals, and further sample clusters -/

/-- The method `handler.Close`: it returns the nil error. -/
def handler.Close (_h : handler) : Option Str := none

/-- Where a stop signal may stand in a run: `b` may follow `a` unless `b` is a
stop signal and `a` is not a failed wait for the cache sync. -/
def stopAfterFailure (a b : Event) : Prop :=
  b = Event.Stop → a = Event.WaitForCacheSync false

instance : DecidableRel stopAfterFailure := fun a b => by
  unfold stopAfterFailure
  infer_instance

/-- A cluster that lists three multi-cluster secrets: two with an entry `remote`
(the kubeconfigs of `remoteCluster` and of a cluster of `emptyController`) and
a third with an entry `bad` that is not a kubeconfig. -/
def failingHubCluster : k8s.Interface :=
  { ListSecrets := fun _ _ =>
      Except.ok [{ Data := [("remote".toList, [1])] }, { Data := [("remote".toList, [3])] },
                 { Data := [("bad".toList, [9])] }],
    NewCacheController := sampleController, WaitForCacheSync := true }

/-- A cluster that lists two multi-cluster secrets: one with an entry
`kubeconfig` (the kubeconfig of `remoteCluster`) and one with an entry `bad`
that is not a kubeconfig. -/
def shadowHubCluster : k8s.Interface :=
  { ListSecrets := fun _ _ =>
      Except.ok [{ Data := [("kubeconfig".toList, [1])] }, { Data := [("bad".toList, [9])] }],
    NewCacheController := sampleController, WaitForCacheSync := true }

/-- A builder configured with the relative credential path `kubeconfig`, which
its client factory resolves to `shadowHubCluster`. -/
def shadowBuilder : builder :=
  { newBuilder (fun kubeconfigPath _ =>
      if kubeconfigPath = "kubeconfig".toList then Except.ok shadowHubCluster
      else Except.error "no such file".toList) with
    adapterConfig := { KubeconfigPath := "kubeconfig".toList, CacheRefreshDuration := 300 } }

/-- A world in which `range b.controllers` visits a registry of two entries in
the order opposite to the one of `sampleWorld`. -/
def reversedWorld : World :=
  { KUBECONFIG := none, getK8sInterface := sampleGetK8sInterface, rangeSeed := 1 }

/-- The controller that the body of the inner loop of
`createRemoteCacheControllers` appends for a data entry with the given
kubeconfig: the one `getNewCacheController` returns for the client of the
kubeconfig, nil when its cache does not sync. -/
def remoteControllerOf (w : World) (b : builder) (kubeconfig : Bytes) :
    Option cacheController :=
  match w.getK8sInterface kubeconfig with
  | Except.ok k8sInterface => (getNewCacheController b k8sInterface).controller
  | Except.error _ => none

/-! ## Controllers whose initial sync completed -/

/-- A controller "whose initial sync completed, that is, one that
`getNewCacheController` returned without error": the value `x` is the
controller of a run of `getNewCacheController` whose error is nil. -/
def syncedController (x : Option cacheController) : Prop :=
  ∃ (b : builder) (clientset : k8s.Interface),
    (getNewCacheController b clientset).err = none ∧
    (getNewCacheController b clientset).controller = x

/-- A kubeconfig loader all of whose clusters sync: blob `[1]` is
`remoteCluster`, blob `[3]` a cluster of `emptyController`, any other blob is
not a kubeconfig. -/
def syncedGetK8sInterface (kubeconfig : Bytes) : Except Str k8s.Interface :=
  if kubeconfig = [1] then Except.ok remoteCluster
  else if kubeconfig = [3] then
    Except.ok { ListSecrets := fun _ _ => Except.ok [], NewCacheController := emptyController,
                WaitForCacheSync := true }
  else Except.error "could not load kubeconfig".toList

/-- A world without `KUBECONFIG` in which every kubeconfig that can be loaded
is the one of a cluster whose cache syncs. -/
def syncedWorld : World :=
  { KUBECONFIG := none, getK8sInterface := syncedGetK8sInterface, rangeSeed := 0 }

end Kubernetesenv

namespace Kubernetesenv

/-! ## Facts about the string functions -/

theorem HasPrefix_iff (s pre : Str) : HasPrefix s pre = true ↔ pre <+: s := by
  constructor
  · intro h
    simp only [HasPrefix, Bool.and_eq_true, decide_eq_true_eq] at h
    have := List.take_prefix pre.length s
    rw [h.2] at this
    exact this
  · rintro ⟨t, rfl⟩
    simp [HasPrefix]

theorem TrimPrefix_append (pre r : Str) : TrimPrefix (pre ++ r) pre = r := by
  have h : HasPrefix (pre ++ r) pre = true := (HasPrefix_iff _ _).2 ⟨r, rfl⟩
  simp [TrimPrefix, h]

theorem TrimPrefix_unprefixed (s pre : Str) (h : ¬ pre <+: s) : TrimPrefix s pre = s := by
  have h1 : HasPrefix s pre = false := by
    cases hp : HasPrefix s pre
    · rfl
    · exact absurd ((HasPrefix_iff _ _).1 hp) h
  simp [TrimPrefix, h1]

/-- The remainder `r` of `uid` after removing one leading `pre`. -/
theorem TrimPrefix_remainder (uid pre r : Str)
    (hr : uid = pre ++ r ∨ (¬ pre <+: uid ∧ uid = r)) : TrimPrefix uid pre = r := by
  rcases hr with h | ⟨h1, h2⟩
  · rw [h, TrimPrefix_append]
  · rw [TrimPrefix_unprefixed _ _ h1, h2]

theorem Contains_singleton (s : Str) (c : Char) : Contains s [c] = true ↔ c ∈ s := by
  induction s with
  | nil => simp [Contains, HasPrefix]
  | cons d ds ih =>
    simp only [Contains, Bool.or_eq_true, ih, List.mem_cons]
    have : HasPrefix (d :: ds) [c] = true ↔ c = d := by
      simp [HasPrefix, eq_comm]
    rw [this]

theorem Split_ne_nil (s : Str) (sep : Char) : Split s sep ≠ [] := by
  cases s with
  | nil => simp [Split]
  | cons c cs =>
    simp only [Split]
    split_ifs
    · simp
    · split <;> simp

theorem Split_length (s : Str) (sep : Char) : (Split s sep).length = s.count sep + 1 := by
  induction s with
  | nil => simp [Split]
  | cons c cs ih =>
    simp only [Split]
    by_cases h : c = sep
    · subst h
      simp [ih]
    · simp only [h, if_false]
      have hc : List.count sep (c :: cs) = List.count sep cs := by
        simp [List.count_cons, h]
      rw [hc, ← ih]
      cases hs : Split cs sep with
      | nil => exact absurd hs (Split_ne_nil cs sep)
      | cons q qs => simp

theorem Split_of_not_mem (a : Str) (sep : Char) (h : sep ∉ a) : Split a sep = [a] := by
  induction a with
  | nil => simp [Split]
  | cons c cs ih =>
    simp only [List.mem_cons, not_or] at h
    have hne : ¬ c = sep := fun e => h.1 e.symm
    simp [Split, hne, ih h.2]

theorem Split_append (a b : Str) (sep : Char) (h : sep ∉ a) :
    Split (a ++ sep :: b) sep = a :: Split b sep := by
  induction a with
  | nil => simp [Split]
  | cons c cs ih =>
    simp only [List.mem_cons, not_or] at h
    have hne : ¬ c = sep := fun e => h.1 e.symm
    simp [Split, hne, ih h.2]

/-! ## Key derivation -/

/-- C1: every string that `net.ParseIP` accepts as an IP literal is returned
by `keyFromUID` unchanged. -/
theorem keyFromUID_ip_literal (N : Net) (key : Str → Str → Str) (x : Str)
    (h : N.ParseIP x ≠ none) : keyFromUID N key x = x := by
  have hs : (N.ParseIP x).isSome = true := Option.isSome_iff_ne_none.2 h
  simp [keyFromUID, hs]

/-- Witness of C1: the IPv4 literal `10.1.2.3` and the IPv6 literal `2001:db8::68`. -/
theorem keyFromUID_ip_literal_witness :
    (goNet.ParseIP "10.1.2.3".toList ≠ none ∧
      keyFromUID goNet key "10.1.2.3".toList = "10.1.2.3".toList) ∧
    (goNet.ParseIP "2001:db8::68".toList ≠ none ∧
      keyFromUID goNet key "2001:db8::68".toList = "2001:db8::68".toList) :=
  ⟨⟨by decide, keyFromUID_ip_literal goNet key _ (by decide)⟩,
   ⟨by decide, keyFromUID_ip_literal goNet key _ (by decide)⟩⟩

/-- C2: for an identifier that is not an IP literal and whose remainder `r`
after removing one leading `kubernetes://` is `a.b` with no dot in `a` or in
`b`, `keyFromUID` returns `key(b, a)`. -/
theorem keyFromUID_two_components (N : Net) (key : Str → Str → Str) (uid r a b : Str)
    (hip : N.ParseIP uid = none)
    (hr : uid = kubePrefix ++ r ∨ (¬ kubePrefix <+: uid ∧ uid = r))
    (hab : r = a ++ '.' :: b) (ha : '.' ∉ a) (hb : '.' ∉ b) :
    keyFromUID N key uid = key b a := by
  have ht := TrimPrefix_remainder uid kubePrefix r hr
  have hc : Contains r ['.'] = true := (Contains_singleton r '.').2 (by simp [hab])
  have hsp : Split r '.' = [a, b] := by
    rw [hab, Split_append a b '.' ha, Split_of_not_mem b '.' hb]
  simp [keyFromUID, hip, ht, hc, hsp]

/-- Witness of C2: `kubernetes://foo.bar` gives `key("bar", "foo")`, and so
does the unprefixed `foo.bar`. -/
theorem keyFromUID_two_components_witness :
    keyFromUID goNet key "kubernetes://foo.bar".toList = key "bar".toList "foo".toList ∧
    keyFromUID goNet key "foo.bar".toList = key "bar".toList "foo".toList :=
  ⟨keyFromUID_two_components goNet key "kubernetes://foo.bar".toList "foo.bar".toList
      "foo".toList "bar".toList (by decide) (Or.inl (by decide)) (by decide) (by decide)
      (by decide),
   keyFromUID_two_components goNet key "foo.bar".toList "foo.bar".toList
      "foo".toList "bar".toList (by decide) (Or.inr ⟨by decide, rfl⟩) (by decide) (by decide)
      (by decide)⟩

/-- C3: for an identifier that is not an IP literal and whose remainder `r`
after removing one leading `kubernetes://` holds zero or at least two dots,
`keyFromUID` returns `r` as it is; an identifier without the prefix is
returned as it was given. -/
theorem keyFromUID_passthrough (N : Net) (key : Str → Str → Str) (uid r : Str)
    (hip : N.ParseIP uid = none)
    (hr : uid = kubePrefix ++ r ∨ (¬ kubePrefix <+: uid ∧ uid = r))
    (hdots : r.count '.' = 0 ∨ 2 ≤ r.count '.') :
    keyFromUID N key uid = r ∧ (¬ kubePrefix <+: uid → keyFromUID N key uid = uid) := by
  have ht := TrimPrefix_remainder uid kubePrefix r hr
  have hl := Split_length r '.'
  have main : keyFromUID N key uid = r := by
    simp only [keyFromUID, hip, ht, Option.isSome_none, Bool.false_eq_true, if_false]
    split_ifs with hc
    · split
      · next p0 p1 hsp =>
        rw [hsp] at hl
        simp at hl
        omega
      · rfl
    · rfl
  refine ⟨main, fun hnp => ?_⟩
  rcases hr with h | ⟨_, h⟩
  · exact absurd ⟨r, h.symm⟩ hnp
  · rw [main, h]

/-- Witness of C3: `a.b.c` gives `a.b.c` and `kubernetes://onlyone` gives `onlyone`. -/
theorem keyFromUID_passthrough_witness :
    keyFromUID goNet key "a.b.c".toList = "a.b.c".toList ∧
    keyFromUID goNet key "kubernetes://onlyone".toList = "onlyone".toList :=
  ⟨(keyFromUID_passthrough goNet key "a.b.c".toList "a.b.c".toList (by decide)
      (Or.inr ⟨by decide, rfl⟩) (Or.inr (by decide))).1,
   (keyFromUID_passthrough goNet key "kubernetes://onlyone".toList "onlyone".toList (by decide)
      (Or.inl (by decide)) (Or.inl (by decide))).1⟩

/-! ## Container resolution -/

theorem findContainerPorts_iff (port : Int) (ports : List v1.ContainerPort) :
    findContainerPorts port ports = true ↔ ∃ cp ∈ ports, cp.ContainerPort = port := by
  induction ports with
  | nil => simp [findContainerPorts]
  | cons cp cps ih =>
    simp only [findContainerPorts, List.mem_cons, exists_eq_or_imp]
    by_cases h : cp.ContainerPort = port
    · simp [h]
    · simp [h, ih]

theorem findContainerLoop_first (port : Int) (pre : List v1.Container) (c : v1.Container)
    (post : List v1.Container)
    (hpre : ∀ d ∈ pre, ∀ cp ∈ d.Ports, cp.ContainerPort ≠ port)
    (hc : ∃ cp ∈ c.Ports, cp.ContainerPort = port) :
    findContainerLoop port (pre ++ c :: post) = c.Name := by
  induction pre with
  | nil => simp [findContainerLoop, (findContainerPorts_iff port c.Ports).2 hc]
  | cons d ds ih =>
    have hd : findContainerPorts port d.Ports = false := by
      cases hf : findContainerPorts port d.Ports
      · rfl
      · obtain ⟨cp, hcp, he⟩ := (findContainerPorts_iff port d.Ports).1 hf
        exact absurd he (hpre d (List.mem_cons_self _ _) cp hcp)
    simp only [List.cons_append, findContainerLoop, hd, Bool.false_eq_true, if_false]
    exact ih (fun e he => hpre e (List.mem_cons_of_mem _ he))

theorem findContainerLoop_none (port : Int) (cs : List v1.Container)
    (h : ∀ d ∈ cs, ∀ cp ∈ d.Ports, cp.ContainerPort ≠ port) :
    findContainerLoop port cs = [] := by
  induction cs with
  | nil => rfl
  | cons d ds ih =>
    have hd : findContainerPorts port d.Ports = false := by
      cases hf : findContainerPorts port d.Ports
      · rfl
      · obtain ⟨cp, hcp, he⟩ := (findContainerPorts_iff port d.Ports).1 hf
        exact absurd he (h d (List.mem_cons_self _ _) cp hcp)
    simp only [findContainerLoop, hd, Bool.false_eq_true, if_false]
    exact ih (fun e he => h e (List.mem_cons_of_mem _ he))

/-- C4: for every pod and every port that is zero or negative,
`findContainer` returns the empty string. -/
theorem findContainer_nonpositive_port (p : v1.Pod) (port : Int) (h : port ≤ 0) :
    findContainer p port = [] := by
  simp [findContainer, h]

/-- Witness of C4: a pod whose container declares port 0, asked for port 0. -/
theorem findContainer_nonpositive_port_witness :
    findContainer
      { Name := "p".toList, Namespace := "ns".toList, Labels := [],
        Spec := { ServiceAccountName := [],
                  Containers := [{ Name := "c".toList, Ports := [{ ContainerPort := 0 }] }] },
        Status := { PodIP := [], HostIP := [] } } 0 = [] :=
  findContainer_nonpositive_port _ 0 (by decide)

/-- C5: for every pod and every positive port, `findContainer` returns the name
of the first container, in the order of the pod spec, one of whose container
ports equals the port, and the empty string when no container declares it. -/
theorem findContainer_first_match (p : v1.Pod) (port : Int) (hpos : 0 < port) :
    (∀ pre c post, p.Spec.Containers = pre ++ c :: post →
        (∀ d ∈ pre, ∀ cp ∈ d.Ports, cp.ContainerPort ≠ port) →
        (∃ cp ∈ c.Ports, cp.ContainerPort = port) →
        findContainer p port = c.Name) ∧
    ((∀ d ∈ p.Spec.Containers, ∀ cp ∈ d.Ports, cp.ContainerPort ≠ port) →
        findContainer p port = []) := by
  have hn : ¬ port ≤ 0 := not_le.2 hpos
  constructor
  · intro pre c post hcs hpre hc
    simp only [findContainer, hn, if_false, hcs]
    exact findContainerLoop_first port pre c post hpre hc
  · intro h
    simp only [findContainer, hn, if_false]
    exact findContainerLoop_none port _ h

/-- Witness of C5: two containers declare port 8080, the first one is named;
port 9090 is declared by none. -/
theorem findContainer_first_match_witness :
    findContainer
      { Name := "p".toList, Namespace := "ns".toList, Labels := [],
        Spec := { ServiceAccountName := [],
                  Containers := [{ Name := "init".toList, Ports := [{ ContainerPort := 53 }] },
                                 { Name := "web".toList,
                                   Ports := [{ ContainerPort := 443 }, { ContainerPort := 8080 }] },
                                 { Name := "proxy".toList, Ports := [{ ContainerPort := 8080 }] }] },
        Status := { PodIP := [], HostIP := [] } } 8080 = "web".toList ∧
    findContainer
      { Name := "p".toList, Namespace := "ns".toList, Labels := [],
        Spec := { ServiceAccountName := [],
                  Containers := [{ Name := "init".toList, Ports := [{ ContainerPort := 53 }] },
                                 { Name := "web".toList,
                                   Ports := [{ ContainerPort := 443 }, { ContainerPort := 8080 }] },
                                 { Name := "proxy".toList, Ports := [{ ContainerPort := 8080 }] }] },
        Status := { PodIP := [], HostIP := [] } } 9090 = [] :=
  ⟨(findContainer_first_match _ 8080 (by decide)).1
      [{ Name := "init".toList, Ports := [{ ContainerPort := 53 }] }]
      { Name := "web".toList, Ports := [{ ContainerPort := 443 }, { ContainerPort := 8080 }] }
      [{ Name := "proxy".toList, Ports := [{ ContainerPort := 8080 }] }]
      rfl (by decide) (by decide),
   (findContainer_first_match _ 9090 (by decide)).2 (by decide)⟩

/-! ## Runs -/

@[simp] theorem Exec.bind_eq {α β : Type} (x : Exec α) (f : α → Exec β) :
    (x >>= f) = Exec.bind x f := rfl

@[simp] theorem Exec.pure_eq {α : Type} (a : α) : (pure a : Exec α) = Exec.pure a := rfl

theorem Exec.bind_of_ret {α β : Type} (x : Exec α) (f : α → Exec β) (a : α)
    (h : x.outcome = Outcome.ret a) :
    Exec.bind x f = ⟨x.calls ++ (f a).calls, (f a).outcome⟩ := by
  simp [Exec.bind, h]

theorem Exec.bind_of_panic {α β : Type} (x : Exec α) (f : α → Exec β)
    (h : x.outcome = Outcome.panic) : Exec.bind x f = ⟨x.calls, Outcome.panic⟩ := by
  simp [Exec.bind, h]

theorem Exec.bind_returns {α β : Type} (x : Exec α) (f : α → Exec β)
    (hx : ∃ a, x.outcome = Outcome.ret a) (hf : ∀ a, ∃ b, (f a).outcome = Outcome.ret b) :
    ∃ b, (Exec.bind x f).outcome = Outcome.ret b := by
  obtain ⟨a, ha⟩ := hx
  obtain ⟨b, hb⟩ := hf a
  exact ⟨b, by rw [Exec.bind_of_ret x f a ha]; exact hb⟩

theorem Exec.bind_ret_inv {α β : Type} (x : Exec α) (f : α → Exec β) (b : β)
    (h : (Exec.bind x f).outcome = Outcome.ret b) :
    ∃ a, x.outcome = Outcome.ret a ∧ (f a).outcome = Outcome.ret b := by
  cases hx : x.outcome with
  | ret a =>
    rw [Exec.bind_of_ret x f a hx] at h
    exact ⟨a, rfl, h⟩
  | panic =>
    rw [Exec.bind_of_panic x f hx] at h
    cases h

/-! ## The lookup loop, step by step -/

theorem findPodLoop_nil (K : Str) (i : Nat) :
    findPodLoop K i [] = ⟨[], Outcome.ret none⟩ := rfl

theorem findPodLoop_cons_nil (K : Str) (i : Nat) (rest : List (Option cacheController)) :
    findPodLoop K i (none :: rest) = ⟨[], Outcome.panic⟩ := by
  simp [findPodLoop, callPod, Exec.bind]

theorem findPodLoop_cons_hit (K : Str) (i : Nat) (c : cacheController)
    (rest : List (Option cacheController)) (pod : v1.Pod) (h : c.Pod K = some pod) :
    findPodLoop K i (some c :: rest) = ⟨[Call.Pod i K], Outcome.ret (some pod)⟩ := by
  simp [findPodLoop, callPod, Exec.bind, h]
  exact ⟨rfl, rfl⟩

theorem findPodLoop_cons_miss (K : Str) (i : Nat) (c : cacheController)
    (rest : List (Option cacheController)) (h : c.Pod K = none) :
    findPodLoop K i (some c :: rest) =
      ⟨Call.Pod i K :: (findPodLoop K (i + 1) rest).calls,
       (findPodLoop K (i + 1) rest).outcome⟩ := by
  simp [findPodLoop, callPod, Exec.bind, h]

theorem findPodLoop_returns (K : Str) (l : List (Option cacheController))
    (hl : ∀ c ∈ l, c ≠ none) (i : Nat) :
    ∃ r, (findPodLoop K i l).outcome = Outcome.ret r := by
  induction l generalizing i with
  | nil => exact ⟨none, rfl⟩
  | cons c rest ih =>
    cases c with
    | none => exact absurd rfl (hl none (List.mem_cons_self _ _))
    | some c =>
      cases hp : c.Pod K with
      | some pod => exact ⟨some pod, by rw [findPodLoop_cons_hit K i c rest pod hp]⟩
      | none =>
        obtain ⟨r, hr⟩ := ih (fun d hd => hl d (List.mem_cons_of_mem _ hd)) (i + 1)
        exact ⟨r, by rw [findPodLoop_cons_miss K i c rest hp]; exact hr⟩

/-! ## The workload loops -/

theorem fillDestinationWorkload_returns (p : v1.Pod) (l : List (Option cacheController))
    (hl : ∀ c ∈ l, c ≠ none) (o : ktmpl.Output) (i : Nat) :
    ∃ r, (fillDestinationWorkload p o i l).outcome = Outcome.ret r := by
  induction l generalizing i with
  | nil => exact ⟨o, rfl⟩
  | cons c rest ih =>
    cases c with
    | none => exact absurd rfl (hl none (List.mem_cons_self _ _))
    | some c =>
      cases hw : c.Workload p with
      | some wl =>
        exact ⟨_, by simp [fillDestinationWorkload, callWorkload, Exec.bind, Exec.pure, hw]; rfl⟩
      | none =>
        obtain ⟨r, hr⟩ := ih (fun d hd => hl d (List.mem_cons_of_mem _ hd)) (i + 1)
        exact ⟨r, by simpa [fillDestinationWorkload, callWorkload, Exec.bind, hw] using hr⟩

theorem fillSourceWorkload_returns (p : v1.Pod) (l : List (Option cacheController))
    (hl : ∀ c ∈ l, c ≠ none) (o : ktmpl.Output) (i : Nat) :
    ∃ r, (fillSourceWorkload p o i l).outcome = Outcome.ret r := by
  induction l generalizing i with
  | nil => exact ⟨o, rfl⟩
  | cons c rest ih =>
    cases c with
    | none => exact absurd rfl (hl none (List.mem_cons_self _ _))
    | some c =>
      cases hw : c.Workload p with
      | some wl =>
        exact ⟨_, by simp [fillSourceWorkload, callWorkload, Exec.bind, Exec.pure, hw]; rfl⟩
      | none =>
        obtain ⟨r, hr⟩ := ih (fun d hd => hl d (List.mem_cons_of_mem _ hd)) (i + 1)
        exact ⟨r, by simpa [fillSourceWorkload, callWorkload, Exec.bind, hw] using hr⟩

theorem fillDestinationAttrs_returns (N : Net) (h : handler) (hl : ∀ c ∈ h.k8sCache, c ≠ none)
    (p : v1.Pod) (port : Int) (o : ktmpl.Output) (params : config.Params) :
    ∃ r, (h.fillDestinationAttrs N p port o params).outcome = Outcome.ret r := by
  simp only [handler.fillDestinationAttrs, Exec.bind_eq, Exec.pure_eq]
  exact Exec.bind_returns _ _ (fillDestinationWorkload_returns p _ hl _ 0) (fun a => ⟨_, rfl⟩)

theorem fillSourceAttrs_returns (N : Net) (h : handler) (hl : ∀ c ∈ h.k8sCache, c ≠ none)
    (p : v1.Pod) (o : ktmpl.Output) (params : config.Params) :
    ∃ r, (h.fillSourceAttrs N p o params).outcome = Outcome.ret r := by
  simp only [handler.fillSourceAttrs]
  exact fillSourceWorkload_returns p _ hl _ 0

theorem generateDestination_returns (N : Net) (key : Str → Str → Str) (h : handler)
    (hl : ∀ c ∈ h.k8sCache, c ≠ none) (inst : ktmpl.Instance) (out : ktmpl.Output) :
    ∃ r, (h.generateDestination N key inst out).outcome = Outcome.ret r := by
  have hfill : ∀ r : Option v1.Pod, ∃ b : ktmpl.Output,
      (match r with
        | some p => h.fillDestinationAttrs N p inst.DestinationPort out h.params
        | none => Exec.pure out).outcome = Outcome.ret b := by
    intro r
    cases r with
    | none => exact ⟨out, rfl⟩
    | some p => exact fillDestinationAttrs_returns N h hl p _ out _
  unfold handler.generateDestination
  split_ifs
  · exact Exec.bind_returns _ _ (findPodLoop_returns _ _ hl 0) hfill
  · exact Exec.bind_returns _ _ (findPodLoop_returns _ _ hl 0) hfill
  · exact ⟨out, rfl⟩

theorem generateSource_returns (N : Net) (key : Str → Str → Str) (h : handler)
    (hl : ∀ c ∈ h.k8sCache, c ≠ none) (inst : ktmpl.Instance) (out : ktmpl.Output) :
    ∃ r, (h.generateSource N key inst out).outcome = Outcome.ret r := by
  have hfill : ∀ r : Option v1.Pod, ∃ b : ktmpl.Output,
      (match r with
        | some p => h.fillSourceAttrs N p out h.params
        | none => Exec.pure out).outcome = Outcome.ret b := by
    intro r
    cases r with
    | none => exact ⟨out, rfl⟩
    | some p => exact fillSourceAttrs_returns N h hl p out _
  unfold handler.generateSource
  split_ifs
  · exact Exec.bind_returns _ _ (findPodLoop_returns _ _ hl 0) hfill
  · exact Exec.bind_returns _ _ (findPodLoop_returns _ _ hl 0) hfill
  · exact ⟨out, rfl⟩

/-! ## Attribute generation never fails -/

/-- C6: for every handler whose cache list holds only non-nil controllers and
every request, `GenerateKubernetesAttributes` returns an output together with
the nil error; whatever the lookups find or miss, the run does not end in an
error or a panic. -/
theorem GenerateKubernetesAttributes_no_error (N : Net) (key : Str → Str → Str) (h : handler)
    (inst : ktmpl.Instance) (hl : ∀ c ∈ h.k8sCache, c ≠ none) :
    ∃ out, (h.GenerateKubernetesAttributes N key inst).outcome = Outcome.ret (out, none) := by
  obtain ⟨o1, h1⟩ := generateDestination_returns N key h hl inst ktmpl.NewOutput
  obtain ⟨o2, h2⟩ := generateSource_returns N key h hl inst o1
  refine ⟨o2, ?_⟩
  simp only [handler.GenerateKubernetesAttributes, Exec.bind_eq, Exec.pure_eq]
  rw [Exec.bind_of_ret _ _ o1 h1]
  simp only []
  rw [Exec.bind_of_ret _ _ o2 h2]
  rfl

theorem sampleHandler_no_nil : ∀ c ∈ sampleHandler.k8sCache, c ≠ none := by
  intro c hc
  simp only [sampleHandler, List.mem_cons, List.mem_singleton, List.not_mem_nil, or_false] at hc
  rcases hc with rfl | rfl <;> simp

/-- Witness of C6: the sample handler, whose two controllers are non-nil, on the
sample request. -/
theorem GenerateKubernetesAttributes_no_error_witness :
    ∃ out, (sampleHandler.GenerateKubernetesAttributes goNet key sampleInstance).outcome =
      Outcome.ret (out, none) :=
  GenerateKubernetesAttributes_no_error goNet key sampleHandler sampleInstance
    sampleHandler_no_nil

/-- C7: for a request with empty destination and source UID whose destination
and source IP are nil or unspecified, `GenerateKubernetesAttributes` calls no
cache controller and returns the fresh output and the nil error, for every
handler. -/
theorem GenerateKubernetesAttributes_no_identity (N : Net) (key : Str → Str → Str)
    (h : handler) (inst : ktmpl.Instance)
    (hdu : inst.DestinationUid = []) (hsu : inst.SourceUid = [])
    (hdi : inst.DestinationIp = none ∨ N.IsUnspecified inst.DestinationIp = true)
    (hsi : inst.SourceIp = none ∨ N.IsUnspecified inst.SourceIp = true) :
    h.GenerateKubernetesAttributes N key inst = ⟨[], Outcome.ret (ktmpl.NewOutput, none)⟩ := by
  have hd : ¬ (inst.DestinationIp.isSome = true ∧ N.IsUnspecified inst.DestinationIp = false) := by
    rintro ⟨h1, h2⟩
    rcases hdi with h3 | h3
    · simp [h3] at h1
    · simp [h3] at h2
  have hs : ¬ (inst.SourceIp.isSome = true ∧ N.IsUnspecified inst.SourceIp = false) := by
    rintro ⟨h1, h2⟩
    rcases hsi with h3 | h3
    · simp [h3] at h1
    · simp [h3] at h2
  simp only [handler.GenerateKubernetesAttributes, handler.generateDestination,
    handler.generateSource, hdu, hsu, hd, hs, ne_eq, not_true_eq_false, if_false]
  rfl

/-- Witness of C7: a request whose destination IP is nil and whose source IP is
`0.0.0.0`, on a handler whose only cache entry is a nil controller. -/
theorem GenerateKubernetesAttributes_no_identity_witness :
    handler.GenerateKubernetesAttributes goNet key
      { k8sCache := [none], params := sampleParams }
      { Name := [], SourceUid := [], SourceIp := some [0, 0, 0, 0],
        DestinationUid := [], DestinationIp := none, DestinationPort := 80 } =
      ⟨[], Outcome.ret (ktmpl.NewOutput, none)⟩ :=
  GenerateKubernetesAttributes_no_identity goNet key _ _ rfl rfl (Or.inl rfl)
    (Or.inr (by decide))

/-- C8: which identifier each side of a request is looked up by.  With a
non-empty UID the pod is looked up under `keyFromUID(UID)`, a miss leaves the
output as it is, and the result of the whole request does not depend on that
side's IP.  With an empty UID and an IP that is neither nil nor unspecified the
pod is looked up under `keyFromUID(IP.String())`.  With an empty UID and an IP
that is nil or unspecified no controller is called for that side. -/
theorem generate_lookup_identifier (N : Net) (key : Str → Str → Str) (h : handler)
    (inst : ktmpl.Instance) (out : ktmpl.Output) :
    (inst.DestinationUid ≠ [] →
      h.generateDestination N key inst out =
        Exec.bind (findPodLoop (keyFromUID N key inst.DestinationUid) 0 h.k8sCache)
          (fun r => match r with
            | some p => h.fillDestinationAttrs N p inst.DestinationPort out h.params
            | none => ⟨[], Outcome.ret out⟩) ∧
      ∀ ip, h.GenerateKubernetesAttributes N key { inst with DestinationIp := ip } =
        h.GenerateKubernetesAttributes N key inst) ∧
    (inst.DestinationUid = [] → inst.DestinationIp ≠ none →
      N.IsUnspecified inst.DestinationIp = false →
      h.generateDestination N key inst out =
        Exec.bind
          (findPodLoop (keyFromUID N key (N.IPString inst.DestinationIp)) 0 h.k8sCache)
          (fun r => match r with
            | some p => h.fillDestinationAttrs N p inst.DestinationPort out h.params
            | none => ⟨[], Outcome.ret out⟩)) ∧
    (inst.DestinationUid = [] →
      inst.DestinationIp = none ∨ N.IsUnspecified inst.DestinationIp = true →
      h.generateDestination N key inst out = ⟨[], Outcome.ret out⟩) ∧
    (inst.SourceUid ≠ [] →
      h.generateSource N key inst out =
        Exec.bind (findPodLoop (keyFromUID N key inst.SourceUid) 0 h.k8sCache)
          (fun r => match r with
            | some p => h.fillSourceAttrs N p out h.params
            | none => ⟨[], Outcome.ret out⟩) ∧
      ∀ ip, h.GenerateKubernetesAttributes N key { inst with SourceIp := ip } =
        h.GenerateKubernetesAttributes N key inst) ∧
    (inst.SourceUid = [] → inst.SourceIp ≠ none →
      N.IsUnspecified inst.SourceIp = false →
      h.generateSource N key inst out =
        Exec.bind
          (findPodLoop (keyFromUID N key (N.IPString inst.SourceIp)) 0 h.k8sCache)
          (fun r => match r with
            | some p => h.fillSourceAttrs N p out h.params
            | none => ⟨[], Outcome.ret out⟩)) ∧
    (inst.SourceUid = [] →
      inst.SourceIp = none ∨ N.IsUnspecified inst.SourceIp = true →
      h.generateSource N key inst out = ⟨[], Outcome.ret out⟩) := by
  refine ⟨fun hu => ⟨?_, fun ip => ?_⟩, fun hu hi hn => ?_, fun hu hi => ?_,
    fun hu => ⟨?_, fun ip => ?_⟩, fun hu hi hn => ?_, fun hu hi => ?_⟩
  · simp only [handler.generateDestination, hu, ne_eq, not_false_eq_true, if_true,
      handler.findPod, Exec.bind_eq, Exec.pure_eq]
    rfl
  · simp only [handler.GenerateKubernetesAttributes, handler.generateDestination,
      handler.generateSource, hu, ne_eq, not_false_eq_true, if_true]
  · have hs : inst.DestinationIp.isSome = true := Option.isSome_iff_ne_none.2 hi
    simp only [handler.generateDestination, hu, ne_eq, not_true_eq_false, if_false, hs, hn,
      and_self, if_true, handler.findPod, Exec.bind_eq, Exec.pure_eq]
    rfl
  · have hd : ¬ (inst.DestinationIp.isSome = true ∧
        N.IsUnspecified inst.DestinationIp = false) := by
      rintro ⟨h1, h2⟩
      rcases hi with h3 | h3
      · simp [h3] at h1
      · simp [h3] at h2
    simp only [handler.generateDestination, hu, ne_eq, not_true_eq_false, if_false, hd,
      Exec.pure_eq]
    rfl
  · simp only [handler.generateSource, hu, ne_eq, not_false_eq_true, if_true,
      handler.findPod, Exec.bind_eq, Exec.pure_eq]
    rfl
  · simp only [handler.GenerateKubernetesAttributes, handler.generateDestination,
      handler.generateSource, hu, ne_eq, not_false_eq_true, if_true]
  · have hs : inst.SourceIp.isSome = true := Option.isSome_iff_ne_none.2 hi
    simp only [handler.generateSource, hu, ne_eq, not_true_eq_false, if_false, hs, hn,
      and_self, if_true, handler.findPod, Exec.bind_eq, Exec.pure_eq]
    rfl
  · have hd : ¬ (inst.SourceIp.isSome = true ∧ N.IsUnspecified inst.SourceIp = false) := by
      rintro ⟨h1, h2⟩
      rcases hi with h3 | h3
      · simp [h3] at h1
      · simp [h3] at h2
    simp only [handler.generateSource, hu, ne_eq, not_true_eq_false, if_false, hd,
      Exec.pure_eq]
    rfl

/-- Witness of C8: the sample request names its destination by UID, so its
destination IP is immaterial; a request without UIDs whose source IP is
`10.1.2.3` is looked up under the key of the string `10.1.2.3`; a request
without UIDs and IPs calls no controller for its source. -/
theorem generate_lookup_identifier_witness :
    sampleHandler.GenerateKubernetesAttributes goNet key
        { sampleInstance with DestinationIp := some [10, 9, 8, 7] } =
      sampleHandler.GenerateKubernetesAttributes goNet key sampleInstance ∧
    sampleHandler.generateSource goNet key
        { Name := [], SourceUid := [], SourceIp := some [10, 1, 2, 3],
          DestinationUid := [], DestinationIp := none, DestinationPort := 0 }
        ktmpl.NewOutput =
      Exec.bind
        (findPodLoop (keyFromUID goNet key "10.1.2.3".toList) 0 sampleHandler.k8sCache)
        (fun r => match r with
          | some p => sampleHandler.fillSourceAttrs goNet p ktmpl.NewOutput sampleHandler.params
          | none => ⟨[], Outcome.ret ktmpl.NewOutput⟩) ∧
    sampleHandler.generateSource goNet key
        { Name := [], SourceUid := [], SourceIp := none,
          DestinationUid := [], DestinationIp := none, DestinationPort := 0 }
        ktmpl.NewOutput = ⟨[], Outcome.ret ktmpl.NewOutput⟩ :=
  ⟨((generate_lookup_identifier goNet key sampleHandler sampleInstance ktmpl.NewOutput).1
      (by decide)).2 (some [10, 9, 8, 7]),
   (generate_lookup_identifier goNet key sampleHandler
      { Name := [], SourceUid := [], SourceIp := some [10, 1, 2, 3],
        DestinationUid := [], DestinationIp := none, DestinationPort := 0 }
      ktmpl.NewOutput).2.2.2.2.1 rfl (by decide) (by decide),
   (generate_lookup_identifier goNet key sampleHandler
      { Name := [], SourceUid := [], SourceIp := none,
        DestinationUid := [], DestinationIp := none, DestinationPort := 0 }
      ktmpl.NewOutput).2.2.2.2.2 rfl (Or.inl rfl)⟩

/-! ## Pod lookup: first hit wins -/

theorem findPodLoop_first_hit (K : Str) (pre : List cacheController) (c : cacheController)
    (post : List (Option cacheController)) (pod : v1.Pod)
    (hpre : ∀ d ∈ pre, d.Pod K = none) (hc : c.Pod K = some pod) (i : Nat) :
    findPodLoop K i (pre.map some ++ some c :: post) =
      ⟨(List.range' i (pre.length + 1)).map (fun j => Call.Pod j K),
       Outcome.ret (some pod)⟩ := by
  induction pre generalizing i with
  | nil => simp [findPodLoop_cons_hit K i c post pod hc]
  | cons d ds ih =>
    have hd : d.Pod K = none := hpre d (List.mem_cons_self _ _)
    have hds : ∀ e ∈ ds, e.Pod K = none := fun e he => hpre e (List.mem_cons_of_mem _ he)
    simp only [List.map_cons, List.cons_append, List.length_cons]
    rw [findPodLoop_cons_miss K i d _ hd, ih hds (i + 1)]
    simp [List.range'_succ]

theorem findPodLoop_found_iff (K : Str) (l : List (Option cacheController))
    (hl : ∀ c ∈ l, c ≠ none) (i : Nat) (r : Option v1.Pod)
    (hr : (findPodLoop K i l).outcome = Outcome.ret r) :
    r.isSome = true ↔ ∃ c, some c ∈ l ∧ (c.Pod K).isSome = true := by
  induction l generalizing i with
  | nil =>
    rw [findPodLoop_nil] at hr
    cases hr
    simp
  | cons c rest ih =>
    cases c with
    | none => exact absurd rfl (hl none (List.mem_cons_self _ _))
    | some c =>
      cases hp : c.Pod K with
      | some pod =>
        rw [findPodLoop_cons_hit K i c rest pod hp] at hr
        cases hr
        simp only [Option.isSome_some, true_iff]
        exact ⟨c, List.mem_cons_self _ _, by simp [hp]⟩
      | none =>
        rw [findPodLoop_cons_miss K i c rest hp] at hr
        rw [ih (fun d hd => hl d (List.mem_cons_of_mem _ hd)) (i + 1) hr]
        constructor
        · rintro ⟨d, hd, hh⟩
          exact ⟨d, List.mem_cons_of_mem _ hd, hh⟩
        · rintro ⟨d, hd, hh⟩
          rcases List.mem_cons.1 hd with he | he
          · cases he
            simp [hp] at hh
          · exact ⟨d, he, hh⟩

/-- C9: for every handler and identifier, `findPod` queries the controllers of
the cache list in order under `keyFromUID(identifier)`.  When a controller of
the list holds a pod under the key and the controllers before it hold none,
`findPod` reports found, returns the pod of that lowest-index controller, and
has called exactly the controllers up to it: those after the first hit are not
queried.  On a cache list of controllers, none of them nil, as `Build` hands
them to a handler, `findPod` returns, and it reports found exactly when some
controller of the list holds a pod under the key. -/
theorem findPod_first_hit (N : Net) (key : Str → Str → Str) (h : handler) (uid : Str) :
    (∀ (pre : List cacheController) (c : cacheController)
        (post : List (Option cacheController)) (pod : v1.Pod),
      h.k8sCache = pre.map some ++ some c :: post →
      (∀ d ∈ pre, d.Pod (keyFromUID N key uid) = none) →
      c.Pod (keyFromUID N key uid) = some pod →
      h.findPod N key uid =
        ⟨(List.range (pre.length + 1)).map (fun j => Call.Pod j (keyFromUID N key uid)),
         Outcome.ret (some pod)⟩) ∧
    ((∀ c ∈ h.k8sCache, c ≠ none) →
      ∃ r, (h.findPod N key uid).outcome = Outcome.ret r ∧
        (r.isSome = true ↔
          ∃ c, some c ∈ h.k8sCache ∧ (c.Pod (keyFromUID N key uid)).isSome = true)) := by
  constructor
  · intro pre c post pod hk hpre hc
    simp only [handler.findPod, hk]
    rw [findPodLoop_first_hit _ pre c post pod hpre hc 0, List.range_eq_range']
  · intro hl
    obtain ⟨r, hr⟩ := findPodLoop_returns (keyFromUID N key uid) h.k8sCache hl 0
    exact ⟨r, hr, findPodLoop_found_iff _ _ hl 0 r hr⟩

/-- Witness of C9: in the sample handler the first controller misses and the
second one holds the pod. -/
theorem findPod_first_hit_witness :
    sampleHandler.findPod goNet key "kubernetes://web-1.default".toList =
      ⟨[Call.Pod 0 "default/web-1".toList, Call.Pod 1 "default/web-1".toList],
       Outcome.ret (some samplePod)⟩ ∧
    (∃ r, (sampleHandler.findPod goNet key "10.1.2.3".toList).outcome = Outcome.ret r ∧
      (r.isSome = true ↔
        ∃ c, some c ∈ sampleHandler.k8sCache ∧
          (c.Pod (keyFromUID goNet key "10.1.2.3".toList)).isSome = true)) :=
  ⟨(findPod_first_hit goNet key sampleHandler "kubernetes://web-1.default".toList).1
      [emptyController] sampleController [] samplePod rfl
      (by intro d hd; simp only [List.mem_singleton] at hd; subst hd; rfl) (by decide),
   (findPod_first_hit goNet key sampleHandler "10.1.2.3".toList).2 sampleHandler_no_nil⟩

/-! ## Pod attributes of the output -/

theorem fillDestinationWorkload_cons_nil (p : v1.Pod) (o : ktmpl.Output) (i : Nat)
    (rest : List (Option cacheController)) :
    fillDestinationWorkload p o i (none :: rest) = ⟨[], Outcome.panic⟩ := by
  simp [fillDestinationWorkload, callWorkload, Exec.bind]

theorem fillDestinationWorkload_cons_hit (p : v1.Pod) (o : ktmpl.Output) (i : Nat)
    (c : cacheController) (rest : List (Option cacheController)) (wl : workload)
    (h : c.Workload p = some wl) :
    fillDestinationWorkload p o i (some c :: rest) =
      ⟨[Call.Workload i p],
       Outcome.ret
         { o with DestinationWorkloadUid := some wl.uid,
                  DestinationWorkloadName := some wl.name,
                  DestinationWorkloadNamespace := some wl.namespace_,
                  DestinationOwner :=
                    if wl.selfLinkURL.length > 0 then some wl.selfLinkURL
                    else o.DestinationOwner }⟩ := by
  simp only [fillDestinationWorkload, callWorkload, Exec.bind, h, Exec.bind_eq]
  split_ifs <;> rfl

theorem fillDestinationWorkload_cons_miss (p : v1.Pod) (o : ktmpl.Output) (i : Nat)
    (c : cacheController) (rest : List (Option cacheController))
    (h : c.Workload p = none) :
    fillDestinationWorkload p o i (some c :: rest) =
      ⟨Call.Workload i p :: (fillDestinationWorkload p o (i + 1) rest).calls,
       (fillDestinationWorkload p o (i + 1) rest).outcome⟩ := by
  simp [fillDestinationWorkload, callWorkload, Exec.bind, h]

theorem fillDestinationWorkload_frame (p : v1.Pod) (l : List (Option cacheController))
    (o o1 : ktmpl.Output) (i : Nat)
    (h : (fillDestinationWorkload p o i l).outcome = Outcome.ret o1) :
    ∃ a b c d, o1 = { o with DestinationWorkloadUid := a, DestinationWorkloadName := b,
                             DestinationWorkloadNamespace := c, DestinationOwner := d } := by
  induction l generalizing i with
  | nil =>
    cases h
    exact ⟨_, _, _, _, rfl⟩
  | cons c rest ih =>
    cases c with
    | none =>
      rw [fillDestinationWorkload_cons_nil] at h
      cases h
    | some c =>
      cases hw : c.Workload p with
      | some wl =>
        rw [fillDestinationWorkload_cons_hit p o i c rest wl hw] at h
        cases h
        exact ⟨_, _, _, _, rfl⟩
      | none =>
        rw [fillDestinationWorkload_cons_miss p o i c rest hw] at h
        exact ih (i + 1) h

theorem fillSourceWorkload_cons_nil (p : v1.Pod) (o : ktmpl.Output) (i : Nat)
    (rest : List (Option cacheController)) :
    fillSourceWorkload p o i (none :: rest) = ⟨[], Outcome.panic⟩ := by
  simp [fillSourceWorkload, callWorkload, Exec.bind]

theorem fillSourceWorkload_cons_hit (p : v1.Pod) (o : ktmpl.Output) (i : Nat)
    (c : cacheController) (rest : List (Option cacheController)) (wl : workload)
    (h : c.Workload p = some wl) :
    fillSourceWorkload p o i (some c :: rest) =
      ⟨[Call.Workload i p],
       Outcome.ret
         { o with SourceWorkloadUid := some wl.uid,
                  SourceWorkloadName := some wl.name,
                  SourceWorkloadNamespace := some wl.namespace_,
                  SourceOwner :=
                    if wl.selfLinkURL.length > 0 then some wl.selfLinkURL
                    else o.SourceOwner }⟩ := by
  simp only [fillSourceWorkload, callWorkload, Exec.bind, h, Exec.bind_eq]
  split_ifs <;> rfl

theorem fillSourceWorkload_cons_miss (p : v1.Pod) (o : ktmpl.Output) (i : Nat)
    (c : cacheController) (rest : List (Option cacheController))
    (h : c.Workload p = none) :
    fillSourceWorkload p o i (some c :: rest) =
      ⟨Call.Workload i p :: (fillSourceWorkload p o (i + 1) rest).calls,
       (fillSourceWorkload p o (i + 1) rest).outcome⟩ := by
  simp [fillSourceWorkload, callWorkload, Exec.bind, h]

theorem fillSourceWorkload_frame (p : v1.Pod) (l : List (Option cacheController))
    (o o1 : ktmpl.Output) (i : Nat)
    (h : (fillSourceWorkload p o i l).outcome = Outcome.ret o1) :
    ∃ a b c d, o1 = { o with SourceWorkloadUid := a, SourceWorkloadName := b,
                             SourceWorkloadNamespace := c, SourceOwner := d } := by
  induction l generalizing i with
  | nil =>
    cases h
    exact ⟨_, _, _, _, rfl⟩
  | cons c rest ih =>
    cases c with
    | none =>
      rw [fillSourceWorkload_cons_nil] at h
      cases h
    | some c =>
      cases hw : c.Workload p with
      | some wl =>
        rw [fillSourceWorkload_cons_hit p o i c rest wl hw] at h
        cases h
        exact ⟨_, _, _, _, rfl⟩
      | none =>
        rw [fillSourceWorkload_cons_miss p o i c rest hw] at h
        exact ih (i + 1) h

/-- The pod attributes `fillDestinationAttrs` leaves in the output, and the
source pod attributes it does not touch. -/
theorem fillDestinationAttrs_pod (N : Net) (h : handler) (p : v1.Pod) (port : Int)
    (o o1 : ktmpl.Output) (params : config.Params)
    (hr : (h.fillDestinationAttrs N p port o params).outcome = Outcome.ret o1) :
    (o1.DestinationLabels = if p.Labels ≠ [] then some p.Labels else o.DestinationLabels) ∧
    (o1.DestinationPodName = if p.Name ≠ [] then some p.Name else o.DestinationPodName) ∧
    (o1.DestinationNamespace =
      if p.Namespace ≠ [] then some p.Namespace else o.DestinationNamespace) ∧
    (o1.DestinationServiceAccountName =
      if p.Spec.ServiceAccountName ≠ [] then some p.Spec.ServiceAccountName
      else o.DestinationServiceAccountName) ∧
    (o1.DestinationPodIp =
      if p.Status.PodIP ≠ [] then some (N.ParseIP p.Status.PodIP) else o.DestinationPodIp) ∧
    (o1.DestinationHostIp =
      if p.Status.HostIP ≠ [] then some (N.ParseIP p.Status.HostIP)
      else o.DestinationHostIp) ∧
    o1.SourceLabels = o.SourceLabels ∧ o1.SourcePodName = o.SourcePodName ∧
    o1.SourceNamespace = o.SourceNamespace ∧
    o1.SourceServiceAccountName = o.SourceServiceAccountName ∧
    o1.SourcePodIp = o.SourcePodIp ∧ o1.SourceHostIp = o.SourceHostIp := by
  simp only [handler.fillDestinationAttrs, Exec.bind_eq, Exec.pure_eq] at hr
  obtain ⟨o2, h2, h3⟩ := Exec.bind_ret_inv _ _ _ hr
  obtain ⟨a, b, c, d, rfl⟩ := fillDestinationWorkload_frame _ _ _ _ _ h2
  cases h3
  refine ⟨?_, ?_, ?_, ?_, ?_, ?_, ?_, ?_, ?_, ?_, ?_, ?_⟩
  all_goals
    simp only [List.length_pos, apply_ite ktmpl.Output.DestinationLabels,
      apply_ite ktmpl.Output.DestinationPodName, apply_ite ktmpl.Output.DestinationNamespace,
      apply_ite ktmpl.Output.DestinationServiceAccountName,
      apply_ite ktmpl.Output.DestinationPodIp, apply_ite ktmpl.Output.DestinationHostIp,
      apply_ite ktmpl.Output.SourceLabels, apply_ite ktmpl.Output.SourcePodName,
      apply_ite ktmpl.Output.SourceNamespace, apply_ite ktmpl.Output.SourceServiceAccountName,
      apply_ite ktmpl.Output.SourcePodIp, apply_ite ktmpl.Output.SourceHostIp, ite_self]

/-- The pod attributes `fillSourceAttrs` leaves in the output, and the
destination pod attributes it does not touch. -/
theorem fillSourceAttrs_pod (N : Net) (h : handler) (p : v1.Pod)
    (o o1 : ktmpl.Output) (params : config.Params)
    (hr : (h.fillSourceAttrs N p o params).outcome = Outcome.ret o1) :
    (o1.SourceLabels = if p.Labels ≠ [] then some p.Labels else o.SourceLabels) ∧
    (o1.SourcePodName = if p.Name ≠ [] then some p.Name else o.SourcePodName) ∧
    (o1.SourceNamespace =
      if p.Namespace ≠ [] then some p.Namespace else o.SourceNamespace) ∧
    (o1.SourceServiceAccountName =
      if p.Spec.ServiceAccountName ≠ [] then some p.Spec.ServiceAccountName
      else o.SourceServiceAccountName) ∧
    (o1.SourcePodIp =
      if p.Status.PodIP ≠ [] then some (N.ParseIP p.Status.PodIP) else o.SourcePodIp) ∧
    (o1.SourceHostIp =
      if p.Status.HostIP ≠ [] then some (N.ParseIP p.Status.HostIP) else o.SourceHostIp) ∧
    o1.DestinationLabels = o.DestinationLabels ∧
    o1.DestinationPodName = o.DestinationPodName ∧
    o1.DestinationNamespace = o.DestinationNamespace ∧
    o1.DestinationServiceAccountName = o.DestinationServiceAccountName ∧
    o1.DestinationPodIp = o.DestinationPodIp ∧
    o1.DestinationHostIp = o.DestinationHostIp := by
  simp only [handler.fillSourceAttrs] at hr
  obtain ⟨a, b, c, d, rfl⟩ := fillSourceWorkload_frame _ _ _ _ _ hr
  refine ⟨?_, ?_, ?_, ?_, ?_, ?_, ?_, ?_, ?_, ?_, ?_, ?_⟩
  all_goals
    simp only [List.length_pos, apply_ite ktmpl.Output.DestinationLabels,
      apply_ite ktmpl.Output.DestinationPodName, apply_ite ktmpl.Output.DestinationNamespace,
      apply_ite ktmpl.Output.DestinationServiceAccountName,
      apply_ite ktmpl.Output.DestinationPodIp, apply_ite ktmpl.Output.DestinationHostIp,
      apply_ite ktmpl.Output.SourceLabels, apply_ite ktmpl.Output.SourcePodName,
      apply_ite ktmpl.Output.SourceNamespace, apply_ite ktmpl.Output.SourceServiceAccountName,
      apply_ite ktmpl.Output.SourcePodIp, apply_ite ktmpl.Output.SourceHostIp, ite_self]

theorem generateDestination_hit (N : Net) (key : Str → Str → Str) (h : handler)
    (inst : ktmpl.Instance) (o o1 : ktmpl.Output) (p : v1.Pod)
    (hr : (h.generateDestination N key inst o).outcome = Outcome.ret o1)
    (hit : (inst.DestinationUid ≠ [] ∧
              (h.findPod N key inst.DestinationUid).outcome = Outcome.ret (some p)) ∨
           (inst.DestinationUid = [] ∧ inst.DestinationIp ≠ none ∧
              N.IsUnspecified inst.DestinationIp = false ∧
              (h.findPod N key (N.IPString inst.DestinationIp)).outcome =
                Outcome.ret (some p))) :
    (h.fillDestinationAttrs N p inst.DestinationPort o h.params).outcome = Outcome.ret o1 := by
  rcases hit with ⟨hu, hf⟩ | ⟨hu, hi, hn, hf⟩
  · simp only [handler.generateDestination, hu, ne_eq, not_false_eq_true, if_true,
      Exec.bind_eq] at hr
    rw [Exec.bind_of_ret _ _ _ hf] at hr
    exact hr
  · have hs : inst.DestinationIp.isSome = true := Option.isSome_iff_ne_none.2 hi
    simp only [handler.generateDestination, hu, ne_eq, not_true_eq_false, if_false, hs, hn,
      and_self, if_true, Exec.bind_eq] at hr
    rw [Exec.bind_of_ret _ _ _ hf] at hr
    exact hr

theorem generateSource_hit (N : Net) (key : Str → Str → Str) (h : handler)
    (inst : ktmpl.Instance) (o o1 : ktmpl.Output) (p : v1.Pod)
    (hr : (h.generateSource N key inst o).outcome = Outcome.ret o1)
    (hit : (inst.SourceUid ≠ [] ∧
              (h.findPod N key inst.SourceUid).outcome = Outcome.ret (some p)) ∨
           (inst.SourceUid = [] ∧ inst.SourceIp ≠ none ∧
              N.IsUnspecified inst.SourceIp = false ∧
              (h.findPod N key (N.IPString inst.SourceIp)).outcome =
                Outcome.ret (some p))) :
    (h.fillSourceAttrs N p o h.params).outcome = Outcome.ret o1 := by
  rcases hit with ⟨hu, hf⟩ | ⟨hu, hi, hn, hf⟩
  · simp only [handler.generateSource, hu, ne_eq, not_false_eq_true, if_true,
      Exec.bind_eq] at hr
    rw [Exec.bind_of_ret _ _ _ hf] at hr
    exact hr
  · have hs : inst.SourceIp.isSome = true := Option.isSome_iff_ne_none.2 hi
    simp only [handler.generateSource, hu, ne_eq, not_true_eq_false, if_false, hs, hn,
      and_self, if_true, Exec.bind_eq] at hr
    rw [Exec.bind_of_ret _ _ _ hf] at hr
    exact hr

/-- Whatever the destination half does, it leaves the source pod attributes alone. -/
theorem generateDestination_source_frame (N : Net) (key : Str → Str → Str) (h : handler)
    (inst : ktmpl.Instance) (o o1 : ktmpl.Output)
    (hr : (h.generateDestination N key inst o).outcome = Outcome.ret o1) :
    o1.SourceLabels = o.SourceLabels ∧ o1.SourcePodName = o.SourcePodName ∧
    o1.SourceNamespace = o.SourceNamespace ∧
    o1.SourceServiceAccountName = o.SourceServiceAccountName ∧
    o1.SourcePodIp = o.SourcePodIp ∧ o1.SourceHostIp = o.SourceHostIp := by
  have key_step : ∀ (x : Exec (Option v1.Pod)),
      (Exec.bind x (fun r => match r with
        | some p => h.fillDestinationAttrs N p inst.DestinationPort o h.params
        | none => Exec.pure o)).outcome = Outcome.ret o1 →
      o1.SourceLabels = o.SourceLabels ∧ o1.SourcePodName = o.SourcePodName ∧
      o1.SourceNamespace = o.SourceNamespace ∧
      o1.SourceServiceAccountName = o.SourceServiceAccountName ∧
      o1.SourcePodIp = o.SourcePodIp ∧ o1.SourceHostIp = o.SourceHostIp := by
    intro x hx
    obtain ⟨r, _, h2⟩ := Exec.bind_ret_inv _ _ _ hx
    cases r with
    | none =>
      cases h2
      exact ⟨rfl, rfl, rfl, rfl, rfl, rfl⟩
    | some p => exact (fillDestinationAttrs_pod N h p _ o o1 _ h2).2.2.2.2.2.2
  unfold handler.generateDestination at hr
  split_ifs at hr
  · exact key_step _ hr
  · exact key_step _ hr
  · cases hr
    exact ⟨rfl, rfl, rfl, rfl, rfl, rfl⟩

/-- Whatever the source half does, it leaves the destination pod attributes alone. -/
theorem generateSource_destination_frame (N : Net) (key : Str → Str → Str) (h : handler)
    (inst : ktmpl.Instance) (o o1 : ktmpl.Output)
    (hr : (h.generateSource N key inst o).outcome = Outcome.ret o1) :
    o1.DestinationLabels = o.DestinationLabels ∧
    o1.DestinationPodName = o.DestinationPodName ∧
    o1.DestinationNamespace = o.DestinationNamespace ∧
    o1.DestinationServiceAccountName = o.DestinationServiceAccountName ∧
    o1.DestinationPodIp = o.DestinationPodIp ∧
    o1.DestinationHostIp = o.DestinationHostIp := by
  have key_step : ∀ (x : Exec (Option v1.Pod)),
      (Exec.bind x (fun r => match r with
        | some p => h.fillSourceAttrs N p o h.params
        | none => Exec.pure o)).outcome = Outcome.ret o1 →
      o1.DestinationLabels = o.DestinationLabels ∧
      o1.DestinationPodName = o.DestinationPodName ∧
      o1.DestinationNamespace = o.DestinationNamespace ∧
      o1.DestinationServiceAccountName = o.DestinationServiceAccountName ∧
      o1.DestinationPodIp = o.DestinationPodIp ∧
      o1.DestinationHostIp = o.DestinationHostIp := by
    intro x hx
    obtain ⟨r, _, h2⟩ := Exec.bind_ret_inv _ _ _ hx
    cases r with
    | none =>
      cases h2
      exact ⟨rfl, rfl, rfl, rfl, rfl, rfl⟩
    | some p => exact (fillSourceAttrs_pod N h p o o1 _ h2).2.2.2.2.2.2
  unfold handler.generateSource at hr
  split_ifs at hr
  · exact key_step _ hr
  · exact key_step _ hr
  · cases hr
    exact ⟨rfl, rfl, rfl, rfl, rfl, rfl⟩

/-- The two halves of a run of `GenerateKubernetesAttributes` that returned. -/
theorem GenerateKubernetesAttributes_halves (N : Net) (key : Str → Str → Str) (h : handler)
    (inst : ktmpl.Instance) (out : ktmpl.Output) (err : Option Str)
    (hr : (h.GenerateKubernetesAttributes N key inst).outcome = Outcome.ret (out, err)) :
    ∃ o1, (h.generateDestination N key inst ktmpl.NewOutput).outcome = Outcome.ret o1 ∧
      (h.generateSource N key inst o1).outcome = Outcome.ret out ∧ err = none := by
  simp only [handler.GenerateKubernetesAttributes, Exec.bind_eq, Exec.pure_eq] at hr
  obtain ⟨o1, h1, h2⟩ := Exec.bind_ret_inv _ _ _ hr
  obtain ⟨o2, h3, h4⟩ := Exec.bind_ret_inv _ _ _ h2
  cases h4
  exact ⟨o1, h1, h3, rfl⟩

/-- C10: when the lookup for a side hits a pod, the output carries for that side
the pod's labels, name, namespace, service-account name, pod IP and host IP
(the IPs as `net.ParseIP` reads the status strings), each one set exactly when
the pod's field is non-empty.  The lookup of a side is the one under its UID
when the UID is non-empty, and else the one under the string of its IP when
the IP is neither nil nor unspecified.  On a handler without nil controllers
the output exists. -/
theorem generate_pod_attributes (N : Net) (key : Str → Str → Str) (h : handler)
    (inst : ktmpl.Instance) :
    ((∀ c ∈ h.k8sCache, c ≠ none) →
      ∃ out, (h.GenerateKubernetesAttributes N key inst).outcome = Outcome.ret (out, none)) ∧
    ∀ out err, (h.GenerateKubernetesAttributes N key inst).outcome = Outcome.ret (out, err) →
      (∀ p,
        ((inst.DestinationUid ≠ [] ∧
              (h.findPod N key inst.DestinationUid).outcome = Outcome.ret (some p)) ∨
           (inst.DestinationUid = [] ∧ inst.DestinationIp ≠ none ∧
              N.IsUnspecified inst.DestinationIp = false ∧
              (h.findPod N key (N.IPString inst.DestinationIp)).outcome =
                Outcome.ret (some p))) →
        (out.DestinationLabels = if p.Labels ≠ [] then some p.Labels else none) ∧
        (out.DestinationPodName = if p.Name ≠ [] then some p.Name else none) ∧
        (out.DestinationNamespace = if p.Namespace ≠ [] then some p.Namespace else none) ∧
        (out.DestinationServiceAccountName =
          if p.Spec.ServiceAccountName ≠ [] then some p.Spec.ServiceAccountName else none) ∧
        (out.DestinationPodIp =
          if p.Status.PodIP ≠ [] then some (N.ParseIP p.Status.PodIP) else none) ∧
        (out.DestinationHostIp =
          if p.Status.HostIP ≠ [] then some (N.ParseIP p.Status.HostIP) else none)) ∧
      (∀ p,
        ((inst.SourceUid ≠ [] ∧
              (h.findPod N key inst.SourceUid).outcome = Outcome.ret (some p)) ∨
           (inst.SourceUid = [] ∧ inst.SourceIp ≠ none ∧
              N.IsUnspecified inst.SourceIp = false ∧
              (h.findPod N key (N.IPString inst.SourceIp)).outcome =
                Outcome.ret (some p))) →
        (out.SourceLabels = if p.Labels ≠ [] then some p.Labels else none) ∧
        (out.SourcePodName = if p.Name ≠ [] then some p.Name else none) ∧
        (out.SourceNamespace = if p.Namespace ≠ [] then some p.Namespace else none) ∧
        (out.SourceServiceAccountName =
          if p.Spec.ServiceAccountName ≠ [] then some p.Spec.ServiceAccountName else none) ∧
        (out.SourcePodIp =
          if p.Status.PodIP ≠ [] then some (N.ParseIP p.Status.PodIP) else none) ∧
        (out.SourceHostIp =
          if p.Status.HostIP ≠ [] then some (N.ParseIP p.Status.HostIP) else none)) := by
  constructor
  · intro hl
    obtain ⟨o1, h1⟩ := generateDestination_returns N key h hl inst ktmpl.NewOutput
    obtain ⟨o2, h2⟩ := generateSource_returns N key h hl inst o1
    refine ⟨o2, ?_⟩
    simp only [handler.GenerateKubernetesAttributes, Exec.bind_eq, Exec.pure_eq]
    rw [Exec.bind_of_ret _ _ o1 h1]
    simp only []
    rw [Exec.bind_of_ret _ _ o2 h2]
    rfl
  · intro out err hr
    obtain ⟨o1, h1, h2, _⟩ := GenerateKubernetesAttributes_halves N key h inst out err hr
    constructor
    · intro p hit
      have hf := fillDestinationAttrs_pod N h p _ _ o1 _
        (generateDestination_hit N key h inst _ o1 p h1 hit)
      have hs := generateSource_destination_frame N key h inst o1 out h2
      obtain ⟨f1, f2, f3, f4, f5, f6, _⟩ := hf
      obtain ⟨g1, g2, g3, g4, g5, g6⟩ := hs
      rw [g1, g2, g3, g4, g5, g6, f1, f2, f3, f4, f5, f6]
      exact ⟨rfl, rfl, rfl, rfl, rfl, rfl⟩
    · intro p hit
      have hf := fillSourceAttrs_pod N h p o1 out _
        (generateSource_hit N key h inst o1 out p h2 hit)
      have hd := generateDestination_source_frame N key h inst _ o1 h1
      obtain ⟨f1, f2, f3, f4, f5, f6, _⟩ := hf
      obtain ⟨g1, g2, g3, g4, g5, g6⟩ := hd
      rw [f1, f2, f3, f4, f5, f6, g1, g2, g3, g4, g5, g6]
      exact ⟨rfl, rfl, rfl, rfl, rfl, rfl⟩

/-- Witness of C10: the destination UID `10.1.2.3` hits the sample pod, which the
second controller indexes under that IP; the output carries the pod's name,
namespace and labels, and no service-account name, the pod having none. -/
theorem generate_pod_attributes_witness :
    (sampleHandler.findPod goNet key sampleInstance.DestinationUid).outcome =
      Outcome.ret (some samplePod) ∧
    ∃ out, (sampleHandler.GenerateKubernetesAttributes goNet key sampleInstance).outcome =
        Outcome.ret (out, none) ∧
      out.DestinationPodName = some "web-1".toList ∧
      out.DestinationNamespace = some "default".toList ∧
      out.DestinationLabels = some [("app".toList, "web".toList)] ∧
      out.DestinationServiceAccountName = none := by
  obtain ⟨out, hout⟩ :=
    (generate_pod_attributes goNet key sampleHandler sampleInstance).1 sampleHandler_no_nil
  have hd := ((generate_pod_attributes goNet key sampleHandler sampleInstance).2 out none
    hout).1 samplePod (Or.inl ⟨by decide, by decide⟩)
  exact ⟨by decide, out, hout, hd.2.1.trans (by decide), hd.2.2.1.trans (by decide),
    hd.1.trans (by decide), hd.2.2.2.1.trans (by decide)⟩

/-! ## Workload attributes of the output -/

theorem fillDestinationWorkload_first_hit (p : v1.Pod) (o : ktmpl.Output)
    (pre : List cacheController) (c : cacheController) (post : List (Option cacheController))
    (wl : workload) (hpre : ∀ d ∈ pre, d.Workload p = none) (hc : c.Workload p = some wl)
    (i : Nat) :
    fillDestinationWorkload p o i (pre.map some ++ some c :: post) =
      ⟨(List.range' i (pre.length + 1)).map (fun j => Call.Workload j p),
       Outcome.ret
         { o with DestinationWorkloadUid := some wl.uid,
                  DestinationWorkloadName := some wl.name,
                  DestinationWorkloadNamespace := some wl.namespace_,
                  DestinationOwner :=
                    if wl.selfLinkURL.length > 0 then some wl.selfLinkURL
                    else o.DestinationOwner }⟩ := by
  induction pre generalizing i with
  | nil => simp [fillDestinationWorkload_cons_hit p o i c post wl hc]
  | cons d ds ih =>
    have hd : d.Workload p = none := hpre d (List.mem_cons_self _ _)
    have hds : ∀ e ∈ ds, e.Workload p = none := fun e he => hpre e (List.mem_cons_of_mem _ he)
    simp only [List.map_cons, List.cons_append, List.length_cons]
    rw [fillDestinationWorkload_cons_miss p o i d _ hd, ih hds (i + 1)]
    simp [List.range'_succ]

theorem fillDestinationWorkload_all_miss (p : v1.Pod) (o : ktmpl.Output)
    (cs : List cacheController) (hcs : ∀ d ∈ cs, d.Workload p = none) (i : Nat) :
    fillDestinationWorkload p o i (cs.map some) =
      ⟨(List.range' i cs.length).map (fun j => Call.Workload j p), Outcome.ret o⟩ := by
  induction cs generalizing i with
  | nil => rfl
  | cons d ds ih =>
    have hd : d.Workload p = none := hcs d (List.mem_cons_self _ _)
    have hds : ∀ e ∈ ds, e.Workload p = none := fun e he => hcs e (List.mem_cons_of_mem _ he)
    simp only [List.map_cons, List.length_cons]
    rw [fillDestinationWorkload_cons_miss p o i d _ hd, ih hds (i + 1)]
    simp [List.range'_succ]

theorem fillSourceWorkload_first_hit (p : v1.Pod) (o : ktmpl.Output)
    (pre : List cacheController) (c : cacheController) (post : List (Option cacheController))
    (wl : workload) (hpre : ∀ d ∈ pre, d.Workload p = none) (hc : c.Workload p = some wl)
    (i : Nat) :
    fillSourceWorkload p o i (pre.map some ++ some c :: post) =
      ⟨(List.range' i (pre.length + 1)).map (fun j => Call.Workload j p),
       Outcome.ret
         { o with SourceWorkloadUid := some wl.uid,
                  SourceWorkloadName := some wl.name,
                  SourceWorkloadNamespace := some wl.namespace_,
                  SourceOwner :=
                    if wl.selfLinkURL.length > 0 then some wl.selfLinkURL
                    else o.SourceOwner }⟩ := by
  induction pre generalizing i with
  | nil => simp [fillSourceWorkload_cons_hit p o i c post wl hc]
  | cons d ds ih =>
    have hd : d.Workload p = none := hpre d (List.mem_cons_self _ _)
    have hds : ∀ e ∈ ds, e.Workload p = none := fun e he => hpre e (List.mem_cons_of_mem _ he)
    simp only [List.map_cons, List.cons_append, List.length_cons]
    rw [fillSourceWorkload_cons_miss p o i d _ hd, ih hds (i + 1)]
    simp [List.range'_succ]

theorem fillSourceWorkload_all_miss (p : v1.Pod) (o : ktmpl.Output)
    (cs : List cacheController) (hcs : ∀ d ∈ cs, d.Workload p = none) (i : Nat) :
    fillSourceWorkload p o i (cs.map some) =
      ⟨(List.range' i cs.length).map (fun j => Call.Workload j p), Outcome.ret o⟩ := by
  induction cs generalizing i with
  | nil => rfl
  | cons d ds ih =>
    have hd : d.Workload p = none := hcs d (List.mem_cons_self _ _)
    have hds : ∀ e ∈ ds, e.Workload p = none := fun e he => hcs e (List.mem_cons_of_mem _ he)
    simp only [List.map_cons, List.length_cons]
    rw [fillSourceWorkload_cons_miss p o i d _ hd, ih hds (i + 1)]
    simp [List.range'_succ]

/-- The shape of `fillDestinationAttrs`: the pod attributes are written into
an output `o'` that agrees with `o` on every other attribute, then the
workload loop runs on `o'`, then the container name is set. -/
theorem fillDestinationAttrs_shape (N : Net) (h : handler) (p : v1.Pod) (port : Int)
    (o : ktmpl.Output) (params : config.Params) :
    ∃ o', h.fillDestinationAttrs N p port o params =
        Exec.bind (fillDestinationWorkload p o' 0 h.k8sCache)
          (fun o2 => Exec.pure
            (if findContainer p port ≠ [] then
               { o2 with DestinationContainerName := some (findContainer p port) }
             else o2)) ∧
      o'.DestinationWorkloadUid = o.DestinationWorkloadUid ∧
      o'.DestinationWorkloadName = o.DestinationWorkloadName ∧
      o'.DestinationWorkloadNamespace = o.DestinationWorkloadNamespace ∧
      o'.DestinationOwner = o.DestinationOwner ∧
      o'.DestinationContainerName = o.DestinationContainerName ∧
      o'.SourceWorkloadUid = o.SourceWorkloadUid ∧
      o'.SourceWorkloadName = o.SourceWorkloadName ∧
      o'.SourceWorkloadNamespace = o.SourceWorkloadNamespace ∧
      o'.SourceOwner = o.SourceOwner := by
  refine ⟨_, rfl, ?_, ?_, ?_, ?_, ?_, ?_, ?_, ?_, ?_⟩
  all_goals
    simp only [apply_ite ktmpl.Output.DestinationWorkloadUid,
      apply_ite ktmpl.Output.DestinationWorkloadName,
      apply_ite ktmpl.Output.DestinationWorkloadNamespace,
      apply_ite ktmpl.Output.DestinationOwner,
      apply_ite ktmpl.Output.DestinationContainerName,
      apply_ite ktmpl.Output.SourceWorkloadUid, apply_ite ktmpl.Output.SourceWorkloadName,
      apply_ite ktmpl.Output.SourceWorkloadNamespace, apply_ite ktmpl.Output.SourceOwner,
      ite_self]

/-- The shape of `fillSourceAttrs`: the pod attributes are written into an
output `o'` that agrees with `o` on every other attribute, then the workload
loop runs on `o'`. -/
theorem fillSourceAttrs_shape (N : Net) (h : handler) (p : v1.Pod)
    (o : ktmpl.Output) (params : config.Params) :
    ∃ o', h.fillSourceAttrs N p o params = fillSourceWorkload p o' 0 h.k8sCache ∧
      o'.DestinationWorkloadUid = o.DestinationWorkloadUid ∧
      o'.DestinationWorkloadName = o.DestinationWorkloadName ∧
      o'.DestinationWorkloadNamespace = o.DestinationWorkloadNamespace ∧
      o'.DestinationOwner = o.DestinationOwner ∧
      o'.DestinationContainerName = o.DestinationContainerName ∧
      o'.SourceWorkloadUid = o.SourceWorkloadUid ∧
      o'.SourceWorkloadName = o.SourceWorkloadName ∧
      o'.SourceWorkloadNamespace = o.SourceWorkloadNamespace ∧
      o'.SourceOwner = o.SourceOwner := by
  refine ⟨_, rfl, ?_, ?_, ?_, ?_, ?_, ?_, ?_, ?_, ?_⟩
  all_goals
    simp only [apply_ite ktmpl.Output.DestinationWorkloadUid,
      apply_ite ktmpl.Output.DestinationWorkloadName,
      apply_ite ktmpl.Output.DestinationWorkloadNamespace,
      apply_ite ktmpl.Output.DestinationOwner,
      apply_ite ktmpl.Output.DestinationContainerName,
      apply_ite ktmpl.Output.SourceWorkloadUid, apply_ite ktmpl.Output.SourceWorkloadName,
      apply_ite ktmpl.Output.SourceWorkloadNamespace, apply_ite ktmpl.Output.SourceOwner,
      ite_self]

theorem length_pos_iff_ne_nil (s : Str) : s.length > 0 ↔ s ≠ [] := by
  cases s <;> simp

/-- What `fillDestinationAttrs` does when the controller after `pre` is the first
one to resolve the pod's workload. -/
theorem fillDestinationAttrs_workload_hit (N : Net) (h : handler) (p : v1.Pod) (port : Int)
    (o : ktmpl.Output) (params : config.Params)
    (pre : List cacheController) (c : cacheController) (post : List (Option cacheController))
    (wl : workload) (hk : h.k8sCache = pre.map some ++ some c :: post)
    (hpre : ∀ d ∈ pre, d.Workload p = none) (hc : c.Workload p = some wl) :
    ∃ o1, h.fillDestinationAttrs N p port o params =
        ⟨(List.range (pre.length + 1)).map (fun j => Call.Workload j p), Outcome.ret o1⟩ ∧
      o1.DestinationWorkloadUid = some wl.uid ∧
      o1.DestinationWorkloadName = some wl.name ∧
      o1.DestinationWorkloadNamespace = some wl.namespace_ ∧
      o1.DestinationOwner =
        if wl.selfLinkURL ≠ [] then some wl.selfLinkURL else o.DestinationOwner := by
  obtain ⟨o', he, _, _, _, ho, _⟩ := fillDestinationAttrs_shape N h p port o params
  rw [he, hk, fillDestinationWorkload_first_hit p o' pre c post wl hpre hc 0,
    Exec.bind_of_ret _ _ _ rfl]
  simp only [Exec.pure, List.append_nil, List.range_eq_range']
  refine ⟨_, rfl, ?_, ?_, ?_, ?_⟩
  all_goals
    simp only [apply_ite ktmpl.Output.DestinationWorkloadUid,
      apply_ite ktmpl.Output.DestinationWorkloadName,
      apply_ite ktmpl.Output.DestinationWorkloadNamespace,
      apply_ite ktmpl.Output.DestinationOwner, ite_self, ho, length_pos_iff_ne_nil]

/-- What `fillDestinationAttrs` does when no controller resolves the pod's workload. -/
theorem fillDestinationAttrs_workload_miss (N : Net) (h : handler) (p : v1.Pod) (port : Int)
    (o : ktmpl.Output) (params : config.Params)
    (cs : List cacheController) (hk : h.k8sCache = cs.map some)
    (hcs : ∀ d ∈ cs, d.Workload p = none) :
    ∃ o1, h.fillDestinationAttrs N p port o params =
        ⟨(List.range cs.length).map (fun j => Call.Workload j p), Outcome.ret o1⟩ ∧
      o1.DestinationWorkloadUid = o.DestinationWorkloadUid ∧
      o1.DestinationWorkloadName = o.DestinationWorkloadName ∧
      o1.DestinationWorkloadNamespace = o.DestinationWorkloadNamespace ∧
      o1.DestinationOwner = o.DestinationOwner := by
  obtain ⟨o', he, h1, h2, h3, h4, _⟩ := fillDestinationAttrs_shape N h p port o params
  rw [he, hk, fillDestinationWorkload_all_miss p o' cs hcs 0, Exec.bind_of_ret _ _ _ rfl]
  simp only [Exec.pure, List.append_nil, List.range_eq_range']
  refine ⟨_, rfl, ?_, ?_, ?_, ?_⟩
  all_goals
    simp only [apply_ite ktmpl.Output.DestinationWorkloadUid,
      apply_ite ktmpl.Output.DestinationWorkloadName,
      apply_ite ktmpl.Output.DestinationWorkloadNamespace,
      apply_ite ktmpl.Output.DestinationOwner, ite_self, h1, h2, h3, h4]

/-- What `fillSourceAttrs` does when the controller after `pre` is the first one
to resolve the pod's workload. -/
theorem fillSourceAttrs_workload_hit (N : Net) (h : handler) (p : v1.Pod)
    (o : ktmpl.Output) (params : config.Params)
    (pre : List cacheController) (c : cacheController) (post : List (Option cacheController))
    (wl : workload) (hk : h.k8sCache = pre.map some ++ some c :: post)
    (hpre : ∀ d ∈ pre, d.Workload p = none) (hc : c.Workload p = some wl) :
    ∃ o1, h.fillSourceAttrs N p o params =
        ⟨(List.range (pre.length + 1)).map (fun j => Call.Workload j p), Outcome.ret o1⟩ ∧
      o1.SourceWorkloadUid = some wl.uid ∧
      o1.SourceWorkloadName = some wl.name ∧
      o1.SourceWorkloadNamespace = some wl.namespace_ ∧
      o1.SourceOwner =
        if wl.selfLinkURL ≠ [] then some wl.selfLinkURL else o.SourceOwner := by
  obtain ⟨o', he, _, _, _, _, _, _, _, _, ho⟩ := fillSourceAttrs_shape N h p o params
  rw [he, hk, fillSourceWorkload_first_hit p o' pre c post wl hpre hc 0]
  simp only [List.range_eq_range']
  refine ⟨_, rfl, ?_, ?_, ?_, ?_⟩
  all_goals simp only [ho, length_pos_iff_ne_nil]

/-- What `fillSourceAttrs` does when no controller resolves the pod's workload. -/
theorem fillSourceAttrs_workload_miss (N : Net) (h : handler) (p : v1.Pod)
    (o : ktmpl.Output) (params : config.Params)
    (cs : List cacheController) (hk : h.k8sCache = cs.map some)
    (hcs : ∀ d ∈ cs, d.Workload p = none) :
    ∃ o1, h.fillSourceAttrs N p o params =
        ⟨(List.range cs.length).map (fun j => Call.Workload j p), Outcome.ret o1⟩ ∧
      o1.SourceWorkloadUid = o.SourceWorkloadUid ∧
      o1.SourceWorkloadName = o.SourceWorkloadName ∧
      o1.SourceWorkloadNamespace = o.SourceWorkloadNamespace ∧
      o1.SourceOwner = o.SourceOwner := by
  obtain ⟨o', he, _, _, _, _, _, h1, h2, h3, h4⟩ := fillSourceAttrs_shape N h p o params
  rw [he, hk, fillSourceWorkload_all_miss p o' cs hcs 0]
  exact ⟨_, by simp only [List.range_eq_range'], h1, h2, h3, h4⟩

/-- The attributes of the other groups that `fillDestinationAttrs` leaves alone,
and the container name it sets. -/
theorem fillDestinationAttrs_rest (N : Net) (h : handler) (p : v1.Pod) (port : Int)
    (o o1 : ktmpl.Output) (params : config.Params)
    (hr : (h.fillDestinationAttrs N p port o params).outcome = Outcome.ret o1) :
    o1.SourceWorkloadUid = o.SourceWorkloadUid ∧
    o1.SourceWorkloadName = o.SourceWorkloadName ∧
    o1.SourceWorkloadNamespace = o.SourceWorkloadNamespace ∧
    o1.SourceOwner = o.SourceOwner ∧
    o1.DestinationContainerName =
      if findContainer p port ≠ [] then some (findContainer p port)
      else o.DestinationContainerName := by
  obtain ⟨o', he, _, _, _, _, h5, h6, h7, h8, h9⟩ :=
    fillDestinationAttrs_shape N h p port o params
  rw [he] at hr
  obtain ⟨o2, h2, h3⟩ := Exec.bind_ret_inv _ _ _ hr
  obtain ⟨a, b, c, d, rfl⟩ := fillDestinationWorkload_frame _ _ _ _ _ h2
  cases h3
  refine ⟨?_, ?_, ?_, ?_, ?_⟩
  all_goals
    simp only [apply_ite ktmpl.Output.SourceWorkloadUid,
      apply_ite ktmpl.Output.SourceWorkloadName,
      apply_ite ktmpl.Output.SourceWorkloadNamespace, apply_ite ktmpl.Output.SourceOwner,
      apply_ite ktmpl.Output.DestinationContainerName, ite_self, h5, h6, h7, h8, h9]

/-- The destination attributes that `fillSourceAttrs` leaves alone. -/
theorem fillSourceAttrs_rest (N : Net) (h : handler) (p : v1.Pod)
    (o o1 : ktmpl.Output) (params : config.Params)
    (hr : (h.fillSourceAttrs N p o params).outcome = Outcome.ret o1) :
    o1.DestinationWorkloadUid = o.DestinationWorkloadUid ∧
    o1.DestinationWorkloadName = o.DestinationWorkloadName ∧
    o1.DestinationWorkloadNamespace = o.DestinationWorkloadNamespace ∧
    o1.DestinationOwner = o.DestinationOwner ∧
    o1.DestinationContainerName = o.DestinationContainerName := by
  obtain ⟨o', he, h1, h2, h3, h4, h5, _⟩ := fillSourceAttrs_shape N h p o params
  rw [he] at hr
  obtain ⟨a, b, c, d, rfl⟩ := fillSourceWorkload_frame _ _ _ _ _ hr
  exact ⟨h1, h2, h3, h4, h5⟩

/-- On a handler without nil controllers a request is always answered. -/
theorem GenerateKubernetesAttributes_returns (N : Net) (key : Str → Str → Str) (h : handler)
    (inst : ktmpl.Instance) (hl : ∀ c ∈ h.k8sCache, c ≠ none) :
    ∃ out, (h.GenerateKubernetesAttributes N key inst).outcome = Outcome.ret (out, none) := by
  obtain ⟨o1, h1⟩ := generateDestination_returns N key h hl inst ktmpl.NewOutput
  obtain ⟨o2, h2⟩ := generateSource_returns N key h hl inst o1
  refine ⟨o2, ?_⟩
  simp only [handler.GenerateKubernetesAttributes, Exec.bind_eq, Exec.pure_eq]
  rw [Exec.bind_of_ret _ _ o1 h1]
  simp only []
  rw [Exec.bind_of_ret _ _ o2 h2]
  rfl

/-- The destination half leaves the source workload attributes alone. -/
theorem generateDestination_rest (N : Net) (key : Str → Str → Str) (h : handler)
    (inst : ktmpl.Instance) (o o1 : ktmpl.Output)
    (hr : (h.generateDestination N key inst o).outcome = Outcome.ret o1) :
    o1.SourceWorkloadUid = o.SourceWorkloadUid ∧
    o1.SourceWorkloadName = o.SourceWorkloadName ∧
    o1.SourceWorkloadNamespace = o.SourceWorkloadNamespace ∧
    o1.SourceOwner = o.SourceOwner := by
  have key_step : ∀ (x : Exec (Option v1.Pod)),
      (Exec.bind x (fun r => match r with
        | some p => h.fillDestinationAttrs N p inst.DestinationPort o h.params
        | none => Exec.pure o)).outcome = Outcome.ret o1 →
      o1.SourceWorkloadUid = o.SourceWorkloadUid ∧
      o1.SourceWorkloadName = o.SourceWorkloadName ∧
      o1.SourceWorkloadNamespace = o.SourceWorkloadNamespace ∧
      o1.SourceOwner = o.SourceOwner := by
    intro x hx
    obtain ⟨r, _, h2⟩ := Exec.bind_ret_inv _ _ _ hx
    cases r with
    | none =>
      cases h2
      exact ⟨rfl, rfl, rfl, rfl⟩
    | some p =>
      obtain ⟨a, b, c, d, _⟩ := fillDestinationAttrs_rest N h p _ o o1 _ h2
      exact ⟨a, b, c, d⟩
  unfold handler.generateDestination at hr
  split_ifs at hr
  · exact key_step _ hr
  · exact key_step _ hr
  · cases hr
    exact ⟨rfl, rfl, rfl, rfl⟩

/-- The source half leaves the destination workload attributes and the
destination container name alone. -/
theorem generateSource_rest (N : Net) (key : Str → Str → Str) (h : handler)
    (inst : ktmpl.Instance) (o o1 : ktmpl.Output)
    (hr : (h.generateSource N key inst o).outcome = Outcome.ret o1) :
    o1.DestinationWorkloadUid = o.DestinationWorkloadUid ∧
    o1.DestinationWorkloadName = o.DestinationWorkloadName ∧
    o1.DestinationWorkloadNamespace = o.DestinationWorkloadNamespace ∧
    o1.DestinationOwner = o.DestinationOwner ∧
    o1.DestinationContainerName = o.DestinationContainerName := by
  have key_step : ∀ (x : Exec (Option v1.Pod)),
      (Exec.bind x (fun r => match r with
        | some p => h.fillSourceAttrs N p o h.params
        | none => Exec.pure o)).outcome = Outcome.ret o1 →
      o1.DestinationWorkloadUid = o.DestinationWorkloadUid ∧
      o1.DestinationWorkloadName = o.DestinationWorkloadName ∧
      o1.DestinationWorkloadNamespace = o.DestinationWorkloadNamespace ∧
      o1.DestinationOwner = o.DestinationOwner ∧
      o1.DestinationContainerName = o.DestinationContainerName := by
    intro x hx
    obtain ⟨r, _, h2⟩ := Exec.bind_ret_inv _ _ _ hx
    cases r with
    | none =>
      cases h2
      exact ⟨rfl, rfl, rfl, rfl, rfl⟩
    | some p => exact fillSourceAttrs_rest N h p o o1 _ h2
  unfold handler.generateSource at hr
  split_ifs at hr
  · exact key_step _ hr
  · exact key_step _ hr
  · cases hr
    exact ⟨rfl, rfl, rfl, rfl, rfl⟩

/-- When the destination lookup hits no pod, the destination half leaves the
output as it is. -/
theorem generateDestination_miss (N : Net) (key : Str → Str → Str) (h : handler)
    (inst : ktmpl.Instance) (o o1 : ktmpl.Output)
    (hr : (h.generateDestination N key inst o).outcome = Outcome.ret o1)
    (hmiss : ∀ p, ¬ ((inst.DestinationUid ≠ [] ∧
              (h.findPod N key inst.DestinationUid).outcome = Outcome.ret (some p)) ∨
           (inst.DestinationUid = [] ∧ inst.DestinationIp ≠ none ∧
              N.IsUnspecified inst.DestinationIp = false ∧
              (h.findPod N key (N.IPString inst.DestinationIp)).outcome =
                Outcome.ret (some p)))) :
    o1 = o := by
  unfold handler.generateDestination at hr
  split_ifs at hr with hu hi
  · obtain ⟨r, h1, h2⟩ := Exec.bind_ret_inv _ _ _ hr
    cases r with
    | none =>
      cases h2
      rfl
    | some p => exact absurd (Or.inl ⟨hu, h1⟩) (hmiss p)
  · obtain ⟨r, h1, h2⟩ := Exec.bind_ret_inv _ _ _ hr
    cases r with
    | none =>
      cases h2
      rfl
    | some p =>
      have hu' : inst.DestinationUid = [] := not_not.1 hu
      exact absurd (Or.inr ⟨hu', Option.isSome_iff_ne_none.1 hi.1, hi.2, h1⟩) (hmiss p)
  · cases hr
    rfl

/-- C11: for a found pod the workload attributes come from the first
controller of the handler's cache list whose `Workload(pod)` reports found,
whichever controller held the pod.  Both fill functions call `Workload` on the
controllers up to that one and on no later entry, and set workload UID, name
and namespace from its answer, the owner only when `selfLinkURL` is non-empty.
In the output of `GenerateKubernetesAttributes` these are the workload
attributes of the side whose lookup hit the pod; when no controller of the
list resolves a workload, none of the four attributes is set. -/
theorem workload_attributes (N : Net) (key : Str → Str → Str) (h : handler)
    (inst : ktmpl.Instance) :
    (∀ (p : v1.Pod) (port : Int) (o : ktmpl.Output) (params : config.Params)
        (pre : List cacheController) (c : cacheController)
        (post : List (Option cacheController)) (wl : workload),
      h.k8sCache = pre.map some ++ some c :: post →
      (∀ d ∈ pre, d.Workload p = none) → c.Workload p = some wl →
      ∃ o1, h.fillDestinationAttrs N p port o params =
          ⟨(List.range (pre.length + 1)).map (fun j => Call.Workload j p), Outcome.ret o1⟩ ∧
        o1.DestinationWorkloadUid = some wl.uid ∧
        o1.DestinationWorkloadName = some wl.name ∧
        o1.DestinationWorkloadNamespace = some wl.namespace_ ∧
        o1.DestinationOwner =
          if wl.selfLinkURL ≠ [] then some wl.selfLinkURL else o.DestinationOwner) ∧
    (∀ (p : v1.Pod) (o : ktmpl.Output) (params : config.Params)
        (pre : List cacheController) (c : cacheController)
        (post : List (Option cacheController)) (wl : workload),
      h.k8sCache = pre.map some ++ some c :: post →
      (∀ d ∈ pre, d.Workload p = none) → c.Workload p = some wl →
      ∃ o1, h.fillSourceAttrs N p o params =
          ⟨(List.range (pre.length + 1)).map (fun j => Call.Workload j p), Outcome.ret o1⟩ ∧
        o1.SourceWorkloadUid = some wl.uid ∧
        o1.SourceWorkloadName = some wl.name ∧
        o1.SourceWorkloadNamespace = some wl.namespace_ ∧
        o1.SourceOwner =
          if wl.selfLinkURL ≠ [] then some wl.selfLinkURL else o.SourceOwner) ∧
    (∀ out err, (h.GenerateKubernetesAttributes N key inst).outcome = Outcome.ret (out, err) →
      (∀ p,
        ((inst.DestinationUid ≠ [] ∧
              (h.findPod N key inst.DestinationUid).outcome = Outcome.ret (some p)) ∨
           (inst.DestinationUid = [] ∧ inst.DestinationIp ≠ none ∧
              N.IsUnspecified inst.DestinationIp = false ∧
              (h.findPod N key (N.IPString inst.DestinationIp)).outcome =
                Outcome.ret (some p))) →
        (∀ (pre : List cacheController) (c : cacheController)
            (post : List (Option cacheController)) (wl : workload),
          h.k8sCache = pre.map some ++ some c :: post →
          (∀ d ∈ pre, d.Workload p = none) → c.Workload p = some wl →
          out.DestinationWorkloadUid = some wl.uid ∧
          out.DestinationWorkloadName = some wl.name ∧
          out.DestinationWorkloadNamespace = some wl.namespace_ ∧
          out.DestinationOwner = if wl.selfLinkURL ≠ [] then some wl.selfLinkURL else none) ∧
        (∀ cs : List cacheController, h.k8sCache = cs.map some →
          (∀ d ∈ cs, d.Workload p = none) →
          out.DestinationWorkloadUid = none ∧ out.DestinationWorkloadName = none ∧
          out.DestinationWorkloadNamespace = none ∧ out.DestinationOwner = none)) ∧
      (∀ p,
        ((inst.SourceUid ≠ [] ∧
              (h.findPod N key inst.SourceUid).outcome = Outcome.ret (some p)) ∨
           (inst.SourceUid = [] ∧ inst.SourceIp ≠ none ∧
              N.IsUnspecified inst.SourceIp = false ∧
              (h.findPod N key (N.IPString inst.SourceIp)).outcome =
                Outcome.ret (some p))) →
        (∀ (pre : List cacheController) (c : cacheController)
            (post : List (Option cacheController)) (wl : workload),
          h.k8sCache = pre.map some ++ some c :: post →
          (∀ d ∈ pre, d.Workload p = none) → c.Workload p = some wl →
          out.SourceWorkloadUid = some wl.uid ∧
          out.SourceWorkloadName = some wl.name ∧
          out.SourceWorkloadNamespace = some wl.namespace_ ∧
          out.SourceOwner = if wl.selfLinkURL ≠ [] then some wl.selfLinkURL else none) ∧
        (∀ cs : List cacheController, h.k8sCache = cs.map some →
          (∀ d ∈ cs, d.Workload p = none) →
          out.SourceWorkloadUid = none ∧ out.SourceWorkloadName = none ∧
          out.SourceWorkloadNamespace = none ∧ out.SourceOwner = none))) := by
  refine ⟨fun p port o params pre c post wl hk hpre hc =>
      fillDestinationAttrs_workload_hit N h p port o params pre c post wl hk hpre hc,
    fun p o params pre c post wl hk hpre hc =>
      fillSourceAttrs_workload_hit N h p o params pre c post wl hk hpre hc, ?_⟩
  intro out err hr
  obtain ⟨o1, h1, h2, _⟩ := GenerateKubernetesAttributes_halves N key h inst out err hr
  obtain ⟨g1, g2, g3, g4, _⟩ := generateSource_rest N key h inst o1 out h2
  obtain ⟨e1, e2, e3, e4⟩ := generateDestination_rest N key h inst _ o1 h1
  constructor
  · intro p hit
    have hf := generateDestination_hit N key h inst _ o1 p h1 hit
    constructor
    · intro pre c post wl hk hpre hc
      obtain ⟨o2, hq, f1, f2, f3, f4⟩ :=
        fillDestinationAttrs_workload_hit N h p inst.DestinationPort ktmpl.NewOutput h.params
          pre c post wl hk hpre hc
      rw [hq] at hf
      cases hf
      rw [g1, g2, g3, g4, f1, f2, f3, f4]
      exact ⟨rfl, rfl, rfl, rfl⟩
    · intro cs hk hcs
      obtain ⟨o2, hq, f1, f2, f3, f4⟩ :=
        fillDestinationAttrs_workload_miss N h p inst.DestinationPort ktmpl.NewOutput h.params
          cs hk hcs
      rw [hq] at hf
      cases hf
      rw [g1, g2, g3, g4, f1, f2, f3, f4]
      exact ⟨rfl, rfl, rfl, rfl⟩
  · intro p hit
    have hf := generateSource_hit N key h inst o1 out p h2 hit
    constructor
    · intro pre c post wl hk hpre hc
      obtain ⟨o2, hq, f1, f2, f3, f4⟩ :=
        fillSourceAttrs_workload_hit N h p o1 h.params pre c post wl hk hpre hc
      rw [hq] at hf
      cases hf
      rw [f1, f2, f3, f4, e4]
      exact ⟨rfl, rfl, rfl, rfl⟩
    · intro cs hk hcs
      obtain ⟨o2, hq, f1, f2, f3, f4⟩ :=
        fillSourceAttrs_workload_miss N h p o1 h.params cs hk hcs
      rw [hq] at hf
      cases hf
      rw [f1, f2, f3, f4, e1, e2, e3, e4]
      exact ⟨rfl, rfl, rfl, rfl⟩

/-- Witness of C11: in `owningHandler` the first controller holds the pod and
the second one resolves its workload, so `Workload` is called on entries 0 and
1 and not on the nil entry 2, and both sides of the output carry the workload;
in `sampleHandler` no controller resolves a workload and no workload
attribute of the destination is set. -/
theorem workload_attributes_witness :
    (∃ o1, owningHandler.fillDestinationAttrs goNet samplePod 8080 ktmpl.NewOutput sampleParams =
        ⟨[Call.Workload 0 samplePod, Call.Workload 1 samplePod], Outcome.ret o1⟩ ∧
      o1.DestinationWorkloadUid = some sampleWorkload.uid) ∧
    (∃ out, (owningHandler.GenerateKubernetesAttributes goNet key sampleInstance).outcome =
        Outcome.ret (out, none) ∧
      out.DestinationWorkloadName = some "web".toList ∧
      out.DestinationOwner = some sampleWorkload.selfLinkURL ∧
      out.SourceWorkloadNamespace = some "default".toList) ∧
    (∃ out, (sampleHandler.GenerateKubernetesAttributes goNet key sampleInstance).outcome =
        Outcome.ret (out, none) ∧
      out.DestinationWorkloadUid = none ∧ out.DestinationOwner = none) := by
  have hpre : ∀ d ∈ [sampleController], d.Workload samplePod = none := by
    intro d hd
    simp only [List.mem_singleton] at hd
    subst hd
    rfl
  have hmiss : ∀ d ∈ [emptyController, sampleController], d.Workload samplePod = none := by
    intro d hd
    simp only [List.mem_cons, List.mem_singleton, List.not_mem_nil, or_false] at hd
    rcases hd with rfl | rfl <;> rfl
  refine ⟨?_, ?_, ?_⟩
  · obtain ⟨o1, h1, h2, _⟩ :=
      (workload_attributes goNet key owningHandler sampleInstance).1 samplePod 8080
        ktmpl.NewOutput sampleParams [sampleController] owningController [none] sampleWorkload
        rfl hpre (by decide)
    exact ⟨o1, h1, h2⟩
  · have hout : ∃ out, (owningHandler.GenerateKubernetesAttributes goNet key
        sampleInstance).outcome = Outcome.ret (out, none) := ⟨_, rfl⟩
    obtain ⟨out, hout⟩ := hout
    have hw := (workload_attributes goNet key owningHandler sampleInstance).2.2 out none hout
    have hd := (hw.1 samplePod (Or.inl ⟨by decide, by decide⟩)).1
      [sampleController] owningController [none] sampleWorkload rfl hpre (by decide)
    have hs := (hw.2 samplePod (Or.inl ⟨by decide, by decide⟩)).1
      [sampleController] owningController [none] sampleWorkload rfl hpre (by decide)
    exact ⟨out, hout, hd.2.1, hd.2.2.2.trans (by decide), hs.2.2.1⟩
  · obtain ⟨out, hout⟩ :=
      GenerateKubernetesAttributes_returns goNet key sampleHandler sampleInstance
        sampleHandler_no_nil
    have hw := (workload_attributes goNet key sampleHandler sampleInstance).2.2 out none hout
    have hd := (hw.1 samplePod (Or.inl ⟨by decide, by decide⟩)).2
      [emptyController, sampleController] rfl hmiss
    exact ⟨out, hout, hd.1, hd.2.2.2⟩

/-! ## The destination container name -/

/-- The destination half of a request does not read the source fields. -/
theorem generateDestination_source_fields (N : Net) (key : Str → Str → Str) (h : handler)
    (inst : ktmpl.Instance) (suid : Str) (sip : IP) (o : ktmpl.Output) :
    h.generateDestination N key { inst with SourceUid := suid, SourceIp := sip } o =
      h.generateDestination N key inst o := rfl

/-- C12: the destination container name of the output is set from the
destination side only.  It is `findContainer(pod, DestinationPort)` when the
destination lookup hit `pod` and that name is non-empty, and unset otherwise;
`fillSourceAttrs` leaves it as it is, and two requests that differ only in
source UID and source IP give outputs with the same destination container
name. -/
theorem destination_container_name (N : Net) (key : Str → Str → Str) (h : handler)
    (inst : ktmpl.Instance) :
    (∀ out err, (h.GenerateKubernetesAttributes N key inst).outcome = Outcome.ret (out, err) →
      (∀ p,
        ((inst.DestinationUid ≠ [] ∧
              (h.findPod N key inst.DestinationUid).outcome = Outcome.ret (some p)) ∨
           (inst.DestinationUid = [] ∧ inst.DestinationIp ≠ none ∧
              N.IsUnspecified inst.DestinationIp = false ∧
              (h.findPod N key (N.IPString inst.DestinationIp)).outcome =
                Outcome.ret (some p))) →
        out.DestinationContainerName =
          if findContainer p inst.DestinationPort ≠ [] then
            some (findContainer p inst.DestinationPort)
          else none) ∧
      ((∀ p,
        ¬ ((inst.DestinationUid ≠ [] ∧
              (h.findPod N key inst.DestinationUid).outcome = Outcome.ret (some p)) ∨
           (inst.DestinationUid = [] ∧ inst.DestinationIp ≠ none ∧
              N.IsUnspecified inst.DestinationIp = false ∧
              (h.findPod N key (N.IPString inst.DestinationIp)).outcome =
                Outcome.ret (some p)))) →
        out.DestinationContainerName = none)) ∧
    (∀ (p : v1.Pod) (o o1 : ktmpl.Output) (params : config.Params),
      (h.fillSourceAttrs N p o params).outcome = Outcome.ret o1 →
      o1.DestinationContainerName = o.DestinationContainerName) ∧
    (∀ (suid : Str) (sip : IP) out err out' err',
      (h.GenerateKubernetesAttributes N key inst).outcome = Outcome.ret (out, err) →
      (h.GenerateKubernetesAttributes N key
          { inst with SourceUid := suid, SourceIp := sip }).outcome =
        Outcome.ret (out', err') →
      out'.DestinationContainerName = out.DestinationContainerName) := by
  refine ⟨fun out err hr => ?_, fun p o o1 params hr =>
    (fillSourceAttrs_rest N h p o o1 params hr).2.2.2.2, ?_⟩
  · obtain ⟨o1, h1, h2, _⟩ := GenerateKubernetesAttributes_halves N key h inst out err hr
    have hs := (generateSource_rest N key h inst o1 out h2).2.2.2.2
    constructor
    · intro p hit
      have hf := generateDestination_hit N key h inst _ o1 p h1 hit
      rw [hs, (fillDestinationAttrs_rest N h p _ _ o1 _ hf).2.2.2.2]
      rfl
    · intro hmiss
      rw [hs, generateDestination_miss N key h inst _ o1 h1 hmiss]
      rfl
  · intro suid sip out err out' err' hr hr'
    obtain ⟨o1, h1, h2, _⟩ := GenerateKubernetesAttributes_halves N key h inst out err hr
    obtain ⟨o1', h1', h2', _⟩ := GenerateKubernetesAttributes_halves N key h _ out' err' hr'
    rw [generateDestination_source_fields, h1] at h1'
    cases h1'
    rw [(generateSource_rest N key h inst o1 out h2).2.2.2.2,
      (generateSource_rest N key h _ o1 out' h2').2.2.2.2]

/-- Witness of C12: the sample request asks for port 8080 of the sample pod,
whose container `web` declares it; the same request with another source, and
with port 9090, which no container declares. -/
theorem destination_container_name_witness :
    (∃ out, (sampleHandler.GenerateKubernetesAttributes goNet key sampleInstance).outcome =
        Outcome.ret (out, none) ∧
      out.DestinationContainerName = some "web".toList ∧
      ∀ out' err', (sampleHandler.GenerateKubernetesAttributes goNet key
          { sampleInstance with SourceUid := [], SourceIp := some [10, 0, 0, 1] }).outcome =
          Outcome.ret (out', err') →
        out'.DestinationContainerName = out.DestinationContainerName) ∧
    (∃ out, (sampleHandler.GenerateKubernetesAttributes goNet key
          { sampleInstance with DestinationPort := 9090 }).outcome = Outcome.ret (out, none) ∧
      out.DestinationContainerName = none) := by
  constructor
  · obtain ⟨out, hout⟩ :=
      GenerateKubernetesAttributes_returns goNet key sampleHandler sampleInstance
        sampleHandler_no_nil
    have hc := ((destination_container_name goNet key sampleHandler sampleInstance).1 out none
      hout).1 samplePod (Or.inl ⟨by decide, by decide⟩)
    exact ⟨out, hout, hc.trans (by decide), fun out' err' h' =>
      (destination_container_name goNet key sampleHandler sampleInstance).2.2 []
        (some [10, 0, 0, 1]) out none out' err' hout h'⟩
  · obtain ⟨out, hout⟩ :=
      GenerateKubernetesAttributes_returns goNet key sampleHandler
        { sampleInstance with DestinationPort := 9090 } sampleHandler_no_nil
    have hc := ((destination_container_name goNet key sampleHandler
      { sampleInstance with DestinationPort := 9090 }).1 out none hout).1 samplePod
      (Or.inl ⟨by decide, by decide⟩)
    exact ⟨out, hout, hc.trans (by decide)⟩

/-! ## The registry -/

theorem Registry.lookup_store_self (m : Registry) (k : Str) (v : Option cacheController) :
    Registry.lookup (Registry.store m k v) k = some v := by
  induction m with
  | nil => simp [Registry.store, Registry.lookup]
  | cons e m ih =>
    obtain ⟨k', v'⟩ := e
    by_cases h : k' = k
    · simp [Registry.store, Registry.lookup, h]
    · simp [Registry.store, Registry.lookup, h, ih]

theorem Registry.lookup_store_ne (m : Registry) (k k' : Str) (v : Option cacheController)
    (hne : k ≠ k') : Registry.lookup (Registry.store m k v) k' = Registry.lookup m k' := by
  induction m with
  | nil => simp [Registry.store, Registry.lookup, hne]
  | cons e m ih =>
    obtain ⟨k0, v0⟩ := e
    by_cases h : k0 = k
    · subst h
      simp [Registry.store, Registry.lookup, hne]
    · by_cases h' : k0 = k'
      · subst h'
        simp [Registry.store, Registry.lookup, h]
      · simp [Registry.store, Registry.lookup, h, h', ih]

theorem Registry.lookup_store_isSome (m : Registry) (k k' : Str) (v : Option cacheController)
    (h : (Registry.lookup m k').isSome = true) :
    (Registry.lookup (Registry.store m k v) k').isSome = true := by
  by_cases hk : k = k'
  · subst hk
    simp [Registry.lookup_store_self]
  · rw [Registry.lookup_store_ne m k k' v hk]
    exact h

theorem Registry.store_of_lookup_none (m : Registry) (k : Str) (v : Option cacheController)
    (h : Registry.lookup m k = none) : Registry.store m k v = m ++ [(k, v)] := by
  induction m with
  | nil => rfl
  | cons e m ih =>
    obtain ⟨k', v'⟩ := e
    by_cases hk : k' = k
    · simp [Registry.lookup, hk] at h
    · simp only [Registry.lookup, hk, if_false] at h
      simp [Registry.store, hk, ih h]

theorem Registry.range_perm (seed : Nat) (m : Registry) :
    List.Perm (Registry.range seed m) m := by
  unfold Registry.range
  by_cases h : seed < (List.permutations' m).length
  · have hm : (List.permutations' m).getD seed m ∈ List.permutations' m := by
      rw [List.getD_eq_getElem _ _ h]
      exact List.getElem_mem h
    exact List.mem_permutations'.1 hm
  · rw [List.getD_eq_default _ _ (not_lt.1 h)]

/-! ## What the remote discovery leaves untouched -/

theorem remoteDataLoop_config (w : World) (entries : List (Str × Bytes)) (st : RemoteRun) :
    (remoteDataLoop w entries st).b.adapterConfig = st.b.adapterConfig ∧
    (remoteDataLoop w entries st).b.newClientFn = st.b.newClientFn := by
  induction entries generalizing st with
  | nil => exact ⟨rfl, rfl⟩
  | cons e rest ih =>
    obtain ⟨dataKey, kubeconfig⟩ := e
    simp only [remoteDataLoop]
    cases w.getK8sInterface kubeconfig with
    | error err => exact ⟨rfl, rfl⟩
    | ok k => exact ih _

theorem remoteSecretLoop_config (w : World) (secrets : List v1.Secret) (st : RemoteRun) :
    (remoteSecretLoop w secrets st).b.adapterConfig = st.b.adapterConfig ∧
    (remoteSecretLoop w secrets st).b.newClientFn = st.b.newClientFn := by
  induction secrets generalizing st with
  | nil => exact ⟨rfl, rfl⟩
  | cons secret rest ih =>
    simp only [remoteSecretLoop]
    split
    · exact remoteDataLoop_config w secret.Data st
    · have h1 := ih (remoteDataLoop w secret.Data st)
      have h2 := remoteDataLoop_config w secret.Data st
      exact ⟨h1.1.trans h2.1, h1.2.trans h2.2⟩

theorem createRemoteCacheControllers_config (b : builder) (cs : k8s.Interface) (w : World) :
    (createRemoteCacheControllers b cs w).b.adapterConfig = b.adapterConfig ∧
    (createRemoteCacheControllers b cs w).b.newClientFn = b.newClientFn := by
  simp only [createRemoteCacheControllers]
  split
  · exact ⟨rfl, rfl⟩
  · exact remoteSecretLoop_config w _ _

theorem Build_config (b : builder) (w : World) :
    (b.Build w).b.adapterConfig = b.adapterConfig ∧
    (b.Build w).b.newClientFn = b.newClientFn := by
  simp only [builder.Build]
  split
  · split
    · exact ⟨rfl, rfl⟩
    · split
      · exact ⟨rfl, rfl⟩
      · split
        · exact createRemoteCacheControllers_config _ _ w
        · exact createRemoteCacheControllers_config _ _ w
  · exact ⟨rfl, rfl⟩

theorem Build_kubeconfigPath (b : builder) (w w' : World) :
    (b.Build w).b.kubeconfigPath w' = b.kubeconfigPath w' := by
  simp only [builder.kubeconfigPath, (Build_config b w).1]

/-- The branch of `Build` for a registered path. -/
theorem Build_found (b : builder) (w : World)
    (h : (Registry.lookup b.controllers (b.kubeconfigPath w)).isSome = true) :
    b.Build w =
      { events := [], b := b,
        handler := some { k8sCache := (Registry.range w.rangeSeed b.controllers).map Prod.snd,
                          params := b.adapterConfig },
        err := none } := by
  obtain ⟨c, hc⟩ := Option.isSome_iff_exists.1 h
  simp only [builder.Build, hc]

theorem BuildAll_registered (b : builder) (path : Str) (ws : List World)
    (h : (Registry.lookup b.controllers path).isSome = true)
    (hws : ∀ w ∈ ws, b.kubeconfigPath w = path) :
    ∀ r ∈ b.BuildAll ws, r.events = [] ∧ r.b = b := by
  induction ws with
  | nil => intro r hr; cases hr
  | cons w ws ih =>
    have hw : b.kubeconfigPath w = path := hws w (List.mem_cons_self _ _)
    have hb : b.Build w = _ := Build_found b w (by rw [hw]; exact h)
    intro r hr
    simp only [builder.BuildAll, List.mem_cons] at hr
    rcases hr with rfl | hr
    · rw [hb]
      exact ⟨rfl, rfl⟩
    · rw [hb] at hr
      exact ih (fun w' hw' => hws w' (List.mem_cons_of_mem _ hw')) r hr

/-! ## Build on a registered path -/

theorem BuildAll_count (path : Str) (ws : List World) (b : builder)
    (hws : ∀ w ∈ ws, b.kubeconfigPath w = path) :
    (b.BuildAll ws).countP
        (fun r => decide (Event.NewClient path ∈ r.events) &&
          (Registry.lookup r.b.controllers path).isSome) ≤ 1 := by
  induction ws generalizing b with
  | nil => simp [builder.BuildAll]
  | cons w ws ih =>
    have hrest : ∀ w' ∈ ws, (b.Build w).b.kubeconfigPath w' = path := fun w' hw' => by
      rw [Build_kubeconfigPath]
      exact hws w' (List.mem_cons_of_mem _ hw')
    simp only [builder.BuildAll, List.countP_cons]
    by_cases hreg : (Registry.lookup (b.Build w).b.controllers path).isSome = true
    · have hz : (((b.Build w).b).BuildAll ws).countP
          (fun r => decide (Event.NewClient path ∈ r.events) &&
            (Registry.lookup r.b.controllers path).isSome) = 0 := by
        rw [List.countP_eq_zero]
        intro r hr
        have := (BuildAll_registered (b.Build w).b path ws hreg hrest r hr).1
        simp [this]
      rw [hz]
      split_ifs <;> simp
    · have hn : (decide (Event.NewClient path ∈ (b.Build w).events) &&
          (Registry.lookup (b.Build w).b.controllers path).isSome) = false := by
        simp only [Bool.not_eq_true] at hreg
        simp [hreg]
      simp only [hn, Bool.false_eq_true, if_false, add_zero]
      exact ih (b.Build w).b hrest

theorem BuildAll_after_registration (path : Str) (ws : List World) (b : builder)
    (hws : ∀ w ∈ ws, b.kubeconfigPath w = path)
    (pre : List BuildRun) (r : BuildRun) (post : List BuildRun)
    (hsplit : b.BuildAll ws = pre ++ r :: post)
    (hreg : (Registry.lookup r.b.controllers path).isSome = true) :
    ∀ r' ∈ post, r'.events = [] := by
  induction ws generalizing b pre with
  | nil =>
    simp only [builder.BuildAll] at hsplit
    exact absurd hsplit (by simp)
  | cons w ws ih =>
    have hrest : ∀ w' ∈ ws, (b.Build w).b.kubeconfigPath w' = path := fun w' hw' => by
      rw [Build_kubeconfigPath]
      exact hws w' (List.mem_cons_of_mem _ hw')
    simp only [builder.BuildAll] at hsplit
    cases pre with
    | nil =>
      simp only [List.nil_append, List.cons.injEq] at hsplit
      obtain ⟨h1, h2⟩ := hsplit
      subst h1
      intro r' hr'
      rw [← h2] at hr'
      exact (BuildAll_registered _ path ws hreg hrest r' hr').1
    | cons x pre' =>
      simp only [List.cons_append, List.cons.injEq] at hsplit
      exact ih (b.Build w).b hrest pre' hsplit.2

/-- C13: when the registry already holds an entry for the resolved credential
path, `Build` makes no call at all (no client factory call, no cache controller
construction, no secret listing), leaves the builder with its registry as it
was, and returns a handler.  In a sequence of `Build` calls that all resolve to
one path, at most one call both invokes the client factory for that path and
ends with the path registered, and after a call that left the path registered
no later call invokes anything. -/
theorem Build_registered_path (b : builder) :
    (∀ w, (Registry.lookup b.controllers (b.kubeconfigPath w)).isSome = true →
      (b.Build w).events = [] ∧ (b.Build w).b = b ∧
      (b.Build w).b.controllers = b.controllers ∧ (b.Build w).err = none ∧
      (b.Build w).handler.isSome = true) ∧
    (∀ (ws : List World) (path : Str), (∀ w ∈ ws, b.kubeconfigPath w = path) →
      (b.BuildAll ws).countP
          (fun r => decide (Event.NewClient path ∈ r.events) &&
            (Registry.lookup r.b.controllers path).isSome) ≤ 1 ∧
      ∀ pre r post, b.BuildAll ws = pre ++ r :: post →
        (Registry.lookup r.b.controllers path).isSome = true →
        ∀ r' ∈ post, r'.events = []) := by
  constructor
  · intro w h
    rw [Build_found b w h]
    exact ⟨rfl, rfl, rfl, rfl, rfl⟩
  · intro ws path hws
    exact ⟨BuildAll_count path ws b hws,
      fun pre r post hs hreg => BuildAll_after_registration path ws b hws pre r post hs hreg⟩

/-- Witness of C13: after a first `Build` for `/hub` has registered the path, a
second one makes no call and keeps the registry; in three calls in a row the
client factory is invoked for `/hub` by the first call only. -/
theorem Build_registered_path_witness :
    ((((sampleBuilder "/hub".toList).Build sampleWorld).b).Build sampleWorld).events = [] ∧
    ((((sampleBuilder "/hub".toList).Build sampleWorld).b).Build sampleWorld).b.controllers =
      ((sampleBuilder "/hub".toList).Build sampleWorld).b.controllers ∧
    ((sampleBuilder "/hub".toList).BuildAll [sampleWorld, sampleWorld, sampleWorld]).countP
        (fun r => decide (Event.NewClient "/hub".toList ∈ r.events) &&
          (Registry.lookup r.b.controllers "/hub".toList).isSome) ≤ 1 ∧
    ((sampleBuilder "/hub".toList).BuildAll [sampleWorld, sampleWorld, sampleWorld]).map
        (fun r => r.events.length) = [9, 0, 0] := by
  have h1 := (Build_registered_path ((sampleBuilder "/hub".toList).Build sampleWorld).b).1
    sampleWorld (by decide)
  have h2 := ((Build_registered_path (sampleBuilder "/hub".toList)).2
    [sampleWorld, sampleWorld, sampleWorld] "/hub".toList
    (by
      intro w hw
      simp only [List.mem_cons, List.mem_singleton, List.not_mem_nil, or_false, or_self] at hw
      subst hw
      rfl)).1
  exact ⟨h1.1, h1.2.2.1, h2, by decide⟩

/-! ## Facts about the remote discovery -/

theorem labelSelector_eq :
    "istio/multiCluster".toList ++ "=true".toList = "istio/multiCluster=true".toList := by
  decide

theorem remoteDataLoop_lookup (w : World) (k : Str) (entries : List (Str × Bytes))
    (st : RemoteRun) (h : (Registry.lookup st.b.controllers k).isSome = true) :
    (Registry.lookup (remoteDataLoop w entries st).b.controllers k).isSome = true := by
  induction entries generalizing st with
  | nil => exact h
  | cons e rest ih =>
    obtain ⟨dataKey, kubeconfig⟩ := e
    simp only [remoteDataLoop]
    cases w.getK8sInterface kubeconfig with
    | error err => exact h
    | ok c => exact ih _ (Registry.lookup_store_isSome _ _ _ _ h)

theorem remoteSecretLoop_lookup (w : World) (k : Str) (secrets : List v1.Secret)
    (st : RemoteRun) (h : (Registry.lookup st.b.controllers k).isSome = true) :
    (Registry.lookup (remoteSecretLoop w secrets st).b.controllers k).isSome = true := by
  induction secrets generalizing st with
  | nil => exact h
  | cons secret rest ih =>
    simp only [remoteSecretLoop]
    split
    · exact remoteDataLoop_lookup w k secret.Data st h
    · exact ih _ (remoteDataLoop_lookup w k secret.Data st h)

theorem createRemoteCacheControllers_lookup (b : builder) (cs : k8s.Interface) (w : World)
    (k : Str) (h : (Registry.lookup b.controllers k).isSome = true) :
    (Registry.lookup (createRemoteCacheControllers b cs w).b.controllers k).isSome = true := by
  simp only [createRemoteCacheControllers]
  split
  · exact h
  · exact remoteSecretLoop_lookup w k _ _ h

theorem getNewCacheController_events (b : builder) (cs : k8s.Interface) (q : Str) :
    Event.NewClient q ∉ (getNewCacheController b cs).events := by
  simp only [getNewCacheController]
  split_ifs <;> simp

theorem remoteDataLoop_events (w : World) (q : Str) (entries : List (Str × Bytes))
    (st : RemoteRun) (h : Event.NewClient q ∉ st.events) :
    Event.NewClient q ∉ (remoteDataLoop w entries st).events := by
  induction entries generalizing st with
  | nil => exact h
  | cons e rest ih =>
    obtain ⟨dataKey, kubeconfig⟩ := e
    simp only [remoteDataLoop]
    cases w.getK8sInterface kubeconfig with
    | error err => simpa using h
    | ok c =>
      apply ih
      have := getNewCacheController_events st.b c q
      simp [h, this]

theorem remoteSecretLoop_events (w : World) (q : Str) (secrets : List v1.Secret)
    (st : RemoteRun) (h : Event.NewClient q ∉ st.events) :
    Event.NewClient q ∉ (remoteSecretLoop w secrets st).events := by
  induction secrets generalizing st with
  | nil => exact h
  | cons secret rest ih =>
    simp only [remoteSecretLoop]
    split
    · exact remoteDataLoop_events w q secret.Data st h
    · exact ih _ (remoteDataLoop_events w q secret.Data st h)

theorem createRemoteCacheControllers_events (b : builder) (cs : k8s.Interface) (w : World)
    (q : Str) : Event.NewClient q ∉ (createRemoteCacheControllers b cs w).events := by
  simp only [createRemoteCacheControllers]
  split
  · simp
  · exact remoteSecretLoop_events w q _ _ (by simp)

theorem remoteDataLoop_failing_entry (w : World) (entries : List (Str × Bytes))
    (hf : ∃ entry ∈ entries, ∃ e, w.getK8sInterface entry.2 = Except.error e)
    (st : RemoteRun) : (remoteDataLoop w entries st).err.isSome = true := by
  induction entries generalizing st with
  | nil =>
    obtain ⟨entry, he, _⟩ := hf
    cases he
  | cons x rest ih =>
    obtain ⟨dataKey, kubeconfig⟩ := x
    simp only [remoteDataLoop]
    cases hg : w.getK8sInterface kubeconfig with
    | error err => rfl
    | ok c =>
      apply ih
      obtain ⟨entry, he, e, hee⟩ := hf
      rcases List.mem_cons.1 he with h1 | h1
      · subst h1
        rw [hg] at hee
        cases hee
      · exact ⟨entry, h1, e, hee⟩

theorem remoteSecretLoop_failing_entry (w : World) (secrets : List v1.Secret)
    (hf : ∃ s ∈ secrets, ∃ entry ∈ s.Data, ∃ e, w.getK8sInterface entry.2 = Except.error e)
    (st : RemoteRun) : (remoteSecretLoop w secrets st).err.isSome = true := by
  induction secrets generalizing st with
  | nil =>
    obtain ⟨s, hs, _⟩ := hf
    cases hs
  | cons secret rest ih =>
    simp only [remoteSecretLoop]
    split
    · next e he => simp [he]
    · next hnone =>
      apply ih
      obtain ⟨s, hs, hentry⟩ := hf
      rcases List.mem_cons.1 hs with h1 | h1
      · subst h1
        have := remoteDataLoop_failing_entry w s.Data hentry st
        rw [hnone] at this
        cases this
      · exact ⟨s, h1, hentry⟩

/-- The not-registered branch of `Build` when the client is built and its cache syncs. -/
theorem Build_new (b : builder) (w : World) (cs : k8s.Interface)
    (hnew : Registry.lookup b.controllers (b.kubeconfigPath w) = none)
    (hc : b.newClientFn (b.kubeconfigPath w) w = Except.ok cs)
    (hs : cs.WaitForCacheSync = true) :
    b.Build w =
      match (createRemoteCacheControllers
          { b with controllers := Registry.store b.controllers (b.kubeconfigPath w)
                     (some cs.NewCacheController) } cs w).err with
      | none =>
        { events := Event.NewClient (b.kubeconfigPath w) ::
            [Event.NewCacheController b.adapterConfig.CacheRefreshDuration,
             Event.ScheduleDaemon, Event.WaitForCacheSync true] ++
            (createRemoteCacheControllers
              { b with controllers := Registry.store b.controllers (b.kubeconfigPath w)
                         (some cs.NewCacheController) } cs w).events,
          b := (createRemoteCacheControllers
              { b with controllers := Registry.store b.controllers (b.kubeconfigPath w)
                         (some cs.NewCacheController) } cs w).b,
          handler := some
            { k8sCache := [some cs.NewCacheController] ++
                (createRemoteCacheControllers
                  { b with controllers := Registry.store b.controllers (b.kubeconfigPath w)
                             (some cs.NewCacheController) } cs w).remote_controllers,
              params := b.adapterConfig },
          err := none }
      | some err =>
        { events := Event.NewClient (b.kubeconfigPath w) ::
            [Event.NewCacheController b.adapterConfig.CacheRefreshDuration,
             Event.ScheduleDaemon, Event.WaitForCacheSync true] ++
            (createRemoteCacheControllers
              { b with controllers := Registry.store b.controllers (b.kubeconfigPath w)
                         (some cs.NewCacheController) } cs w).events,
          b := (createRemoteCacheControllers
              { b with controllers := Registry.store b.controllers (b.kubeconfigPath w)
                         (some cs.NewCacheController) } cs w).b,
          handler := none,
          err := some ("failure on creating remote controllers: ".toList ++ err) } := by
  simp only [builder.Build, hnew, hc, getNewCacheController, hs, Bool.true_eq_false, if_false]

/-! ## Build without remote clusters -/

/-- C18: when the resolved path is not registered, the client factory and the
local cache sync succeed and the secret listing returns no item, `Build`
succeeds, the handler's cache list is the local controller alone, and the
registry gains one entry, the path mapped to that controller. -/
theorem Build_no_secrets (b : builder) (w : World) (cs : k8s.Interface)
    (hnew : Registry.lookup b.controllers (b.kubeconfigPath w) = none)
    (hc : b.newClientFn (b.kubeconfigPath w) w = Except.ok cs)
    (hs : cs.WaitForCacheSync = true)
    (hl : cs.ListSecrets "istio-system".toList "istio/multiCluster=true".toList =
      Except.ok []) :
    (b.Build w).err = none ∧
    (b.Build w).handler =
      some { k8sCache := [some cs.NewCacheController], params := b.adapterConfig } ∧
    (b.Build w).b.controllers =
      b.controllers ++ [(b.kubeconfigPath w, some cs.NewCacheController)] := by
  have hr : ∀ b' : builder, createRemoteCacheControllers b' cs w =
      { events := [Event.ListSecrets "istio-system".toList "istio/multiCluster=true".toList],
        b := b', remote_controllers := [], err := none } := by
    intro b'
    simp only [createRemoteCacheControllers, labelSelector_eq, hl, remoteSecretLoop]
  rw [Build_new b w cs hnew hc hs, hr]
  exact ⟨rfl, rfl, Registry.store_of_lookup_none _ _ _ hnew⟩

/-- Witness of C18: a fresh builder configured with `/local`, whose cluster
lists no secret. -/
theorem Build_no_secrets_witness :
    ((sampleBuilder "/local".toList).Build sampleWorld).err = none ∧
    ((sampleBuilder "/local".toList).Build sampleWorld).handler =
      some { k8sCache := [some sampleController],
             params := { KubeconfigPath := "/local".toList, CacheRefreshDuration := 300 } } ∧
    ((sampleBuilder "/local".toList).Build sampleWorld).b.controllers =
      [("/local".toList, some sampleController)] :=
  Build_no_secrets (sampleBuilder "/local".toList) sampleWorld localCluster rfl rfl rfl rfl

/-! ## The credential path -/

/-- C19: the credential path of `Build` is the value of `KUBECONFIG` whenever
the variable is set and the configured `KubeconfigPath` only when it is not.
`Build` looks the registry up under this path, calls the client factory with
it and with no other path, and registers the local controller under it. -/
theorem Build_credential_path (b : builder) (w : World) (path : Str)
    (hpath : path = match w.KUBECONFIG with
                    | some v => v
                    | none => b.adapterConfig.KubeconfigPath) :
    ((Registry.lookup b.controllers path).isSome = true → (b.Build w).events = []) ∧
    (Registry.lookup b.controllers path = none →
      (b.Build w).events.head? = some (Event.NewClient path)) ∧
    (∀ q, Event.NewClient q ∈ (b.Build w).events → q = path) ∧
    (Registry.lookup b.controllers path = none →
      ∀ cs, b.newClientFn path w = Except.ok cs → cs.WaitForCacheSync = true →
        (Registry.lookup (b.Build w).b.controllers path).isSome = true) := by
  have hp : b.kubeconfigPath w = path := by
    rw [hpath]
    rfl
  refine ⟨fun h => ?_, fun h => ?_, fun q hq => ?_, fun h cs hc hs => ?_⟩
  · rw [Build_found b w (by rw [hp]; exact h)]
  · simp only [builder.Build, hp, h]
    split
    · rfl
    · split
      · rfl
      · split <;> rfl
  · simp only [builder.Build, hp] at hq
    split at hq
    · split at hq
      · simpa using hq
      · split at hq
        · simp only [List.mem_cons, Event.NewClient.injEq] at hq
          rcases hq with h1 | h1
          · exact h1
          · exact absurd h1 (getNewCacheController_events _ _ q)
        · have hne : Event.NewClient q ∉
              (createRemoteCacheControllers
                { b with controllers := Registry.store b.controllers path
                           (getNewCacheController b ‹k8s.Interface›).controller }
                ‹k8s.Interface› w).events :=
            createRemoteCacheControllers_events _ _ w q
          have hne' := getNewCacheController_events b ‹k8s.Interface› q
          split at hq
          · simp only [List.cons_append, List.mem_cons, Event.NewClient.injEq,
              List.mem_append] at hq
            rcases hq with h1 | h1 | h1
            · exact h1
            · exact absurd h1 hne'
            · exact absurd h1 hne
          · simp only [List.cons_append, List.mem_cons, Event.NewClient.injEq,
              List.mem_append] at hq
            rcases hq with h1 | h1 | h1
            · exact h1
            · exact absurd h1 hne'
            · exact absurd h1 hne
    · simp at hq
  · have hb := Build_new b w cs (by rw [hp]; exact h) (by rw [hp]; exact hc) hs
    have hreg : (Registry.lookup (createRemoteCacheControllers
        { b with controllers := Registry.store b.controllers (b.kubeconfigPath w)
                   (some cs.NewCacheController) } cs w).b.controllers path).isSome = true := by
      apply createRemoteCacheControllers_lookup
      rw [hp]
      simp [Registry.lookup_store_self]
    rw [hb]
    split <;> exact hreg

/-- Witness of C19: a builder configured with `/local` in a world whose
`KUBECONFIG` is `/hub` calls the client factory with `/hub` and registers
`/hub`; without `KUBECONFIG` it uses `/local`. -/
theorem Build_credential_path_witness :
    ((sampleBuilder "/local".toList).Build hubWorld).events.head? =
      some (Event.NewClient "/hub".toList) ∧
    (Registry.lookup ((sampleBuilder "/local".toList).Build hubWorld).b.controllers
      "/hub".toList).isSome = true ∧
    ((sampleBuilder "/local".toList).Build sampleWorld).events.head? =
      some (Event.NewClient "/local".toList) :=
  ⟨(Build_credential_path (sampleBuilder "/local".toList) hubWorld "/hub".toList rfl).2.1 rfl,
   (Build_credential_path (sampleBuilder "/local".toList) hubWorld "/hub".toList rfl).2.2.2 rfl
     hubCluster rfl rfl,
   (Build_credential_path (sampleBuilder "/local".toList) sampleWorld "/local".toList
     rfl).2.1 rfl⟩

/-! ## Failures of Build -/

/-- C20: on a path that is not registered, `Build` returns an error and no
handler when the client factory fails, when the local cache controller does
not sync, and whenever the remote discovery returns an error after the local
client was built and the local cache synced; the remote discovery returns an
error when the secret listing fails and when the kubeconfig of a data entry
cannot be turned into a client. -/
theorem Build_failures (b : builder) (w : World)
    (hnew : Registry.lookup b.controllers (b.kubeconfigPath w) = none) :
    (∀ e, b.newClientFn (b.kubeconfigPath w) w = Except.error e →
      (b.Build w).handler = none ∧
      (b.Build w).err = some ("could not build kubernetes client: ".toList ++ e)) ∧
    (∀ cs, b.newClientFn (b.kubeconfigPath w) w = Except.ok cs →
      cs.WaitForCacheSync = false →
      (b.Build w).handler = none ∧
      (b.Build w).err =
        some "could not create new cache controller: cache sync failure".toList) ∧
    (∀ cs e, b.newClientFn (b.kubeconfigPath w) w = Except.ok cs →
      cs.WaitForCacheSync = true →
      (createRemoteCacheControllers
        { b with controllers := Registry.store b.controllers (b.kubeconfigPath w)
                   (some cs.NewCacheController) } cs w).err = some e →
      (b.Build w).handler = none ∧
      (b.Build w).err = some ("failure on creating remote controllers: ".toList ++ e)) ∧
    (∀ cs e, b.newClientFn (b.kubeconfigPath w) w = Except.ok cs →
      cs.WaitForCacheSync = true →
      cs.ListSecrets "istio-system".toList "istio/multiCluster=true".toList =
        Except.error e →
      (b.Build w).handler = none ∧
      (b.Build w).err =
        some ("failure on creating remote controllers: ".toList ++
          ("could not access secrets for namespace: istio-system error: ".toList ++ e))) ∧
    (∀ cs secrets, b.newClientFn (b.kubeconfigPath w) w = Except.ok cs →
      cs.WaitForCacheSync = true →
      cs.ListSecrets "istio-system".toList "istio/multiCluster=true".toList =
        Except.ok secrets →
      (∃ s ∈ secrets, ∃ entry ∈ s.Data, ∃ e, w.getK8sInterface entry.2 = Except.error e) →
      (b.Build w).handler = none ∧ (b.Build w).err.isSome = true) := by
  refine ⟨fun e he => ?_, fun cs hc hs => ?_, fun cs e hc hs hr => ?_,
    fun cs e hc hs hl => ?_, fun cs secrets hc hs hl hf => ?_⟩
  · simp only [builder.Build, hnew, he]
    exact ⟨trivial, trivial⟩
  · simp only [builder.Build, hnew, hc, getNewCacheController, hs, if_true]
    exact ⟨trivial, by decide⟩
  · rw [Build_new b w cs hnew hc hs, hr]
    exact ⟨rfl, rfl⟩
  · have hr : (createRemoteCacheControllers
        { b with controllers := Registry.store b.controllers (b.kubeconfigPath w)
                   (some cs.NewCacheController) } cs w).err =
        some ("could not access secrets for namespace: istio-system error: ".toList ++ e) := by
      simp only [createRemoteCacheControllers, labelSelector_eq, hl]
      rfl
    rw [Build_new b w cs hnew hc hs, hr]
    exact ⟨rfl, rfl⟩
  · have hr : (createRemoteCacheControllers
        { b with controllers := Registry.store b.controllers (b.kubeconfigPath w)
                   (some cs.NewCacheController) } cs w).err.isSome = true := by
      simp only [createRemoteCacheControllers, labelSelector_eq, hl]
      exact remoteSecretLoop_failing_entry w secrets hf _
    obtain ⟨e, he⟩ := Option.isSome_iff_exists.1 hr
    rw [Build_new b w cs hnew hc hs, he]
    exact ⟨rfl, rfl⟩

/-- Witness of C20: the client factory knows no `/nowhere`; the cache of
`/unsynced` does not sync; the secrets of `/closed` cannot be listed, although
its client was built and its cache synced. -/
theorem Build_failures_witness :
    (((sampleBuilder "/nowhere".toList).Build sampleWorld).handler = none ∧
      ((sampleBuilder "/nowhere".toList).Build sampleWorld).err =
        some "could not build kubernetes client: no such file".toList) ∧
    (((sampleBuilder "/unsynced".toList).Build sampleWorld).handler = none ∧
      ((sampleBuilder "/unsynced".toList).Build sampleWorld).err =
        some "could not create new cache controller: cache sync failure".toList) ∧
    (((sampleBuilder "/closed".toList).Build sampleWorld).handler = none ∧
      ((sampleBuilder "/closed".toList).Build sampleWorld).err =
        some ("failure on creating remote controllers: could not access secrets for " ++
          "namespace: istio-system error: forbidden").toList) := by
  have h := Build_failures (sampleBuilder "/closed".toList) sampleWorld rfl
  refine ⟨?_, (Build_failures (sampleBuilder "/unsynced".toList) sampleWorld rfl).2.1
    unsyncedCluster rfl rfl, ?_⟩
  · have h1 := (Build_failures (sampleBuilder "/nowhere".toList) sampleWorld rfl).1
      "no such file".toList rfl
    exact ⟨h1.1, h1.2.trans (by decide)⟩
  · have h3 := h.2.2.2.1 closedCluster "forbidden".toList rfl rfl rfl
    exact ⟨h3.1, h3.2.trans (by decide)⟩

/-! ## Where Build departs from the registry discipline -/

theorem sampleController_ne_emptyController : sampleController ≠ emptyController := by
  intro h
  have := congrArg (fun c => (c.Pod "10.1.2.3".toList).isSome) h
  revert this
  decide

theorem sampleController_ne_owningController : sampleController ≠ owningController := by
  intro h
  have := congrArg (fun c => (c.Pod "10.1.2.3".toList).isSome) h
  revert this
  decide

/-- C14, on a failing input: a builder builds for `/local`, is then configured
with the path `/hub` and builds again.  Both calls succeed.  When the second
call returns, the registry holds the controller of `/local`, but the cache list
of the returned handler holds only the controller of `/hub` and the remote one
that `/hub` lists. -/
theorem Build_omits_earlier_registrations :
    ((sampleBuilder "/local".toList).Build sampleWorld).err = none ∧
    (((((sampleBuilder "/local".toList).Build sampleWorld).b).SetAdapterConfig
        { KubeconfigPath := "/hub".toList, CacheRefreshDuration := 300 }).Build
      sampleWorld).err = none ∧
    (((((sampleBuilder "/local".toList).Build sampleWorld).b).SetAdapterConfig
        { KubeconfigPath := "/hub".toList, CacheRefreshDuration := 300 }).Build
      sampleWorld).b.controllers =
      [("/local".toList, some sampleController), ("/hub".toList, some emptyController),
       ("remote".toList, some owningController)] ∧
    (((((sampleBuilder "/local".toList).Build sampleWorld).b).SetAdapterConfig
        { KubeconfigPath := "/hub".toList, CacheRefreshDuration := 300 }).Build
      sampleWorld).handler =
      some { k8sCache := [some emptyController, some owningController],
             params := { KubeconfigPath := "/hub".toList, CacheRefreshDuration := 300 } } ∧
    some sampleController ∉ [some emptyController, some owningController] := by
  refine ⟨rfl, rfl, rfl, rfl, ?_⟩
  simp only [List.mem_cons, Option.some.injEq, List.mem_singleton, List.not_mem_nil, or_false,
    not_or]
  exact ⟨sampleController_ne_emptyController, sampleController_ne_owningController⟩

/-- C17, on a failing input: `/twicehub` lists two secrets that both have the data
key `remote`.  `Build` constructs three cache controllers, one for the path and
one for each entry, although only two identities are involved; the controller
registered for the first `remote` entry is replaced in the registry by the one
constructed for the second, and both are in the handler. -/
theorem Build_rebuilds_registered_key :
    ((sampleBuilder "/twicehub".toList).Build sampleWorld).err = none ∧
    ((sampleBuilder "/twicehub".toList).Build sampleWorld).events.count
      (Event.NewCacheController 300) = 3 ∧
    ((sampleBuilder "/twicehub".toList).Build sampleWorld).events =
      [Event.NewClient "/twicehub".toList,
       Event.NewCacheController 300, Event.ScheduleDaemon, Event.WaitForCacheSync true,
       Event.ListSecrets "istio-system".toList "istio/multiCluster=true".toList,
       Event.GetK8sInterface [1],
       Event.NewCacheController 300, Event.ScheduleDaemon, Event.WaitForCacheSync true,
       Event.GetK8sInterface [3],
       Event.NewCacheController 300, Event.ScheduleDaemon, Event.WaitForCacheSync true] ∧
    ((sampleBuilder "/twicehub".toList).Build sampleWorld).b.controllers =
      [("/twicehub".toList, some sampleController), ("remote".toList, some emptyController)] ∧
    ((sampleBuilder "/twicehub".toList).Build sampleWorld).handler =
      some { k8sCache := [some sampleController, some owningController, some emptyController],
             params := { KubeconfigPath := "/twicehub".toList, CacheRefreshDuration := 300 } } :=
  ⟨rfl, by decide, by decide, rfl, rfl⟩

/-! ## Dots in IP literals

Facts about the model of `net.ParseIP`: the decimal and hexadecimal readers
consume no dot, `parseIPv4` accepts exactly three dots, `parseIPv6` none or the
three of a trailing IPv4 part. -/

theorem digit_ne_dot (c : Char) (h : 48 ≤ c.toNat ∧ c.toNat ≤ 57) : c ≠ '.' := by
  rintro rfl
  revert h
  decide

theorem hexVal_ne_dot (c : Char) (d : Nat) (h : hexVal c = some d) : c ≠ '.' := by
  rintro rfl
  have h0 : hexVal '.' = none := by decide
  rw [h0] at h
  cases h

theorem dtoiLoop_dots (s : Str) (n i : Nat) (h : (dtoiLoop s n i).2.2 = true) :
    i ≤ (dtoiLoop s n i).2.1 ∧
    (s.drop ((dtoiLoop s n i).2.1 - i)).count '.' = s.count '.' := by
  induction s generalizing n i with
  | nil =>
    simp only [dtoiLoop] at h ⊢
    split_ifs at h ⊢ with h0
    · simp
  | cons c cs ih =>
    simp only [dtoiLoop] at h ⊢
    split_ifs at h ⊢ with hd hbig h0
    · obtain ⟨h1, h2⟩ := ih _ _ h
      refine ⟨by omega, ?_⟩
      have hc : c ≠ '.' := digit_ne_dot c hd
      have hsub : (dtoiLoop cs (n * 10 + (c.toNat - 48)) (i + 1)).2.1 - i =
          ((dtoiLoop cs (n * 10 + (c.toNat - 48)) (i + 1)).2.1 - (i + 1)) + 1 := by omega
      rw [hsub, List.drop_succ_cons, h2, List.count_cons_of_ne hc.symm]
    · simp

theorem dtoi_dots (s : Str) (h : (dtoi s).2.2 = true) :
    (s.drop (dtoi s).2.1).count '.' = s.count '.' := by
  have := (dtoiLoop_dots s 0 0 h).2
  simpa [dtoi] using this

theorem xtoiLoop_dots (s : Str) (n i : Nat) (h : (xtoiLoop s n i).2.2 = true) :
    i ≤ (xtoiLoop s n i).2.1 ∧
    (s.drop ((xtoiLoop s n i).2.1 - i)).count '.' = s.count '.' := by
  induction s generalizing n i with
  | nil =>
    simp only [xtoiLoop] at h ⊢
    split_ifs at h ⊢ with h0
    · simp
  | cons c cs ih =>
    simp only [xtoiLoop] at h ⊢
    split at h
    · next d hd =>
      split_ifs at h ⊢ with hbig
      obtain ⟨h1, h2⟩ := ih _ _ h
      refine ⟨by omega, ?_⟩
      have hc : c ≠ '.' := hexVal_ne_dot c d hd
      have hsub : (xtoiLoop cs (n * 16 + d) (i + 1)).2.1 - i =
          ((xtoiLoop cs (n * 16 + d) (i + 1)).2.1 - (i + 1)) + 1 := by omega
      rw [hsub, List.drop_succ_cons, h2, List.count_cons_of_ne hc.symm]
    · next hd =>
      split_ifs at h ⊢ with h0
      simp

theorem xtoi_dots (s : Str) (h : (xtoi s).2.2 = true) :
    (s.drop (xtoi s).2.1).count '.' = s.count '.' := by
  have := (xtoiLoop_dots s 0 0 h).2
  simpa [xtoi] using this


theorem parseIPv4Loop_dots (k i : Nat) (s : Str) (p : List Nat) (r : List Nat × Str)
    (h : parseIPv4Loop k i s p = some r) :
    s.count '.' = r.2.count '.' + (if i = 0 then k - 1 else k) := by
  induction k generalizing i s p with
  | zero =>
    simp only [parseIPv4Loop, Option.some.injEq] at h
    subst h
    simp
  | succ k ih =>
    have step : ∀ s1 : Str,
        (if (dtoi s1).2.2 = false ∨ (dtoi s1).1 > 0xFF then none
         else parseIPv4Loop k (i + 1) (s1.drop (dtoi s1).2.1) (p ++ [(dtoi s1).1])) = some r →
        s1.count '.' = r.2.count '.' + k := by
      intro s1 hs
      split_ifs at hs with hbad
      have hok : (dtoi s1).2.2 = true := by
        by_contra hne
        exact hbad (Or.inl (by simpa using hne))
      have hrec := ih _ _ _ hs
      simp only [Nat.add_eq_zero, one_ne_zero, and_false, if_false] at hrec
      rw [dtoi_dots s1 hok] at hrec
      exact hrec
    simp only [parseIPv4Loop] at h
    by_cases hlen : s.length = 0
    · simp [hlen] at h
    · by_cases hi : i > 0
      · have hi0 : ¬ i = 0 := by omega
        simp only [hlen, hi, if_true, if_false] at h
        cases s with
        | nil => simp at hlen
        | cons c t =>
          simp only at h
          by_cases hc : c = '.'
          · subst hc
            simp only [if_true] at h
            have := step t h
            simp only [hi0, if_false, List.count_cons_self, this]
            omega
          · simp [hc] at h
      · have hi0 : i = 0 := by omega
        simp only [hlen, hi, if_false] at h
        have := step s h
        simp only [hi0, if_true, this]
        omega

theorem parseIPv4_dots (s : Str) (h : parseIPv4 s ≠ none) : s.count '.' = 3 := by
  simp only [parseIPv4] at h
  split at h
  · next a b c d hl =>
    have := parseIPv4Loop_dots IPv4len 0 s [] _ hl
    simpa [IPv4len] using this
  · exact absurd rfl h


theorem parseIPv6Loop_dots (fuel : Nat) (st st' : V6State)
    (h : parseIPv6Loop fuel st = some st') :
    st.s.count '.' = st'.s.count '.' ∨ (st.s.count '.' = 3 ∧ st'.s = []) := by
  induction fuel generalizing st with
  | zero =>
    simp only [parseIPv6Loop, Option.some.injEq] at h
    subst h
    exact Or.inl rfl
  | succ fuel ih =>
    simp only [parseIPv6Loop] at h
    by_cases hi : ¬ st.i < IPv6len
    · rw [if_pos hi] at h
      cases h
      exact Or.inl rfl
    · rw [if_neg hi] at h
      by_cases hbad : (xtoi st.s).2.2 = false ∨ (xtoi st.s).1 > 0xFFFF
      · rw [if_pos hbad] at h
        cases h
      · rw [if_neg hbad] at h
        have hok : (xtoi st.s).2.2 = true := by
          by_contra hne
          exact hbad (Or.inl (by simpa using hne))
        have hx := xtoi_dots st.s hok
        by_cases hdot : st.s.get? (xtoi st.s).2.1 = some '.'
        · rw [if_pos hdot] at h
          split_ifs at h
          split at h
          · cases h
          · next ip4 h4 =>
            cases h
            exact Or.inr ⟨parseIPv4_dots st.s (by rw [h4]; simp), rfl⟩
        · rw [if_neg hdot] at h
          split at h
          · next hd =>
            cases h
            left
            rw [← hx, hd]
          · cases h
          · next c0 c1 rest hd =>
            rw [hd] at hx
            by_cases hc0 : c0 ≠ ':'
            · rw [if_pos hc0] at h
              cases h
            · rw [if_neg hc0] at h
              have hc0' : c0 = ':' := not_not.1 hc0
              subst hc0'
              by_cases hc1 : c1 = ':'
              · rw [if_pos hc1] at h
                subst hc1
                split_ifs at h
                split at h
                · cases h
                  left
                  rw [← hx]
                  show List.count '.' [':', ':'] = List.count '.' ([] : Str)
                  decide
                · next y ys =>
                  have := ih _ h
                  simp only at this
                  rw [← hx]
                  simpa using this
              · rw [if_neg hc1] at h
                have := ih _ h
                simp only at this
                rw [← hx]
                simpa using this

theorem parseIPv6Finish_rest (st : V6State) (h : parseIPv6Finish st ≠ none) : st.s = [] := by
  simp only [parseIPv6Finish] at h
  by_cases hl : st.s.length ≠ 0
  · rw [if_pos hl] at h
    exact absurd rfl h
  · exact List.length_eq_zero.1 (not_not.1 hl)

theorem parseIPv6_run_dots (st : V6State) (fuel : Nat)
    (h : (match parseIPv6Loop fuel st with
          | none => none
          | some st' => parseIPv6Finish st') ≠ none) :
    st.s.count '.' = 0 ∨ st.s.count '.' = 3 := by
  split at h
  · exact absurd rfl h
  · next st' hl =>
    have hr := parseIPv6Finish_rest st' h
    rcases parseIPv6Loop_dots fuel st st' hl with h1 | ⟨h1, _⟩
    · left
      rw [h1, hr]
      rfl
    · exact Or.inr h1

theorem parseIPv6_dots (s : Str) (h : parseIPv6 s ≠ none) :
    s.count '.' = 0 ∨ s.count '.' = 3 := by
  unfold parseIPv6 at h
  split at h
  · left
    decide
  · next c t =>
    have := parseIPv6_run_dots _ _ h
    simpa using this
  · exact parseIPv6_run_dots _ _ h

theorem ParseIPLoop_cases (s t : Str) (h : ParseIPLoop s t ≠ none) :
    parseIPv4 s ≠ none ∨ parseIPv6 s ≠ none := by
  induction t with
  | nil => exact absurd rfl h
  | cons c cs ih =>
    simp only [ParseIPLoop] at h
    split_ifs at h
    · exact Or.inl h
    · exact Or.inr h
    · exact ih h

/-- An IP literal accepted by the model of `net.ParseIP` holds no dot or three dots. -/
theorem ParseIP_dots (s : Str) (h : ParseIP s ≠ none) : s.count '.' ≠ 1 := by
  rcases ParseIPLoop_cases s s h with h4 | h6
  · rw [parseIPv4_dots s h4]
    decide
  · rcases parseIPv6_dots s h6 with h0 | h3
    · rw [h0]
      decide
    · rw [h3]
      decide

/-- A string that starts with `kubernetes://` is no IP literal. -/
theorem ParseIP_kubePrefix (s : Str) : ParseIP (kubePrefix ++ s) = none := by
  simp [ParseIP, kubePrefix, ParseIPLoop, parseIPv6, parseIPv6Loop, xtoi, xtoiLoop, hexVal,
    IPv6len]

/-! ## Prefixed identifiers -/

theorem keyFromUID_of_not_ip (N : Net) (key : Str → Str → Str) (uid : Str)
    (h : N.ParseIP uid = none) :
    keyFromUID N key uid =
      if Contains (TrimPrefix uid kubePrefix) ['.'] then
        match Split (TrimPrefix uid kubePrefix) '.' with
        | [p0, p1] => key p1 p0
        | _ => TrimPrefix uid kubePrefix
      else TrimPrefix uid kubePrefix := by
  simp [keyFromUID, h]

theorem keyFromUID_of_ip (N : Net) (key : Str → Str → Str) (uid : Str)
    (h : N.ParseIP uid ≠ none) : keyFromUID N key uid = uid := by
  have hs : (N.ParseIP uid).isSome = true := Option.isSome_iff_ne_none.2 h
  simp [keyFromUID, hs]

theorem reorder_of_count_ne_one (key : Str → Str → Str) (r : Str) (h : r.count '.' ≠ 1) :
    (if Contains r ['.'] then
      match Split r '.' with
      | [p0, p1] => key p1 p0
      | _ => r
    else r) = r := by
  have hl := Split_length r '.'
  split_ifs with hc
  · split
    · next p0 p1 hsp =>
      rw [hsp] at hl
      simp at hl
      omega
    · rfl
  · rfl

/-- The prefix law of `keyFromUID` for any `net.ParseIP` that rejects the
prefixed string and accepts no string with exactly one dot. -/
theorem keyFromUID_prefixed_of (N : Net) (key : Str → Str → Str) (s : Str)
    (hs : ¬ kubePrefix <+: s) (h2 : N.ParseIP (kubePrefix ++ s) = none)
    (h1 : N.ParseIP s ≠ none → s.count '.' ≠ 1) :
    keyFromUID N key (kubePrefix ++ s) = keyFromUID N key s := by
  rw [keyFromUID_of_not_ip N key _ h2, TrimPrefix_append]
  by_cases hip : N.ParseIP s = none
  · rw [keyFromUID_of_not_ip N key _ hip, TrimPrefix_unprefixed s kubePrefix hs]
  · rw [keyFromUID_of_ip N key s hip]
    exact reorder_of_count_ne_one key s (h1 hip)

/-- C26: for every string `s` that does not itself start with `kubernetes://`,
`keyFromUID("kubernetes://" + s)` equals `keyFromUID(s)`.  This holds for any
`net.ParseIP` that rejects the prefixed string and accepts `s` only when `s`
does not hold exactly one dot; the model of Go's `net.ParseIP` has both
properties, so the equation holds for it. -/
theorem keyFromUID_prefixed (key : Str → Str → Str) (s : Str) (hs : ¬ kubePrefix <+: s) :
    (∀ N : Net, N.ParseIP (kubePrefix ++ s) = none →
      (N.ParseIP s ≠ none → s.count '.' ≠ 1) →
      keyFromUID N key (kubePrefix ++ s) = keyFromUID N key s) ∧
    goNet.ParseIP (kubePrefix ++ s) = none ∧
    (goNet.ParseIP s ≠ none → s.count '.' ≠ 1) ∧
    keyFromUID goNet key (kubePrefix ++ s) = keyFromUID goNet key s :=
  ⟨fun N h2 h1 => keyFromUID_prefixed_of N key s hs h2 h1,
   ParseIP_kubePrefix s, ParseIP_dots s,
   keyFromUID_prefixed_of goNet key s hs (ParseIP_kubePrefix s) (ParseIP_dots s)⟩

/-- Witness of C26: `kubernetes://10.1.2.3` yields the bare IP `10.1.2.3`, and
`kubernetes://web-1.default` the key of `web-1.default`. -/
theorem keyFromUID_prefixed_witness :
    keyFromUID goNet key "kubernetes://10.1.2.3".toList = "10.1.2.3".toList ∧
    keyFromUID goNet key "kubernetes://web-1.default".toList =
      keyFromUID goNet key "web-1.default".toList :=
  ⟨((keyFromUID_prefixed key "10.1.2.3".toList (by decide)).2.2.2).trans (by decide),
   (keyFromUID_prefixed key "web-1.default".toList (by decide)).2.2.2⟩

/-! ## Ports beyond 32 bits -/

/-- C27: for every pod, whose container ports are 32-bit values, and every port
greater than 2147483647, `findContainer` returns the empty string: the
container port is widened and compared with the requested port as it is, so a
port that equals a declared one modulo 2^32 does not match it. -/
theorem findContainer_large_port (p : v1.Pod) (port : Int) (hport : 2147483647 < port)
    (h32 : ∀ c ∈ p.Spec.Containers, ∀ cp ∈ c.Ports,
      -2147483648 ≤ cp.ContainerPort ∧ cp.ContainerPort ≤ 2147483647) :
    findContainer p port = [] := by
  have hn : ¬ port ≤ 0 := by omega
  simp only [findContainer, hn, if_false]
  apply findContainerLoop_none
  intro d hd cp hcp he
  have := (h32 d hd cp hcp).2
  omega

/-- Witness of C27: the sample pod declares port 8080; the port 2^32 + 8080,
which a truncation to 32 bits would turn into 8080, names no container. -/
theorem findContainer_large_port_witness :
    (4294975376 : Int) % 4294967296 = 8080 ∧
    findContainer samplePod 8080 = "web".toList ∧
    findContainer samplePod 4294975376 = [] :=
  ⟨by decide, by decide,
   findContainer_large_port samplePod 4294975376 (by decide) (by decide)⟩

/-! ## Stop signals in a run -/

theorem stops_append (l1 l2 : List Event)
    (h1 : List.Chain' stopAfterFailure l1 ∧ ∀ e ∈ l1.head?, e ≠ Event.Stop)
    (h2 : List.Chain' stopAfterFailure l2 ∧ ∀ e ∈ l2.head?, e ≠ Event.Stop) :
    List.Chain' stopAfterFailure (l1 ++ l2) ∧ ∀ e ∈ (l1 ++ l2).head?, e ≠ Event.Stop := by
  constructor
  · apply List.Chain'.append h1.1 h2.1
    intro x _ y hy hstop
    exact absurd hstop (h2.2 y hy)
  · intro e he
    cases l1 with
    | nil => exact h2.2 e he
    | cons a l => exact h1.2 e he

theorem getNewCacheController_stops (b : builder) (cs : k8s.Interface) :
    List.Chain' stopAfterFailure (getNewCacheController b cs).events ∧
    ∀ e ∈ (getNewCacheController b cs).events.head?, e ≠ Event.Stop := by
  simp only [getNewCacheController]
  split_ifs
  · constructor
    · simp [List.Chain', stopAfterFailure]
    · simp
  · constructor
    · simp [List.Chain', stopAfterFailure]
    · simp

theorem remoteDataLoop_stops (w : World) (entries : List (Str × Bytes)) (st : RemoteRun)
    (h : List.Chain' stopAfterFailure st.events ∧ ∀ e ∈ st.events.head?, e ≠ Event.Stop) :
    List.Chain' stopAfterFailure (remoteDataLoop w entries st).events ∧
    ∀ e ∈ (remoteDataLoop w entries st).events.head?, e ≠ Event.Stop := by
  induction entries generalizing st with
  | nil => exact h
  | cons x rest ih =>
    obtain ⟨dataKey, kubeconfig⟩ := x
    have hone : List.Chain' stopAfterFailure [Event.GetK8sInterface kubeconfig] ∧
        ∀ e ∈ [Event.GetK8sInterface kubeconfig].head?, e ≠ Event.Stop := by
      constructor
      · simp
      · simp
    simp only [remoteDataLoop]
    cases w.getK8sInterface kubeconfig with
    | error err => exact stops_append _ _ h hone
    | ok c =>
      apply ih
      exact stops_append _ _ (stops_append _ _ h hone) (getNewCacheController_stops st.b c)

theorem remoteSecretLoop_stops (w : World) (secrets : List v1.Secret) (st : RemoteRun)
    (h : List.Chain' stopAfterFailure st.events ∧ ∀ e ∈ st.events.head?, e ≠ Event.Stop) :
    List.Chain' stopAfterFailure (remoteSecretLoop w secrets st).events ∧
    ∀ e ∈ (remoteSecretLoop w secrets st).events.head?, e ≠ Event.Stop := by
  induction secrets generalizing st with
  | nil => exact h
  | cons secret rest ih =>
    simp only [remoteSecretLoop]
    split
    · exact remoteDataLoop_stops w secret.Data st h
    · exact ih _ (remoteDataLoop_stops w secret.Data st h)

theorem createRemoteCacheControllers_stops (b : builder) (cs : k8s.Interface) (w : World) :
    List.Chain' stopAfterFailure (createRemoteCacheControllers b cs w).events ∧
    ∀ e ∈ (createRemoteCacheControllers b cs w).events.head?, e ≠ Event.Stop := by
  simp only [createRemoteCacheControllers]
  split
  · constructor <;> simp
  · apply remoteSecretLoop_stops
    constructor <;> simp

theorem Build_stops (b : builder) (w : World) :
    List.Chain' stopAfterFailure (b.Build w).events ∧
    ∀ e ∈ (b.Build w).events.head?, e ≠ Event.Stop := by
  have hnew : ∀ path : Str, List.Chain' stopAfterFailure [Event.NewClient path] ∧
      ∀ e ∈ [Event.NewClient path].head?, e ≠ Event.Stop := by
    intro path
    constructor <;> simp
  simp only [builder.Build]
  split
  · split
    · exact hnew _
    · split
      · exact stops_append [_] _ (hnew _) (getNewCacheController_stops b _)
      · split
        · exact stops_append (_ :: _) _
            (stops_append [_] _ (hnew _) (getNewCacheController_stops b _))
            (createRemoteCacheControllers_stops _ _ w)
        · exact stops_append (_ :: _) _
            (stops_append [_] _ (hnew _) (getNewCacheController_stops b _))
            (createRemoteCacheControllers_stops _ _ w)
  · constructor <;> simp

theorem stops_split (evs pre post : List Event)
    (h : List.Chain' stopAfterFailure evs ∧ ∀ e ∈ evs.head?, e ≠ Event.Stop)
    (hs : evs = pre ++ Event.Stop :: post) :
    ∃ pre', pre = pre' ++ [Event.WaitForCacheSync false] := by
  subst hs
  rcases List.eq_nil_or_concat pre with hnil | ⟨L, a, hL⟩
  · subst hnil
    exact absurd rfl (h.2 Event.Stop (by simp))
  · subst hL
    have hc := (List.chain'_append.1 h.1).2.2 a (by simp) Event.Stop (by simp)
    refine ⟨L, ?_⟩
    rw [hc rfl]
    simp

/-! ## The remote controllers in listing order -/

theorem getNewCacheController_controller (b b' : builder) (cs : k8s.Interface) :
    (getNewCacheController b cs).controller = (getNewCacheController b' cs).controller := by
  simp only [getNewCacheController]
  split_ifs <;> rfl

theorem remoteDataLoop_decoded (w : World) (b : builder) (entries : List (Str × Bytes))
    (hall : ∀ e ∈ entries, ∃ c, w.getK8sInterface e.2 = Except.ok c) (st : RemoteRun)
    (hst : st.err = none) :
    (remoteDataLoop w entries st).remote_controllers =
      st.remote_controllers ++ entries.map (fun e => remoteControllerOf w b e.2) ∧
    (remoteDataLoop w entries st).err = none := by
  induction entries generalizing st with
  | nil => exact ⟨by simp [remoteDataLoop], hst⟩
  | cons x rest ih =>
    obtain ⟨dataKey, kubeconfig⟩ := x
    obtain ⟨c, hc⟩ := hall (dataKey, kubeconfig) (List.mem_cons_self _ _)
    simp only at hc
    have hrest : ∀ e ∈ rest, ∃ c, w.getK8sInterface e.2 = Except.ok c :=
      fun e he => hall e (List.mem_cons_of_mem _ he)
    simp only [remoteDataLoop, hc]
    obtain ⟨h1, h2⟩ := ih hrest
      { events := st.events ++ [Event.GetK8sInterface kubeconfig] ++
          (getNewCacheController st.b c).events,
        b := { st.b with
               controllers := Registry.store st.b.controllers dataKey
                 (getNewCacheController st.b c).controller },
        remote_controllers := st.remote_controllers ++
          [(getNewCacheController st.b c).controller],
        err := none } rfl
    refine ⟨?_, h2⟩
    rw [h1]
    simp only [List.map_cons, remoteControllerOf, hc, List.append_assoc, List.singleton_append]
    rw [getNewCacheController_controller st.b b c]

theorem remoteSecretLoop_decoded (w : World) (b : builder) (secrets : List v1.Secret)
    (hall : ∀ s ∈ secrets, ∀ e ∈ s.Data, ∃ c, w.getK8sInterface e.2 = Except.ok c)
    (st : RemoteRun) (hst : st.err = none) :
    (remoteSecretLoop w secrets st).remote_controllers =
      st.remote_controllers ++
        (secrets.flatMap (fun s => s.Data)).map (fun e => remoteControllerOf w b e.2) ∧
    (remoteSecretLoop w secrets st).err = none := by
  induction secrets generalizing st with
  | nil => exact ⟨by simp [remoteSecretLoop], hst⟩
  | cons secret rest ih =>
    obtain ⟨h1, h2⟩ := remoteDataLoop_decoded w b secret.Data
      (hall secret (List.mem_cons_self _ _)) st hst
    simp only [remoteSecretLoop, h2]
    obtain ⟨h3, h4⟩ := ih (fun s hs => hall s (List.mem_cons_of_mem _ hs)) _ h2
    refine ⟨?_, h4⟩
    rw [h3, h1]
    simp [List.flatMap_cons]

theorem remoteSecretLoop_all_decoded (w : World) (secrets : List v1.Secret) (st : RemoteRun)
    (h : (remoteSecretLoop w secrets st).err = none) :
    ∀ s ∈ secrets, ∀ e ∈ s.Data, ∃ c, w.getK8sInterface e.2 = Except.ok c := by
  intro s hs e he
  cases hg : w.getK8sInterface e.2 with
  | ok c => exact ⟨c, rfl⟩
  | error err =>
    have := remoteSecretLoop_failing_entry w secrets ⟨s, hs, e, he, err, hg⟩ st
    rw [h] at this
    cases this

/-! ## Controllers whose initial sync completed

`getNewCacheController` returns without error exactly when the wait for the
cache sync reports success, and then it returns the controller it built.
`Build` reads the error for the client of the credential path (lines 137-140);
`createRemoteCacheControllers` assigns the error for the client of a secret
entry at line 188 and does not read it.  The wait reports failure only when
its stop channel is closed, which nothing does before the wait returns: the
theorems of this section are about the runs in which the wait of every client
decoded from a secret entry reports success. -/

theorem getNewCacheController_err (b : builder) (cs : k8s.Interface) :
    ((getNewCacheController b cs).err = none ↔ cs.WaitForCacheSync = true) ∧
    (cs.WaitForCacheSync = true →
      (getNewCacheController b cs).controller = some cs.NewCacheController) := by
  cases hs : cs.WaitForCacheSync <;> simp [getNewCacheController, hs]

theorem syncedController_iff (x : Option cacheController) :
    syncedController x ↔
      ∃ clientset : k8s.Interface, clientset.WaitForCacheSync = true ∧
        x = some clientset.NewCacheController := by
  constructor
  · rintro ⟨b, c, he, hc⟩
    have hs := (getNewCacheController_err b c).1.1 he
    exact ⟨c, hs, by rw [← hc, (getNewCacheController_err b c).2 hs]⟩
  · rintro ⟨c, hs, hx⟩
    exact ⟨newBuilder (fun _ _ => Except.ok c), c, (getNewCacheController_err _ c).1.2 hs,
      by rw [hx, (getNewCacheController_err _ c).2 hs]⟩

theorem syncedController_ne_none (x : Option cacheController) (h : syncedController x) :
    x ≠ none := by
  obtain ⟨c, _, hx⟩ := (syncedController_iff x).1 h
  rw [hx]
  exact Option.some_ne_none _

theorem syncedWorld_waits (kubeconfig : Bytes) (c : k8s.Interface)
    (h : syncedWorld.getK8sInterface kubeconfig = Except.ok c) : c.WaitForCacheSync = true := by
  simp only [syncedWorld, syncedGetK8sInterface] at h
  split_ifs at h
  · cases h
    rfl
  · cases h
    rfl

theorem Registry.store_forall (G : Option cacheController → Prop) (m : Registry) (k : Str)
    (v : Option cacheController) (hm : ∀ e ∈ m, G e.2) (hv : G v) :
    ∀ e ∈ Registry.store m k v, G e.2 := by
  induction m with
  | nil =>
    intro e he
    simp only [Registry.store, List.mem_singleton] at he
    subst he
    exact hv
  | cons x m ih =>
    obtain ⟨k', v'⟩ := x
    intro e he
    simp only [Registry.store] at he
    split_ifs at he
    · rcases List.mem_cons.1 he with h1 | h1
      · subst h1
        exact hv
      · exact hm e (List.mem_cons_of_mem _ h1)
    · rcases List.mem_cons.1 he with h1 | h1
      · subst h1
        exact hm _ (List.mem_cons_self _ _)
      · exact ih (fun e he => hm e (List.mem_cons_of_mem _ he)) e h1

theorem remoteDataLoop_synced (w : World)
    (hsync : ∀ (kubeconfig : Bytes) (c : k8s.Interface),
      w.getK8sInterface kubeconfig = Except.ok c → c.WaitForCacheSync = true)
    (entries : List (Str × Bytes)) (st : RemoteRun)
    (hreg : ∀ e ∈ st.b.controllers, syncedController e.2)
    (hrem : ∀ x ∈ st.remote_controllers, syncedController x) :
    (∀ e ∈ (remoteDataLoop w entries st).b.controllers, syncedController e.2) ∧
    (∀ x ∈ (remoteDataLoop w entries st).remote_controllers, syncedController x) := by
  induction entries generalizing st with
  | nil => exact ⟨hreg, hrem⟩
  | cons x rest ih =>
    obtain ⟨dataKey, kubeconfig⟩ := x
    simp only [remoteDataLoop]
    cases hg : w.getK8sInterface kubeconfig with
    | error err =>
      refine ⟨hreg, ?_⟩
      intro x hx
      cases hx
    | ok c =>
      have hc : syncedController (getNewCacheController st.b c).controller :=
        ⟨st.b, c, (getNewCacheController_err st.b c).1.2 (hsync kubeconfig c hg), rfl⟩
      apply ih
      · exact Registry.store_forall syncedController _ _ _ hreg hc
      · intro x hx
        rcases List.mem_append.1 hx with h1 | h1
        · exact hrem x h1
        · simp only [List.mem_singleton] at h1
          subst h1
          exact hc

theorem remoteSecretLoop_synced (w : World)
    (hsync : ∀ (kubeconfig : Bytes) (c : k8s.Interface),
      w.getK8sInterface kubeconfig = Except.ok c → c.WaitForCacheSync = true)
    (secrets : List v1.Secret) (st : RemoteRun)
    (hreg : ∀ e ∈ st.b.controllers, syncedController e.2)
    (hrem : ∀ x ∈ st.remote_controllers, syncedController x) :
    (∀ e ∈ (remoteSecretLoop w secrets st).b.controllers, syncedController e.2) ∧
    (∀ x ∈ (remoteSecretLoop w secrets st).remote_controllers, syncedController x) := by
  induction secrets generalizing st with
  | nil => exact ⟨hreg, hrem⟩
  | cons secret rest ih =>
    have h := remoteDataLoop_synced w hsync secret.Data st hreg hrem
    simp only [remoteSecretLoop]
    split
    · exact h
    · exact ih _ h.1 h.2

theorem createRemoteCacheControllers_synced (b : builder) (cs : k8s.Interface) (w : World)
    (hsync : ∀ (kubeconfig : Bytes) (c : k8s.Interface),
      w.getK8sInterface kubeconfig = Except.ok c → c.WaitForCacheSync = true)
    (hreg : ∀ e ∈ b.controllers, syncedController e.2) :
    (∀ e ∈ (createRemoteCacheControllers b cs w).b.controllers, syncedController e.2) ∧
    (∀ x ∈ (createRemoteCacheControllers b cs w).remote_controllers, syncedController x) := by
  simp only [createRemoteCacheControllers]
  split
  · refine ⟨hreg, ?_⟩
    intro x hx
    cases hx
  · exact remoteSecretLoop_synced w hsync _ _ hreg (by intro x hx; cases hx)

theorem Build_synced (b : builder) (w : World)
    (hsync : ∀ (kubeconfig : Bytes) (c : k8s.Interface),
      w.getK8sInterface kubeconfig = Except.ok c → c.WaitForCacheSync = true)
    (hreg : ∀ e ∈ b.controllers, syncedController e.2) :
    (∀ e ∈ (b.Build w).b.controllers, syncedController e.2) ∧
    (∀ h, (b.Build w).handler = some h → ∀ x ∈ h.k8sCache, syncedController x) := by
  cases hlook : Registry.lookup b.controllers (b.kubeconfigPath w) with
  | some v =>
    simp only [builder.Build, hlook]
    refine ⟨hreg, ?_⟩
    intro h hh x hx
    cases hh
    simp only [List.mem_map] at hx
    obtain ⟨e, he, rfl⟩ := hx
    exact hreg e ((Registry.range_perm w.rangeSeed b.controllers).mem_iff.1 he)
  | none =>
    cases hc : b.newClientFn (b.kubeconfigPath w) w with
    | error err =>
      simp only [builder.Build, hlook, hc]
      exact ⟨hreg, fun h hh => by cases hh⟩
    | ok cs =>
      cases he : (getNewCacheController b cs).err with
      | some err =>
        simp only [builder.Build, hlook, hc, he]
        exact ⟨hreg, fun h hh => by cases hh⟩
      | none =>
        have hl : syncedController (getNewCacheController b cs).controller := ⟨b, cs, he, rfl⟩
        have hr := createRemoteCacheControllers_synced
          { b with controllers := Registry.store b.controllers (b.kubeconfigPath w)
                     (getNewCacheController b cs).controller } cs w hsync
          (Registry.store_forall syncedController _ _ _ hreg hl)
        simp only [builder.Build, hlook, hc, he]
        split
        · refine ⟨hr.1, ?_⟩
          intro h hh x hx
          cases hh
          rcases List.mem_append.1 hx with h1 | h1
          · simp only [List.mem_singleton] at h1
            subst h1
            exact hl
          · exact hr.2 x h1
        · exact ⟨hr.1, fun h hh => by cases hh⟩

theorem BuildAll_synced (ws : List World) (b : builder)
    (hsync : ∀ w ∈ ws, ∀ (kubeconfig : Bytes) (c : k8s.Interface),
      w.getK8sInterface kubeconfig = Except.ok c → c.WaitForCacheSync = true)
    (hreg : ∀ e ∈ b.controllers, syncedController e.2) :
    ∀ r ∈ b.BuildAll ws,
      (∀ e ∈ r.b.controllers, syncedController e.2) ∧
      (∀ h, r.handler = some h → ∀ x ∈ h.k8sCache, syncedController x) := by
  induction ws generalizing b with
  | nil =>
    intro r hr
    cases hr
  | cons w ws ih =>
    have h := Build_synced b w (hsync w (List.mem_cons_self _ _)) hreg
    intro r hr
    simp only [builder.BuildAll] at hr
    rcases List.mem_cons.1 hr with h1 | h1
    · subst h1
      exact h
    · exact ih _ (fun w' hw' => hsync w' (List.mem_cons_of_mem _ hw')) h.1 r h1

/-- C16: let the wait for the cache sync report success for every client that is
decoded from a secret entry, and let the registry of the builder hold only
controllers that `getNewCacheController` returned without error (a builder
from `newBuilder` holds none).  Then after every call of a sequence of `Build`
calls on the builder, every controller in the registry and every controller in
the cache list of the returned handler is one that `getNewCacheController`
returned without error: it is not nil, and it is the controller built on a
client whose wait for the cache sync reported success. -/
theorem Build_stores_synced_controllers (b : builder) (ws : List World)
    (hsync : ∀ w ∈ ws, ∀ (kubeconfig : Bytes) (c : k8s.Interface),
      w.getK8sInterface kubeconfig = Except.ok c → c.WaitForCacheSync = true)
    (hreg : ∀ e ∈ b.controllers, syncedController e.2) :
    ∀ r ∈ b.BuildAll ws,
      (∀ e ∈ r.b.controllers,
        syncedController e.2 ∧ e.2 ≠ none ∧
        ∃ clientset : k8s.Interface, clientset.WaitForCacheSync = true ∧
          e.2 = some clientset.NewCacheController) ∧
      (∀ h, r.handler = some h → ∀ x ∈ h.k8sCache,
        syncedController x ∧ x ≠ none ∧
        ∃ clientset : k8s.Interface, clientset.WaitForCacheSync = true ∧
          x = some clientset.NewCacheController) := by
  intro r hr
  have h := BuildAll_synced ws b hsync hreg r hr
  exact ⟨fun e he => ⟨h.1 e he, syncedController_ne_none _ (h.1 e he),
      (syncedController_iff _).1 (h.1 e he)⟩,
    fun hd hh x hx => ⟨h.2 hd hh x hx, syncedController_ne_none _ (h.2 hd hh x hx),
      (syncedController_iff _).1 (h.2 hd hh x hx)⟩⟩

/-- Witness of C16: two calls of `Build` for `/twicehub`, which lists two secret
entries whose clusters sync.  The first call registers two controllers and
hands three to the handler, the second call hands out the registry; all of
them are synced controllers. -/
theorem Build_stores_synced_controllers_witness :
    (((sampleBuilder "/twicehub".toList).Build syncedWorld).b.controllers =
      [("/twicehub".toList, some sampleController), ("remote".toList, some emptyController)] ∧
     ((sampleBuilder "/twicehub".toList).Build syncedWorld).handler =
      some { k8sCache := [some sampleController, some owningController, some emptyController],
             params := { KubeconfigPath := "/twicehub".toList, CacheRefreshDuration := 300 } }) ∧
    ∀ r ∈ (sampleBuilder "/twicehub".toList).BuildAll [syncedWorld, syncedWorld],
      (∀ e ∈ r.b.controllers,
        syncedController e.2 ∧ e.2 ≠ none ∧
        ∃ clientset : k8s.Interface, clientset.WaitForCacheSync = true ∧
          e.2 = some clientset.NewCacheController) ∧
      (∀ h, r.handler = some h → ∀ x ∈ h.k8sCache,
        syncedController x ∧ x ≠ none ∧
        ∃ clientset : k8s.Interface, clientset.WaitForCacheSync = true ∧
          x = some clientset.NewCacheController) :=
  ⟨⟨rfl, rfl⟩,
   Build_stores_synced_controllers (sampleBuilder "/twicehub".toList) [syncedWorld, syncedWorld]
    (by
      intro w hw kubeconfig c h
      simp only [List.mem_cons, List.mem_singleton, List.not_mem_nil, or_false, or_self] at hw
      subst hw
      exact syncedWorld_waits kubeconfig c h)
    (by
      intro e he
      cases he)⟩

/-- C15: when the secrets are listed, `createRemoteCacheControllers` returns an
error whenever the kubeconfig of some data entry cannot be decoded into a
client.  When the wait for the cache sync reports success for every client
decoded from an entry, `getNewCacheController` returns no error for any of
them, so that an entry fails only by its decoding; then the call returns an
error whenever an entry fails, by its decoding or by an error of
`getNewCacheController`, and a call that returns no error has decoded every
entry and got its controller from `getNewCacheController` without error. -/
theorem createRemoteCacheControllers_failing_entry (b : builder) (cs : k8s.Interface)
    (w : World) (secrets : List v1.Secret)
    (hl : cs.ListSecrets "istio-system".toList "istio/multiCluster=true".toList =
      Except.ok secrets) :
    (∀ s ∈ secrets, ∀ entry ∈ s.Data,
      (∃ e, w.getK8sInterface entry.2 = Except.error e) →
      (createRemoteCacheControllers b cs w).err.isSome = true) ∧
    ((∀ (kubeconfig : Bytes) (c : k8s.Interface),
        w.getK8sInterface kubeconfig = Except.ok c → c.WaitForCacheSync = true) →
      (∀ (kubeconfig : Bytes) (c : k8s.Interface),
        w.getK8sInterface kubeconfig = Except.ok c →
        (getNewCacheController b c).err = none) ∧
      (∀ s ∈ secrets, ∀ entry ∈ s.Data,
        ((∃ e, w.getK8sInterface entry.2 = Except.error e) ∨
         (∃ c, w.getK8sInterface entry.2 = Except.ok c ∧
            (getNewCacheController b c).err ≠ none)) →
        (createRemoteCacheControllers b cs w).err.isSome = true) ∧
      ((createRemoteCacheControllers b cs w).err = none →
        ∀ s ∈ secrets, ∀ entry ∈ s.Data,
          ∃ c, w.getK8sInterface entry.2 = Except.ok c ∧
            (getNewCacheController b c).err = none)) := by
  have hrun : createRemoteCacheControllers b cs w =
      remoteSecretLoop w secrets
        { events := [Event.ListSecrets "istio-system".toList "istio/multiCluster=true".toList],
          b := b, remote_controllers := [], err := none } := by
    have hl' : cs.ListSecrets "istio-system".toList
        ("istio/multiCluster".toList ++ "=true".toList) = Except.ok secrets := hl
    simp only [createRemoteCacheControllers, hl']
    rfl
  have h1 : ∀ s ∈ secrets, ∀ entry ∈ s.Data,
      (∃ e, w.getK8sInterface entry.2 = Except.error e) →
      (createRemoteCacheControllers b cs w).err.isSome = true := by
    intro s hs entry he hf
    rw [hrun]
    exact remoteSecretLoop_failing_entry w secrets ⟨s, hs, entry, he, hf⟩ _
  refine ⟨h1, ?_⟩
  intro hsync
  have h3 : ∀ (kubeconfig : Bytes) (c : k8s.Interface),
      w.getK8sInterface kubeconfig = Except.ok c → (getNewCacheController b c).err = none :=
    fun kubeconfig c h => (getNewCacheController_err b c).1.2 (hsync kubeconfig c h)
  refine ⟨h3, ?_, ?_⟩
  · intro s hs entry he hf
    rcases hf with hf | ⟨c, hf, hne⟩
    · exact h1 s hs entry he hf
    · exact absurd (h3 _ c hf) hne
  · intro hnone s hs entry he
    rw [hrun] at hnone
    obtain ⟨c, hc⟩ := remoteSecretLoop_all_decoded w secrets _ hnone s hs entry he
    exact ⟨c, hc, h3 _ c hc⟩

/-- Witness of C15: the third secret of `failingHubCluster` holds an entry `bad`
that is not a kubeconfig, and the call returns an error; both entries of
`twiceHubCluster` are kubeconfigs of clusters that sync, the call returns no
error, and each entry was decoded and its controller returned without
error. -/
theorem createRemoteCacheControllers_failing_entry_witness :
    ((createRemoteCacheControllers (sampleBuilder "/hub".toList) failingHubCluster
        syncedWorld).err.isSome = true ∧
      (createRemoteCacheControllers (sampleBuilder "/hub".toList) failingHubCluster
        syncedWorld).err =
        some "error on K8s interface access: could not load kubeconfig".toList) ∧
    ((createRemoteCacheControllers (sampleBuilder "/twicehub".toList) twiceHubCluster
        syncedWorld).err = none ∧
      ∀ s ∈ ([{ Data := [("remote".toList, [1])] }, { Data := [("remote".toList, [3])] }] :
          List v1.Secret),
        ∀ entry ∈ s.Data,
          ∃ c, syncedWorld.getK8sInterface entry.2 = Except.ok c ∧
            (getNewCacheController (sampleBuilder "/twicehub".toList) c).err = none) :=
  ⟨⟨(createRemoteCacheControllers_failing_entry (sampleBuilder "/hub".toList)
        failingHubCluster syncedWorld
        [{ Data := [("remote".toList, [1])] }, { Data := [("remote".toList, [3])] },
         { Data := [("bad".toList, [9])] }] rfl).1
        { Data := [("bad".toList, [9])] } (by simp) ("bad".toList, [9]) (by simp)
        ⟨"could not load kubeconfig".toList, rfl⟩,
     by decide⟩,
   ⟨rfl,
    ((createRemoteCacheControllers_failing_entry (sampleBuilder "/twicehub".toList)
        twiceHubCluster syncedWorld
        [{ Data := [("remote".toList, [1])] }, { Data := [("remote".toList, [3])] }] rfl).2
        syncedWorld_waits).2.2 rfl⟩⟩

/-! ## A failing remote discovery -/

theorem owningController_ne_emptyController : owningController ≠ emptyController := by
  intro h
  have := congrArg (fun c => (c.Workload samplePod).isSome) h
  revert this
  decide

/-- C21, on a failing input: the listing holds two secrets with the data key
`remote` and a third one whose entry `bad` is not a kubeconfig.
`createRemoteCacheControllers` fails at `bad`, after it has constructed a
controller for each `remote` entry.  The controller registered for the first
entry, `owningController`, is no longer in the registry after the call: the
entry `remote` holds the controller of the second entry.  Nothing was stored
for `bad`. -/
theorem createRemoteCacheControllers_failure_drops_controller :
    remoteControllerOf sampleWorld (sampleBuilder "/x".toList) [1] = some owningController ∧
    remoteControllerOf sampleWorld (sampleBuilder "/x".toList) [3] = some emptyController ∧
    (createRemoteCacheControllers (sampleBuilder "/x".toList) failingHubCluster
      sampleWorld).err =
      some "error on K8s interface access: could not load kubeconfig".toList ∧
    (createRemoteCacheControllers (sampleBuilder "/x".toList) failingHubCluster
      sampleWorld).events =
      [Event.ListSecrets "istio-system".toList "istio/multiCluster=true".toList,
       Event.GetK8sInterface [1],
       Event.NewCacheController 300, Event.ScheduleDaemon, Event.WaitForCacheSync true,
       Event.GetK8sInterface [3],
       Event.NewCacheController 300, Event.ScheduleDaemon, Event.WaitForCacheSync true,
       Event.GetK8sInterface [9]] ∧
    (createRemoteCacheControllers (sampleBuilder "/x".toList) failingHubCluster
      sampleWorld).b.controllers = [("remote".toList, some emptyController)] ∧
    some owningController ∉ [some emptyController] := by
  refine ⟨rfl, rfl, by decide, by decide, rfl, ?_⟩
  simp only [List.mem_singleton, Option.some.injEq]
  exact owningController_ne_emptyController

/-! ## The order of a handler's cache list -/

/-- C22, falsified as stated: after a first `Build` for `/hub` the registry
holds the local controller `emptyController` under `/hub` and the remote
controller `owningController` under `remote`.  A second `Build` finds the
path registered and ranges over the registry map; in a world where the range
visits `remote` first, the handler's cache list starts with the remote
controller, not with the local one. -/
theorem Build_registered_order_counterexample :
    ((sampleBuilder "/hub".toList).Build sampleWorld).handler =
      some { k8sCache := [some emptyController, some owningController],
             params := { KubeconfigPath := "/hub".toList, CacheRefreshDuration := 300 } } ∧
    ((sampleBuilder "/hub".toList).Build sampleWorld).b.controllers =
      [("/hub".toList, some emptyController), ("remote".toList, some owningController)] ∧
    ((((sampleBuilder "/hub".toList).Build sampleWorld).b).Build reversedWorld).err = none ∧
    ((((sampleBuilder "/hub".toList).Build sampleWorld).b).Build reversedWorld).handler =
      some { k8sCache := [some owningController, some emptyController],
             params := { KubeconfigPath := "/hub".toList, CacheRefreshDuration := 300 } } ∧
    [some owningController, some emptyController] ≠
      [some emptyController, some owningController] := by
  refine ⟨rfl, rfl, rfl, rfl, ?_⟩
  intro h
  simp only [List.cons.injEq, Option.some.injEq] at h
  exact owningController_ne_emptyController h.1

/-- C22, amended: when a successful `Build` creates the controllers (the path
was not registered), the handler's cache list is the local cluster's
controller followed by one controller for each data entry, in the order in
which the secrets and their entries were listed.  When `Build` finds the path
registered, the cache list holds the values of the registry, each entry
once, in the order in which the range over the map visits them, which is a
rearrangement of the registry. -/
theorem Build_cache_list_order (b : builder) (w : World) :
    (∀ (cs : k8s.Interface) (secrets : List v1.Secret),
      Registry.lookup b.controllers (b.kubeconfigPath w) = none →
      b.newClientFn (b.kubeconfigPath w) w = Except.ok cs →
      cs.WaitForCacheSync = true →
      cs.ListSecrets "istio-system".toList "istio/multiCluster=true".toList =
        Except.ok secrets →
      (b.Build w).err = none →
      (b.Build w).handler =
        some { k8sCache := some cs.NewCacheController ::
                 (secrets.flatMap (fun s => s.Data)).map
                   (fun e => remoteControllerOf w b e.2),
               params := b.adapterConfig }) ∧
    ((Registry.lookup b.controllers (b.kubeconfigPath w)).isSome = true →
      ∃ l, (b.Build w).handler = some { k8sCache := l, params := b.adapterConfig } ∧
        List.Perm l (b.controllers.map Prod.snd)) := by
  constructor
  · intro cs secrets hnew hc hs hl herr
    have hb := Build_new b w cs hnew hc hs
    have hcr : ∀ b' : builder, createRemoteCacheControllers b' cs w =
        remoteSecretLoop w secrets
          { events := [Event.ListSecrets "istio-system".toList
              "istio/multiCluster=true".toList],
            b := b', remote_controllers := [], err := none } := by
      intro b'
      simp only [createRemoteCacheControllers, labelSelector_eq, hl]
    have hrem : (createRemoteCacheControllers
        { b with controllers := Registry.store b.controllers (b.kubeconfigPath w)
                   (some cs.NewCacheController) } cs w).err = none := by
      cases hre : (createRemoteCacheControllers
        { b with controllers := Registry.store b.controllers (b.kubeconfigPath w)
                   (some cs.NewCacheController) } cs w).err with
      | none => rfl
      | some e =>
        rw [hb, hre] at herr
        cases herr
    rw [hb, hrem]
    simp only [Option.some.injEq, handler.mk.injEq, and_true, List.singleton_append,
      List.cons.injEq, true_and]
    rw [hcr] at hrem ⊢
    have hall := remoteSecretLoop_all_decoded w secrets _ hrem
    rw [(remoteSecretLoop_decoded w b secrets hall _ rfl).1]
    rfl
  · intro h
    rw [Build_found b w h]
    exact ⟨_, rfl, (Registry.range_perm w.rangeSeed b.controllers).map Prod.snd⟩

/-- Witness of C22 amended: `Build` for `/twicehub` lists the local controller,
then the controllers of the two entries in listing order; the rebuilt `/hub`
gets a rearrangement of its registry. -/
theorem Build_cache_list_order_witness :
    ((sampleBuilder "/twicehub".toList).Build sampleWorld).handler =
      some { k8sCache := [some sampleController, some owningController, some emptyController],
             params := { KubeconfigPath := "/twicehub".toList, CacheRefreshDuration := 300 } } ∧
    (∃ l, ((((sampleBuilder "/hub".toList).Build sampleWorld).b).Build reversedWorld).handler =
        some { k8sCache := l,
               params := ((sampleBuilder "/hub".toList).Build sampleWorld).b.adapterConfig } ∧
      List.Perm l
        (((sampleBuilder "/hub".toList).Build sampleWorld).b.controllers.map Prod.snd)) :=
  ⟨(Build_cache_list_order (sampleBuilder "/twicehub".toList) sampleWorld).1 twiceHubCluster
      [{ Data := [("remote".toList, [1])] }, { Data := [("remote".toList, [3])] }]
      rfl rfl rfl rfl rfl,
   (Build_cache_list_order ((sampleBuilder "/hub".toList).Build sampleWorld).b
      reversedWorld).2 (by decide)⟩

/-! ## The size of a handler's cache list -/

/-- C23, on a failing input: two `Build` calls in a row for `/twicehub`, whose
listing holds the data key `remote` twice.  Both succeed.  The first handler
has three controllers, the second two, and the registry two entries. -/
theorem Build_twice_list_lengths :
    ((sampleBuilder "/twicehub".toList).Build sampleWorld).err = none ∧
    ((((sampleBuilder "/twicehub".toList).Build sampleWorld).b).Build sampleWorld).err = none ∧
    ((sampleBuilder "/twicehub".toList).Build sampleWorld).handler.map
        (fun h => h.k8sCache.length) = some 3 ∧
    ((((sampleBuilder "/twicehub".toList).Build sampleWorld).b).Build sampleWorld).handler.map
        (fun h => h.k8sCache.length) = some 2 ∧
    ((((sampleBuilder "/twicehub".toList).Build sampleWorld).b).Build
      sampleWorld).b.controllers.length = 2 :=
  ⟨rfl, rfl, by decide, by decide, by decide⟩

/-! ## Stopping a controller -/

/-- C24: `getNewCacheController` sends on the stop channel only on the path where
the sync wait reports failure, on which it returns the nil controller and an
error; when it returns a controller without error its run holds no stop
signal.  In every run of `Build` each stop signal comes right after a failed
sync wait.  `GenerateKubernetesAttributes` only calls `Pod` and `Workload` on
controllers, and `Close` returns nil without doing anything. -/
theorem stop_only_after_sync_failure :
    (∀ (b : builder) (cs : k8s.Interface),
      ((getNewCacheController b cs).err = none →
        cs.WaitForCacheSync = true ∧
        (getNewCacheController b cs).controller = some cs.NewCacheController ∧
        Event.Stop ∉ (getNewCacheController b cs).events) ∧
      (Event.Stop ∈ (getNewCacheController b cs).events →
        cs.WaitForCacheSync = false ∧
        (getNewCacheController b cs).controller = none ∧
        (getNewCacheController b cs).err = some "cache sync failure".toList) ∧
      (cs.WaitForCacheSync = false →
        (getNewCacheController b cs).events =
          [Event.NewCacheController b.adapterConfig.CacheRefreshDuration,
           Event.ScheduleDaemon, Event.WaitForCacheSync false, Event.Stop])) ∧
    (∀ (b : builder) (w : World) (pre post : List Event),
      (b.Build w).events = pre ++ Event.Stop :: post →
      ∃ pre', pre = pre' ++ [Event.WaitForCacheSync false]) ∧
    (∀ (N : Net) (key : Str → Str → Str) (h : handler) (inst : ktmpl.Instance),
      ∀ c ∈ (h.GenerateKubernetesAttributes N key inst).calls,
        (∃ i k, c = Call.Pod i k) ∨ (∃ i p, c = Call.Workload i p)) ∧
    (∀ h : handler, h.Close = none) := by
  refine ⟨fun b cs => ⟨fun herr => ?_, fun hstop => ?_, fun hs => ?_⟩,
    fun b w pre post hev => stops_split _ pre post (Build_stops b w) hev,
    fun N key h inst c _ => ?_, fun h => rfl⟩
  · cases hs : cs.WaitForCacheSync
    · simp [getNewCacheController, hs] at herr
    · simp [getNewCacheController, hs]
  · cases hs : cs.WaitForCacheSync
    · simp [getNewCacheController, hs]
    · simp [getNewCacheController, hs] at hstop
  · simp [getNewCacheController, hs]
  · cases c with
    | Pod i k => exact Or.inl ⟨i, k, rfl⟩
    | Workload i p => exact Or.inr ⟨i, p, rfl⟩

/-- Witness of C24: the one stop signal of `Build` for `/brokenhub` follows the
failed sync wait of the cluster behind the entry `broken`; the local
controller, which synced, is not stopped, and `Build` for `/hub` sends no
stop signal at all. -/
theorem stop_only_after_sync_failure_witness :
    ((sampleBuilder "/brokenhub".toList).Build sampleWorld).events =
      [Event.NewClient "/brokenhub".toList,
       Event.NewCacheController 300, Event.ScheduleDaemon, Event.WaitForCacheSync true,
       Event.ListSecrets "istio-system".toList "istio/multiCluster=true".toList,
       Event.GetK8sInterface [2],
       Event.NewCacheController 300, Event.ScheduleDaemon, Event.WaitForCacheSync false] ++
      Event.Stop :: [] ∧
    (∃ pre', [Event.NewClient "/brokenhub".toList,
       Event.NewCacheController 300, Event.ScheduleDaemon, Event.WaitForCacheSync true,
       Event.ListSecrets "istio-system".toList "istio/multiCluster=true".toList,
       Event.GetK8sInterface [2],
       Event.NewCacheController 300, Event.ScheduleDaemon, Event.WaitForCacheSync false] =
      pre' ++ [Event.WaitForCacheSync false]) ∧
    Event.Stop ∉ ((sampleBuilder "/hub".toList).Build sampleWorld).events ∧
    Event.Stop ∉ (getNewCacheController (sampleBuilder "/hub".toList) hubCluster).events :=
  ⟨by decide,
   stop_only_after_sync_failure.2.1 (sampleBuilder "/brokenhub".toList) sampleWorld _ []
     (by decide),
   by decide,
   ((stop_only_after_sync_failure.1 (sampleBuilder "/hub".toList) hubCluster).1 rfl).2.2⟩

/-! ## The registry after a failed Build -/

/-- What a failing `Build` leaves in the registry: nothing new after a failure of
the client factory or of the local cache sync; after a failure of the remote
discovery the path is registered, and the next `Build` for the path takes the
registered branch, makes no call and succeeds. -/
theorem Build_failure_registry (b : builder) (w : World)
    (hnew : Registry.lookup b.controllers (b.kubeconfigPath w) = none) :
    (∀ e, b.newClientFn (b.kubeconfigPath w) w = Except.error e → (b.Build w).b = b) ∧
    (∀ cs, b.newClientFn (b.kubeconfigPath w) w = Except.ok cs →
      cs.WaitForCacheSync = false → (b.Build w).b = b) ∧
    (∀ cs, b.newClientFn (b.kubeconfigPath w) w = Except.ok cs →
      cs.WaitForCacheSync = true →
      (Registry.lookup (b.Build w).b.controllers (b.kubeconfigPath w)).isSome = true ∧
      ∀ w', b.kubeconfigPath w' = b.kubeconfigPath w →
        ((b.Build w).b.Build w').events = [] ∧ ((b.Build w).b.Build w').err = none ∧
        ((b.Build w).b.Build w').handler.isSome = true) := by
  refine ⟨fun e he => ?_, fun cs hc hs => ?_, fun cs hc hs => ?_⟩
  · simp only [builder.Build, hnew, he]
  · simp only [builder.Build, hnew, hc, getNewCacheController, hs, if_true]
  · have hreg : (Registry.lookup (b.Build w).b.controllers (b.kubeconfigPath w)).isSome =
        true := by
      have hr : (Registry.lookup (createRemoteCacheControllers
          { b with controllers := Registry.store b.controllers (b.kubeconfigPath w)
                     (some cs.NewCacheController) } cs w).b.controllers
          (b.kubeconfigPath w)).isSome = true := by
        apply createRemoteCacheControllers_lookup
        simp [Registry.lookup_store_self]
      rw [Build_new b w cs hnew hc hs]
      split <;> exact hr
    refine ⟨hreg, fun w' hw' => ?_⟩
    have hp : (b.Build w).b.kubeconfigPath w' = b.kubeconfigPath w := by
      rw [Build_kubeconfigPath, hw']
    rw [Build_found (b.Build w).b w' (by rw [hp]; exact hreg)]
    exact ⟨rfl, rfl, rfl⟩

/-- C28, on a failing input: the builder is configured with the path `kubeconfig`;
its cluster lists a secret with the data key `kubeconfig` and a second secret
whose entry is not a kubeconfig.  `Build` fails during the remote discovery.
The local controller, `sampleController`, was registered under the path and
is no longer there: the path holds the controller of the remote entry.  The
next `Build` for the path makes no call and succeeds with that controller
alone. -/
theorem Build_failure_replaces_local_controller :
    (shadowBuilder.Build sampleWorld).handler.isSome = false ∧
    (shadowBuilder.Build sampleWorld).err =
      some ("failure on creating remote controllers: error on K8s interface access: " ++
        "could not load kubeconfig").toList ∧
    (shadowBuilder.Build sampleWorld).events =
      [Event.NewClient "kubeconfig".toList,
       Event.NewCacheController 300, Event.ScheduleDaemon, Event.WaitForCacheSync true,
       Event.ListSecrets "istio-system".toList "istio/multiCluster=true".toList,
       Event.GetK8sInterface [1],
       Event.NewCacheController 300, Event.ScheduleDaemon, Event.WaitForCacheSync true,
       Event.GetK8sInterface [9]] ∧
    shadowHubCluster.NewCacheController = sampleController ∧
    (shadowBuilder.Build sampleWorld).b.controllers =
      [("kubeconfig".toList, some owningController)] ∧
    sampleController ≠ owningController ∧
    ((shadowBuilder.Build sampleWorld).b.Build sampleWorld).events = [] ∧
    ((shadowBuilder.Build sampleWorld).b.Build sampleWorld).handler =
      some { k8sCache := [some owningController],
             params := { KubeconfigPath := "kubeconfig".toList, CacheRefreshDuration := 300 } } :=
  ⟨rfl, by decide, by decide, rfl, rfl, sampleController_ne_owningController, rfl, rfl⟩

end Kubernetesenv
